import Mathlib

/-!
Room lifecycle of the game server (`src/server.js`).

A shallow embedding of the `game` table and of the handlers that read and write it:

* `POST   /api/game/room`                 : `create_room`
* `GET    /api/game/room/:room_code`      : `find_room_by_code`
* `GET    /api/game/room/id/:room_id`     : `find_room_by_id`
* `GET    /api/game/check-active/:user_id`: `check_active_room`
* `PUT    /api/game/room/:room_id`        : `update_room`
* `DELETE /api/game/room/:room_id`        : `delete_room`
* `cleanupClosedRooms`, the periodic sweep.

and of two handlers of the `users` table that rewrite the card inventory:

* `POST   /api/user/transfer-card`        : `transfer_card`
* `POST   /api/user/:id/craft`            : `craft`

Modelling conventions.

* The table is a list of rows in physical order plus the value the `SERIAL` sequence hands out
  next. A `SELECT` returns the matching rows in list order, so `rows[0]` is the list head.
* Integers are mathematical integers (`Int`). A statement that is handed an integer outside the
  range of its column (`INTEGER` for `id`, `bet` and the gameplay columns, `BIGINT` for the
  players and the user ids) raises, and so does the sequence behind `id SERIAL` once it has
  passed 2147483647. Numbers of a JSON body are taken as the integers written in the body (the
  rounding of JavaScript numbers beyond 2^53 is not modelled).
* Texts are Lean strings. A statement that is handed a text with a NUL character raises. A text
  assigned to a `VARCHAR(n)` column is cut to its first `n` characters when everything past them
  is blank, and raises otherwise.
* Timestamps are integers counting microseconds. In an answer a timestamp is a JavaScript
  `Date`, which counts whole milliseconds: `toDate` cuts the microseconds off. The time zone and
  the range of `Date` play no part. The driver hands a `BIGINT` column to the handler as the
  string of its numeral; an answer is modelled with the integer that the string spells.
* An id in a path (`:room_id`, `:user_id`, `:id`) is modelled as the integer that the path
  segment spells; a segment that spells no integer is not considered.
* A request property is a `Field`: absent, JSON `null`, or a value of the column type. A body of
  the PUT handler is a `Patch`: its keys are column names spelled exactly as in
  `CREATE TABLE game`. A body with any other key (another spelling of a column name, a name that
  is no column, SQL text) is not a `Patch`, although the handler would splice such a key into
  its statement too.
* Every raise of the store ends in the handler's `catch` branch (HTTP 500). Besides the above,
  `NOT NULL`, `UNIQUE`/`PRIMARY KEY`, and a column assigned twice in one `UPDATE` are modelled.
* Handlers run one after another: each call takes the store and returns the new store together
  with the HTTP response. The one exception is `update_room_write`, the part of the PUT handler
  after its join check, which lets two requests be interleaved between check and write.
* The card handlers take `toLowerCase()` as a parameter `lower` and the store's reading of a
  text as an integer as a parameter `readInt`; the random index of a craft is a parameter, and
  the transfer takes an oracle `raises` that says on which statement of its transaction, if
  any, the store raises for a reason of its own.
-/

namespace GameServer

/-! ## Data model -/

/-- A property of a JSON request body: not there, `null`, or a value. -/
inductive Field (α : Type) where
  | absent : Field α
  | null : Field α
  | val (a : α) : Field α
deriving DecidableEq, Repr

/-- One row of table `game` (`CREATE TABLE IF NOT EXISTS game`, lines 97-113). Columns declared
`NOT NULL` (and the serial key) are plain values, the others are optional. `updated_at` is only
ever written from `CURRENT_TIMESTAMP`, so it is a plain value too. -/
structure Room where
  id : Int
  room_code : String
  player1 : Int
  player2 : Option Int
  game_state : Option String
  sender_hod : Option Int
  protect_hod : Option Int
  zone_sender : Option Int
  zone_protect1 : Option Int
  zone_protect2 : Option Int
  bet : Option Int
  created_at : Option Int
  updated_at : Int
deriving DecidableEq, Repr

/-- The table `game`: its rows and the next value of the sequence behind `id SERIAL`. -/
structure Store where
  rows : List Room
  nextId : Int
deriving DecidableEq, Repr

/-- The table right after `initDatabase` on a fresh database. -/
def emptyStore : Store := { rows := [], nextId := 1 }

/-- Field `status` of a response body. -/
inductive Status where
  | success
  | error
deriving DecidableEq, Repr

/-- The distinct `message` texts of the room handlers. -/
inductive Msg where
  /-- Text: Код комнаты и ID игрока обязательны. -/
  | fieldsRequired
  /-- Text: Вы находитесь в активной игре. ... -/
  | inActiveGame
  /-- Text: Комната с таким кодом уже существует. -/
  | roomCodeExists
  /-- Text: Игровая комната создана! -/
  | roomCreated
  /-- Text: Ошибка создания игровой комнаты. -/
  | createFailed
  /-- Text: Комната закрыта. -/
  | roomClosed
  /-- Text: Комната не найдена. -/
  | roomNotFound
  /-- Text: Нет данных для обновления. -/
  | noUpdateData
  /-- Text: Комната обновлена! -/
  | roomUpdated
  /-- Text: Ошибка обновления комнаты. -/
  | updateFailed
  /-- Text: Комната удалена! -/
  | roomDeleted
  /-- Text: Ошибка поиска комнаты. -/
  | findFailed
  /-- Text: Ошибка получения комнаты. -/
  | getFailed
  /-- Text: Ошибка проверки активных игр. -/
  | checkFailed
  /-- Text: Ошибка удаления комнаты. -/
  | deleteFailed
deriving DecidableEq, Repr

/-- An HTTP answer of a room handler: the status code and the properties of the JSON body
(the raw `error` text of a 500 answer is left out). The timestamps of `room` are dates, see
`Room.toJson`. -/
structure Response where
  http : Nat
  status : Status
  message : Option Msg
  room : Option Room
  active_room : Option String
deriving DecidableEq, Repr

/-- The columns selected by the check-active query:
`SELECT id, room_code, game_state, player1, player2, bet FROM game`. -/
structure ActiveGame where
  id : Int
  room_code : String
  game_state : Option String
  player1 : Int
  player2 : Option Int
  bet : Option Int
deriving DecidableEq, Repr

/-- Answer of `GET /api/game/check-active/:user_id`; only the error answer has a `message`. -/
structure ActiveResponse where
  http : Nat
  status : Status
  message : Option Msg
  active_game : Option ActiveGame
deriving DecidableEq, Repr

/-- A request body of `PUT /api/game/room/:room_id` whose keys are column names, spelled as in
`CREATE TABLE game`: one optional property per column. -/
structure Patch where
  id : Field Int
  room_code : Field String
  player1 : Field Int
  player2 : Field Int
  game_state : Field String
  sender_hod : Field Int
  protect_hod : Field Int
  zone_sender : Field Int
  zone_protect1 : Field Int
  zone_protect2 : Field Int
  bet : Field Int
  created_at : Field Int
  updated_at : Field Int
deriving DecidableEq, Repr

/-- The body `{}`. -/
def Patch.none : Patch :=
  { id := .absent, room_code := .absent, player1 := .absent, player2 := .absent,
    game_state := .absent, sender_hod := .absent, protect_hod := .absent,
    zone_sender := .absent, zone_protect1 := .absent, zone_protect2 := .absent,
    bet := .absent, created_at := .absent, updated_at := .absent }

/-! ## Helpers shared by the handlers -/

/-- JavaScript truthiness of a string property: `!x` holds for a missing property, `null`
and the empty string. -/
def Field.truthyStr : Field String → Bool
  | .val s => s != ""
  | _ => false

/-- JavaScript truthiness of a numeric property: `!x` holds for a missing property, `null`
and `0`. -/
def Field.truthyInt : Field Int → Bool
  | .val n => n != 0
  | _ => false

/-- Is the property missing from the body. -/
def Field.isAbsent {α : Type} : Field α → Bool
  | .absent => true
  | _ => false

/-- Value written to a nullable column by `SET col = $k`; the old value when the key is
missing. -/
def Field.write {α : Type} (f : Field α) (old : Option α) : Option α :=
  match f with
  | .absent => old
  | .null => Option.none
  | .val a => some a

/-- Value written to a `NOT NULL` column (a `null` is rejected before, see `nullInNotNull`). -/
def Field.writeReq {α : Type} (f : Field α) (old : α) : α :=
  match f with
  | .val a => a
  | _ => old

/-- The values of an `INTEGER` column or parameter. -/
def inInt4 (n : Int) : Prop := -2147483648 ≤ n ∧ n ≤ 2147483647

/-- The values of a `BIGINT` column or parameter. -/
def inInt8 (n : Int) : Prop := -9223372036854775808 ≤ n ∧ n ≤ 9223372036854775807

instance (n : Int) : Decidable (inInt4 n) := by
  unfold inInt4; exact inferInstance

instance (n : Int) : Decidable (inInt8 n) := by
  unfold inInt8; exact inferInstance

/-- A nullable integer that a statement can bind: `NULL`, or a value that `P` admits. -/
def nullOr (P : Int → Prop) [DecidablePred P] : Option Int → Bool
  | Option.none => true
  | some n => decide (P n)

/-- A text with a NUL character, which PostgreSQL does not accept as a parameter. -/
def hasNul (s : String) : Bool := s.data.any (fun c => c.toNat = 0)

/-- A text that can be assigned to a `VARCHAR(n)` column: every character past the first `n` is
a blank (in particular every text of at most `n` characters). -/
def fitsVarchar (n : Nat) (s : String) : Bool := (s.data.drop n).all (fun c => c = ' ')

/-- The first `n` characters of a text: what a `VARCHAR(n)` column stores of a text that fits. -/
def clip (n : Nat) (s : String) : String := String.mk (s.data.take n)

/-- The JavaScript `Date` that node-pg builds from a `TIMESTAMP`: the microseconds below a
whole millisecond are cut off. The result is kept in microseconds. -/
def toDate (t : Int) : Int := t / 1000 * 1000

/-- A row as the handlers get it from the driver and send it in an answer: the two timestamps
are dates. -/
def Room.toJson (r : Room) : Room :=
  { r with created_at := r.created_at.map toDate, updated_at := toDate r.updated_at }

/-- Microseconds in `n` seconds. -/
def seconds (n : Int) : Int := n * 1000000

/-- Microseconds in `n` minutes. -/
def minutes (n : Int) : Int := n * 60000000

/-- The clause `(player1 = $1 OR player2 = $1)`. -/
def playsIn (p : Int) (r : Room) : Prop := r.player1 = p ∨ r.player2 = some p

/-- The clause `game_state IN ('waiting', 'game')`. -/
def isActive (r : Room) : Prop := r.game_state = some "waiting" ∨ r.game_state = some "game"

instance (p : Int) (r : Room) : Decidable (playsIn p r) := by
  unfold playsIn; exact inferInstance

instance (r : Room) : Decidable (isActive r) := by
  unfold isActive; exact inferInstance

/-- Rows of `SELECT ... FROM game WHERE (player1 = $1 OR player2 = $1)
AND game_state IN ('waiting', 'game')`. -/
def activeRoomsOf (rows : List Room) (p : Int) : List Room :=
  rows.filter (fun r => playsIn p r ∧ isActive r)

/-- An error answer `res.status(code).json({ status: 'error', message })`. -/
def errorResponse (code : Nat) (m : Msg) : Response :=
  { http := code, status := .error, message := some m, room := Option.none,
    active_room := Option.none }

/-- The answer for a player who already is in an active game: HTTP 400 with `active_room`. -/
def activeConflict (code : String) : Response :=
  { http := 400, status := .error, message := some .inActiveGame, room := Option.none,
    active_room := some code }

/-- A success answer carrying a row of a query result:
`res.json({ status: 'success', message, room })`. -/
def roomResponse (m : Option Msg) (r : Room) : Response :=
  { http := 200, status := .success, message := m, room := some r.toJson,
    active_room := Option.none }

/-! ## POST /api/game/room -/

/-- The destructuring default `bet = 0`: only a missing property takes the default, an explicit
`null` is passed on to the insert. -/
def betOrDefault : Field Int → Option Int
  | .absent => some 0
  | .null => Option.none
  | .val b => some b

/-- The row built by `INSERT INTO game (room_code, player1, bet) VALUES ($1, $2, $3)`: the other
columns take their declared defaults. -/
def newRoom (id now : Int) (room_code : String) (player1 : Int) (bet : Option Int) : Room :=
  { id := id, room_code := room_code, player1 := player1, player2 := Option.none,
    game_state := some "waiting", sender_hod := some 0, protect_hod := some 0,
    zone_sender := Option.none, zone_protect1 := Option.none, zone_protect2 := Option.none,
    bet := bet, created_at := some now, updated_at := now }

/-- The statement `INSERT INTO game (...) VALUES ($1, $2, $3) RETURNING *`. It raises on a
parameter that cannot be bound (a code with a NUL character, a player outside `BIGINT`, a bet
outside `INTEGER`), on a code that does not fit `VARCHAR(4)`, and when the sequence is used up.
Otherwise the sequence is advanced (for good) and the row, with the code cut to 4 characters, is
appended unless its `id` or its `room_code` is already taken. `none` stands for a raised store
error. -/
def insertGame (s : Store) (now : Int) (room_code : String) (player1 : Int)
    (bet : Option Int) : Store × Option Room :=
  if hasNul room_code ∨ ¬ inInt8 player1 ∨ nullOr inInt4 bet = false then (s, Option.none)
  else if fitsVarchar 4 room_code = false then (s, Option.none)
  else if 2147483647 < s.nextId then (s, Option.none)
  else if s.rows.any (fun r => r.id = s.nextId ∨ r.room_code = clip 4 room_code) then
    ({ s with nextId := s.nextId + 1 }, Option.none)
  else
    ({ rows := s.rows ++ [newRoom s.nextId now (clip 4 room_code) player1 bet],
       nextId := s.nextId + 1 },
     some (newRoom s.nextId now (clip 4 room_code) player1 bet))

/-- The handler of `POST /api/game/room` (lines 717-785), called at time `now`. -/
def create_room (s : Store) (now : Int) (room_code : Field String) (player1 : Field Int)
    (bet : Field Int) : Store × Response :=
  match room_code, player1 with
  | .val c, .val p =>
    -- if (!room_code || !player1)
    if c = "" ∨ p = 0 then (s, errorResponse 400 .fieldsRequired)
    -- the first query compares `$1` with the `BIGINT` player columns
    else if ¬ inInt8 p then (s, errorResponse 500 .createFailed)
    else
      match activeRoomsOf s.rows p with
      | activeGame :: _ => (s, activeConflict activeGame.room_code)
      | [] =>
        -- the second query is handed the code as a text
        if hasNul c then (s, errorResponse 500 .createFailed)
        else
          match s.rows.filter (fun r => r.room_code = c) with
          | _ :: _ => (s, errorResponse 400 .roomCodeExists)
          | [] =>
            match insertGame s now c p (betOrDefault bet) with
            | (s1, some row) => (s1, roomResponse (some .roomCreated) row)
            | (s1, Option.none) => (s1, errorResponse 500 .createFailed)
  | _, _ => (s, errorResponse 400 .fieldsRequired)

/-! ## GET /api/game/room/:room_code, /room/id/:room_id, /check-active/:user_id -/

/-- The handler of `GET /api/game/room/:room_code` (lines 788-832). The query raises on a code
with a NUL character. -/
def find_room_by_code (s : Store) (roomCode : String) : Response :=
  if hasNul roomCode then errorResponse 500 .findFailed
  else
    match s.rows.filter (fun r => r.room_code = roomCode) with
    | room :: _ =>
      if room.game_state = some "closed" then errorResponse 404 .roomClosed
      else roomResponse Option.none room
    | [] => errorResponse 404 .roomNotFound

/-- The handler of `GET /api/game/room/id/:room_id` (lines 835-867). The path parameter is taken
as the integer it spells; the query raises when it is outside `INTEGER`, the type of `id`. -/
def find_room_by_id (s : Store) (roomId : Int) : Response :=
  if ¬ inInt4 roomId then errorResponse 500 .getFailed
  else
    match s.rows.filter (fun r => r.id = roomId) with
    | room :: _ => roomResponse Option.none room
    | [] => errorResponse 404 .roomNotFound

/-- The column list of the check-active query applied to a row. -/
def Room.toActiveGame (r : Room) : ActiveGame :=
  { id := r.id, room_code := r.room_code, game_state := r.game_state, player1 := r.player1,
    player2 := r.player2, bet := r.bet }

/-- The handler of `GET /api/game/check-active/:user_id` (lines 870-907). The path parameter is
taken as the integer it spells; the query raises when it is outside `BIGINT`, the type of the
player columns. -/
def check_active_room (s : Store) (userId : Int) : ActiveResponse :=
  if ¬ inInt8 userId then
    { http := 500, status := .error, message := some .checkFailed, active_game := Option.none }
  else
    match activeRoomsOf s.rows userId with
    | r :: _ =>
      { http := 200, status := .success, message := Option.none,
        active_game := some r.toActiveGame }
    | [] =>
      { http := 200, status := .success, message := Option.none, active_game := Option.none }

/-! ## PUT /api/game/room/:room_id -/

/-- `Object.keys(updates)` is empty (every JSON property is `!== undefined`). -/
def Patch.isEmpty (u : Patch) : Bool :=
  u.id.isAbsent && u.room_code.isAbsent && u.player1.isAbsent && u.player2.isAbsent &&
  u.game_state.isAbsent && u.sender_hod.isAbsent && u.protect_hod.isAbsent &&
  u.zone_sender.isAbsent && u.zone_protect1.isAbsent && u.zone_protect2.isAbsent &&
  u.bet.isAbsent && u.created_at.isAbsent && u.updated_at.isAbsent

/-- An integer property that the store cannot bind: a value that `P` does not admit. -/
def Field.outOf (P : Int → Prop) [DecidablePred P] : Field Int → Bool
  | .val n => !decide (P n)
  | _ => false

/-- A text property that the store cannot bind (it has a NUL character) or cannot assign to its
`VARCHAR(n)` column (it is not blank past the first `n` characters). -/
def Field.badText (n : Nat) : Field String → Bool
  | .val s => hasNul s || !fitsVarchar n s
  | _ => false

/-- A text property as its `VARCHAR(n)` column stores it. -/
def Field.clip (n : Nat) : Field String → Field String
  | .val s => .val (GameServer.clip n s)
  | .null => .null
  | .absent => .absent

/-- The `UPDATE` statement raises whatever rows the table holds: the id of the `WHERE` clause is
outside `INTEGER`, or a value of the patch cannot be bound or assigned to its column. -/
def Patch.unreadable (roomId : Int) (u : Patch) : Bool :=
  !decide (inInt4 roomId) || u.id.outOf inInt4 || u.room_code.badText 4 ||
  u.player1.outOf inInt8 || u.player2.outOf inInt8 || u.game_state.badText 20 ||
  u.sender_hod.outOf inInt4 || u.protect_hod.outOf inInt4 || u.zone_sender.outOf inInt4 ||
  u.zone_protect1.outOf inInt4 || u.zone_protect2.outOf inInt4 || u.bet.outOf inInt4

/-- Is a property given as JSON `null`. -/
def Field.isNull {α : Type} : Field α → Bool
  | .null => true
  | _ => false

/-- The patch writes `NULL` into `id`, `room_code` or `player1`. -/
def Patch.nullInNotNull (u : Patch) : Bool :=
  u.id.isNull || u.room_code.isNull || u.player1.isNull

/-- The row after `SET key = value, ..., updated_at = CURRENT_TIMESTAMP`; the two `VARCHAR`
columns store their values cut to the column length. -/
def applyPatch (u : Patch) (now : Int) (r : Room) : Room :=
  { id := u.id.writeReq r.id,
    room_code := (u.room_code.clip 4).writeReq r.room_code,
    player1 := u.player1.writeReq r.player1,
    player2 := u.player2.write r.player2,
    game_state := (u.game_state.clip 20).write r.game_state,
    sender_hod := u.sender_hod.write r.sender_hod,
    protect_hod := u.protect_hod.write r.protect_hod,
    zone_sender := u.zone_sender.write r.zone_sender,
    zone_protect1 := u.zone_protect1.write r.zone_protect1,
    zone_protect2 := u.zone_protect2.write r.zone_protect2,
    bet := u.bet.write r.bet,
    created_at := u.created_at.write r.created_at,
    updated_at := now }

/-- The patch would give the updated row an `id` or a `room_code` that another row holds. -/
def keyTaken (rows : List Room) (roomId : Int) (u : Patch) : Bool :=
  rows.any (fun q => q.id ≠ roomId ∧
    (u.id = .val q.id ∨ u.room_code.clip 4 = .val q.room_code))

/-- The statement `UPDATE game SET <keys of the body>, updated_at = CURRENT_TIMESTAMP
WHERE id = $n RETURNING *`: the new rows and the returned rows, or `none` for a raised store
error (`updated_at` assigned twice, a parameter that cannot be bound or assigned, and, once a
row matches, `NULL` in a `NOT NULL` column or a duplicate key). -/
def execUpdate (rows : List Room) (now roomId : Int) (u : Patch) :
    Option (List Room × List Room) :=
  if !u.updated_at.isAbsent then Option.none
  else if u.unreadable roomId then Option.none
  else
    match rows.filter (fun r => r.id = roomId) with
    | [] => some (rows, [])
    | t :: ts =>
      if u.nullInNotNull then Option.none
      else if keyTaken rows roomId u then Option.none
      else
        some (rows.map (fun r => if r.id = roomId then applyPatch u now r else r),
              (t :: ts).map (applyPatch u now))

/-- The join check is run (`updates.player2` is truthy) and raises: its `$1` is outside
`BIGINT`, the type of the player columns, or its `$2` is outside `INTEGER`, the type of `id`. -/
def joinCheckRaises (roomId : Int) (u : Patch) : Bool :=
  match u.player2 with
  | .val p => p != 0 && !(decide (inInt8 p) && decide (inInt4 roomId))
  | _ => false

/-- The rows of the join check, run when `updates.player2` is truthy:
`WHERE (player1 = $1 OR player2 = $1) AND game_state IN ('waiting', 'game') AND id != $2`. -/
def joinConflicts (rows : List Room) (roomId : Int) (u : Patch) : List Room :=
  match u.player2 with
  | .val p =>
    if p = 0 then []
    else rows.filter (fun r => (playsIn p r ∧ isActive r) ∧ r.id ≠ roomId)
  | _ => []

/-- The handler of `PUT /api/game/room/:room_id` (lines 910-989), called at time `now`. -/
def update_room (s : Store) (now roomId : Int) (updates : Patch) : Store × Response :=
  if joinCheckRaises roomId updates then (s, errorResponse 500 .updateFailed)
  else
    match joinConflicts s.rows roomId updates with
    | activeGame :: _ => (s, activeConflict activeGame.room_code)
    | [] =>
      -- if (updateFields.length === 0)
      if updates.isEmpty then (s, errorResponse 400 .noUpdateData)
      else
        match execUpdate s.rows now roomId updates with
        | Option.none => (s, errorResponse 500 .updateFailed)
        | some (_, []) => (s, errorResponse 404 .roomNotFound)
        | some (rows1, room :: _) =>
          ({ s with rows := rows1 }, roomResponse (some .roomUpdated) room)

/-- The second half of the PUT handler, everything after the join check: the guard on an empty
body and the `UPDATE` statement. The handler awaits the check query first and this part
afterwards. -/
def update_room_write (s : Store) (now roomId : Int) (updates : Patch) : Store × Response :=
  if updates.isEmpty then (s, errorResponse 400 .noUpdateData)
  else
    match execUpdate s.rows now roomId updates with
    | Option.none => (s, errorResponse 500 .updateFailed)
    | some (_, []) => (s, errorResponse 404 .roomNotFound)
    | some (rows1, room :: _) =>
      ({ s with rows := rows1 }, roomResponse (some .roomUpdated) room)

/-! ## DELETE /api/game/room/:room_id -/

/-- The handler of `DELETE /api/game/room/:room_id` (lines 1115-1147):
`DELETE FROM game WHERE id = $1 RETURNING *`. The path parameter is taken as the integer it
spells; the statement raises when it is outside `INTEGER`, the type of `id`. -/
def delete_room (s : Store) (roomId : Int) : Store × Response :=
  if ¬ inInt4 roomId then (s, errorResponse 500 .deleteFailed)
  else
    match s.rows.filter (fun r => r.id = roomId) with
    | _ :: _ =>
      ({ s with rows := s.rows.filter (fun r => ¬ r.id = roomId) },
       { http := 200, status := .success, message := some .roomDeleted, room := Option.none,
         active_room := Option.none })
    | [] => (s, errorResponse 404 .roomNotFound)

/-! ## cleanupClosedRooms -/

/-- Step 1: `UPDATE game SET game_state = 'closed', updated_at = CURRENT_TIMESTAMP
WHERE game_state = 'waiting' AND updated_at < NOW() - INTERVAL '5 minutes'`. -/
def closeInactiveRooms (now : Int) (rows : List Room) : List Room :=
  rows.map (fun r =>
    if r.game_state = some "waiting" ∧ r.updated_at < now - minutes 5 then
      { r with game_state := some "closed", updated_at := now }
    else r)

/-- Step 2: `DELETE FROM game WHERE game_state = 'closed'
AND updated_at < NOW() - INTERVAL '10 seconds'`. -/
def deleteClosedRooms (now : Int) (rows : List Room) : List Room :=
  rows.filter (fun r => ¬ (r.game_state = some "closed" ∧ r.updated_at < now - seconds 10))

/-- Step 3: `UPDATE game SET game_state = 'finished', updated_at = CURRENT_TIMESTAMP
WHERE game_state = 'game' AND updated_at < NOW() - INTERVAL '30 seconds'`. -/
def autoFinishGames (now : Int) (rows : List Room) : List Room :=
  rows.map (fun r =>
    if r.game_state = some "game" ∧ r.updated_at < now - seconds 30 then
      { r with game_state := some "finished", updated_at := now }
    else r)

/-- Step 4: `DELETE FROM game WHERE game_state = 'finished'
AND updated_at < NOW() - INTERVAL '1 minute'`. -/
def deleteFinishedRooms (now : Int) (rows : List Room) : List Room :=
  rows.filter (fun r => ¬ (r.game_state = some "finished" ∧ r.updated_at < now - minutes 1))

/-- The sweep `cleanupClosedRooms` (lines 1150-1210). Its four statements are separate
transactions, so each reads its own clock: `t1`, `t2`, `t3`, `t4`. -/
def cleanupClosedRooms (s : Store) (t1 t2 t3 t4 : Int) : Store :=
  { s with rows :=
      deleteFinishedRooms t4 (autoFinishGames t3 (deleteClosedRooms t2
        (closeInactiveRooms t1 s.rows))) }

/-- One sweep for which the four statements read the same clock value. -/
def sweep (s : Store) (now : Int) : Store := cleanupClosedRooms s now now now now

/-- What step 1 does to one row: the `SET` of the statement where its `WHERE` holds. -/
def closeRow (now : Int) (r : Room) : Room :=
  if r.game_state = some "waiting" ∧ r.updated_at < now - minutes 5 then
    { r with game_state := some "closed", updated_at := now }
  else r

/-- What step 3 does to one row: the `SET` of the statement where its `WHERE` holds. -/
def finishRow (now : Int) (r : Room) : Room :=
  if r.game_state = some "game" ∧ r.updated_at < now - seconds 30 then
    { r with game_state := some "finished", updated_at := now }
  else r

/-! ## Cards: POST /api/user/transfer-card and POST /api/user/:id/craft -/

/-- One row of table `users`, with the columns the card handlers read or write (the other
columns are not touched by them). -/
structure User where
  id : Int
  first_name : String
  balance : Option Int
  cards : Option String
  updated_at : Int
deriving DecidableEq, Repr

/-- A user row as the handlers get it from the driver and send it in an answer: the timestamp is
a date. -/
def User.toJson (u : User) : User := { u with updated_at := toDate u.updated_at }

/-- A user id of a JSON body: a number or a string. -/
inductive JsId where
  | num (n : Int) : JsId
  | str (s : String) : JsId
deriving DecidableEq, Repr

/-- JavaScript truthiness of an id: `!x` holds for `0` and for the empty string. -/
def JsId.truthy : JsId → Bool
  | .num n => n != 0
  | .str s => s != ""

/-- The user id that `WHERE id = $1` compares with, for an id of the body handed to the
statement: a number is sent as its numeral, a string as it is, and the store reads either as a
`BIGINT`. `readInt` is the store's reading of a text as an integer; `none` stands for a raise
(a text that is no integer, a value outside `BIGINT`). -/
def JsId.toInt8 (readInt : String → Option Int) : JsId → Option Int
  | .num n => if inInt8 n then some n else Option.none
  | .str s =>
    match readInt s with
    | some n => if inInt8 n then some n else Option.none
    | Option.none => Option.none

/-- The value of a run of decimal digits read after the value `acc`, `none` when a character is
no digit. -/
def digitsValue : Nat → List Char → Option Nat
  | acc, [] => some acc
  | acc, c :: cs =>
    if 48 ≤ c.toNat ∧ c.toNat ≤ 57 then digitsValue (acc * 10 + (c.toNat - 48)) cs
    else Option.none

/-- A numeral: one or more decimal digits. -/
def readDigits : List Char → Option Nat
  | [] => Option.none
  | c :: cs => digitsValue 0 (c :: cs)

/-- Reading of a text as an integer that agrees with the store on plain decimal numerals (an
optional sign and digits). Used to evaluate the handlers on such texts; the handlers themselves
take the reading as a parameter. -/
def readDecimal (s : String) : Option Int :=
  match s.data with
  | '-' :: ds => (readDigits ds).map (fun n => - (n : Int))
  | '+' :: ds => (readDigits ds).map (fun n => (n : Int))
  | ds => (readDigits ds).map (fun n => (n : Int))

/-- The characters that `String.prototype.trim` strips (white space and line terminators). -/
def jsWhitespace (c : Char) : Bool :=
  c.toNat = 32 || (9 ≤ c.toNat && c.toNat ≤ 13) || c.toNat = 160 || c.toNat = 5760 ||
  (8192 ≤ c.toNat && c.toNat ≤ 8202) || c.toNat = 8232 || c.toNat = 8233 ||
  c.toNat = 8239 || c.toNat = 8287 || c.toNat = 12288 || c.toNat = 65279

/-- The method `trim()` of a string. -/
def jsTrim (s : String) : String :=
  String.mk (((s.data.dropWhile jsWhitespace).reverse.dropWhile jsWhitespace).reverse)

/-- Splitting a character list at every occurrence of `sep`, empty pieces included. -/
def splitChars (sep : Char) : List Char → List (List Char)
  | [] => [[]]
  | c :: cs =>
    if c = sep then [] :: splitChars sep cs
    else
      match splitChars sep cs with
      | [] => [[c]]
      | w :: ws => (c :: w) :: ws

/-- The call `split(' ')` on a string. -/
def jsSplitSpace (s : String) : List String :=
  (splitChars ' ' s.data).map String.mk

/-- The call `join(' ')` on a list of strings. -/
def joinSpace : List String → String
  | [] => ""
  | [a] => a
  | a :: b :: t => a ++ " " ++ joinSpace (b :: t)

/-- The inventory parse shared by the card handlers:
`cards.trim() === '' || cards === '[]' ? [] :
cards.trim().split(' ').map(card => card.trim()).filter(card => card.length > 0)`,
with `cards = user.cards || ''`. -/
def parseCards (cards : Option String) : List String :=
  if jsTrim (cards.getD "") = "" ∨ cards.getD "" = "[]" then []
  else ((jsSplitSpace (jsTrim (cards.getD ""))).map jsTrim).filter (fun card => 0 < card.length)

/-- The pair `findIndex(p)` and `splice(index, 1)`: the list without its first element that
satisfies `p`, the list itself when there is none. -/
def eraseFirst (p : String → Bool) : List String → List String
  | [] => []
  | a :: t => if p a then t else a :: eraseFirst p t

/-- Lower-casing of one character: the letters `A` to `Z` and the Cyrillic letters `А` to `Я`
(U+0410 to U+042F) move up by 32 code points, every other character stays. -/
def basicLowerChar (c : Char) : Char :=
  if (65 ≤ c.toNat ∧ c.toNat ≤ 90) ∨ (1040 ≤ c.toNat ∧ c.toNat ≤ 1071) then
    Char.ofNat (c.toNat + 32)
  else c

/-- Lower-casing that agrees with `toLowerCase()` on strings whose upper-case letters are
all among `A` to `Z` and `А` to `Я`. Used to evaluate the handlers on such strings; the handlers
themselves take the lower-casing function as a parameter. -/
def basicLower (s : String) : String :=
  String.mk (s.data.map basicLowerChar)

/-- The statements of the transfer transaction, in the order the handler issues them. -/
inductive TxStmt where
  | beginTx
  | selectFrom
  | selectTo
  | updateFrom
  | updateTo
  | commitTx
deriving DecidableEq, Repr

/-- The `message` texts of the two card handlers. -/
inductive CardMsg where
  /-- Text: Все поля обязательны: fromUserId, toUserId, cardKey. -/
  | allFieldsRequired
  /-- Text: Нельзя передать карточку самому себе. -/
  | selfTransfer
  /-- Text: Отправитель не найден. -/
  | senderNotFound
  /-- Text: Получатель не найден. -/
  | receiverNotFound
  /-- Text: У вас нет такой карточки. -/
  | noSuchCard
  /-- Text: Карточка успешно передана! -/
  | transferred
  /-- Text: Ошибка при передаче карточки. -/
  | transferFailed
  /-- Text: Рецепт и выбранные карточки обязательны. -/
  | recipeRequired
  /-- Text: Неизвестный рецепт. -/
  | unknownRecipe
  /-- Text: Пользователь не найден. -/
  | userNotFound
  /-- Text: Требуется ровно N карточек. -/
  | exactCount
  /-- Text: Недостаточно карточек. -/
  | notEnough
  /-- Text: Крафт успешно завершен! -/
  | crafted
  /-- Text: Ошибка при крафте карточек. -/
  | craftFailed
deriving DecidableEq, Repr

/-- An answer of a card handler; `user` (with its timestamp as a date) and `craftedCard` are set
by a successful craft, `transferDetails` (the card key and the first names of sender and
receiver) by a successful transfer. -/
structure CardResponse where
  http : Nat
  status : Status
  message : CardMsg
  user : Option User
  craftedCard : Option String
  transferDetails : Option (String × String × String)
deriving DecidableEq, Repr

/-- An error answer of a card handler. -/
def cardError (code : Nat) (m : CardMsg) : CardResponse :=
  { http := code, status := .error, message := m, user := Option.none,
    craftedCard := Option.none, transferDetails := Option.none }

/-- The statement `UPDATE users SET cards = $1, updated_at = CURRENT_TIMESTAMP WHERE id = $2`. -/
def setCards (users : List User) (now userId : Int) (cards : String) : List User :=
  users.map (fun u => if u.id = userId then { u with cards := some cards, updated_at := now }
    else u)

/-- The handler of `POST /api/user/transfer-card` (lines 1213-1339). The two ids are the
values of the body: the guard compares them with `===`, which tells a number from a string, and
each statement reads its id as a `BIGINT` (`JsId.toInt8`). `lower` is `toLowerCase()`.
`raises st` tells whether the store raises on statement `st` for a reason of its own. Every
raise sends the handler to its `catch` branch, which rolls the transaction back, so the table is
as it was at `BEGIN`. Only `COMMIT` makes the two updates visible. -/
def transfer_card (lower : String → String) (readInt : String → Option Int)
    (raises : TxStmt → Bool) (users : List User) (now : Int)
    (fromUserId toUserId : Field JsId) (cardKey : Field String) : List User × CardResponse :=
  match fromUserId, toUserId, cardKey with
  | .val f, .val t, .val k =>
    -- if (!fromUserId || !toUserId || !cardKey)
    if f.truthy = false ∨ t.truthy = false ∨ k = "" then
      (users, cardError 400 .allFieldsRequired)
    -- if (fromUserId === toUserId)
    else if f = t then (users, cardError 400 .selfTransfer)
    else if raises .beginTx ∨ raises .selectFrom then (users, cardError 500 .transferFailed)
    else
      match f.toInt8 readInt with
      | Option.none => (users, cardError 500 .transferFailed)
      | some fromId =>
        match users.filter (fun u => u.id = fromId) with
        | [] => (users, cardError 404 .senderNotFound)
        | fromUser :: _ =>
          if raises .selectTo then (users, cardError 500 .transferFailed)
          else
            match t.toInt8 readInt with
            | Option.none => (users, cardError 500 .transferFailed)
            | some toId =>
              match users.filter (fun u => u.id = toId) with
              | [] => (users, cardError 404 .receiverNotFound)
              | toUser :: _ =>
                if ¬ (parseCards fromUser.cards).any (fun card => lower card = lower k) then
                  (users, cardError 400 .noSuchCard)
                else if raises .updateFrom then (users, cardError 500 .transferFailed)
                else if raises .updateTo then (users, cardError 500 .transferFailed)
                else if raises .commitTx then (users, cardError 500 .transferFailed)
                else
                  (setCards
                    (setCards users now fromId
                      (joinSpace (eraseFirst (fun card => lower card = lower k)
                        (parseCards fromUser.cards))))
                    now toId (joinSpace (parseCards toUser.cards ++ [k])),
                   { http := 200, status := .success, message := .transferred,
                     user := Option.none, craftedCard := Option.none,
                     transferDetails := some (k, fromUser.first_name, toUser.first_name) })
  | _, _, _ => (users, cardError 400 .allFieldsRequired)

/-- The property names that the object `craftRecipes` inherits from `Object.prototype`; the
lookup `craftRecipes[recipe]` finds a truthy value under each of them. -/
def inheritedNames : List String :=
  ["constructor", "__defineGetter__", "__defineSetter__", "hasOwnProperty", "__lookupGetter__",
    "__lookupSetter__", "isPrototypeOf", "propertyIsEnumerable", "toString", "valueOf",
    "__proto__", "toLocaleString"]

/-- The lookup `craftRecipes[recipe]` in the table of lines 584-601: the properties `required`
and `possibleCards` of the value found, `none` when the value is `undefined`. A value found
under an inherited name has neither property (`required` is `undefined`). -/
def craftRecipes (recipe : String) : Option (Option Int × List String) :=
  if recipe = "rare" then
    some (some 3, ["абросимов", "барулин", "уильям", "гераськин", "дыняк", "камара", "классон",
      "конюшков", "ли"])
  else if recipe = "superrare" then
    some (some 3, ["грицюк", "ткачев_а", "барабанов", "аймурзин", "бориков", "глотов",
      "демченко", "дроздов", "ильенко", "кара", "мамин", "локтионов", "фу", "рушан"])
  else if recipe = "epic" then
    some (some 3, ["демидов", "хмелевский", "гутик", "кагарлицкий", "каюмов", "голдобин"])
  else if recipe = "mythic" then
    some (some 3, ["шабанов", "галимов_арт", "кравцов", "кузнецов", "радулов", "ливо"])
  else if recipe ∈ inheritedNames then some (Option.none, [])
  else Option.none

/-- The entry `userCardsCount[cardKey.toLowerCase()] || 0`: how many cards of the inventory
lower-case to the lower-cased key. -/
def availableCount (lower : String → String) (cardKey : String) (userCardsList : List String) :
    Int :=
  ((userCardsList.filter (fun card => lower card = lower cardKey)).length : Int)

/-- The inner loop `for (let i = 0; i < count; i++)`: `count` times, drop the first card that
matches the key, if there is one. -/
def removeCopies (lower : String → String) (cardKey : String) :
    Nat → List String → List String
  | 0, l => l
  | n + 1, l => removeCopies lower cardKey n (eraseFirst (fun card => lower card = lower cardKey) l)

/-- The outer loop over `Object.entries(selectedCards)` (a count that is not positive gives no
iteration). -/
def removeSelected (lower : String → String) : List (String × Int) → List String → List String
  | [], l => l
  | (cardKey, count) :: rest, l =>
    removeSelected lower rest (removeCopies lower cardKey count.toNat l)

/-- The handler of `POST /api/user/:id/craft` (lines 571-712). `selectedCards` is the list of
entries of the JSON object, `randomIndex` the value of
`Math.floor(Math.random() * possibleCards.length)`. The path parameter is taken as the integer
it spells; the query raises when it is outside `BIGINT`, the type of the user id. -/
def craft (lower : String → String) (users : List User) (now userId : Int)
    (recipe : Field String) (selectedCards : Field (List (String × Int)))
    (randomIndex : Nat) : List User × CardResponse :=
  match recipe, selectedCards with
  | .val rc, .val sel =>
    if rc = "" then (users, cardError 400 .recipeRequired)
    else
      match craftRecipes rc with
      | Option.none => (users, cardError 400 .unknownRecipe)
      | some (required, possibleCards) =>
        if ¬ inInt8 userId then (users, cardError 500 .craftFailed)
        else
          match users.filter (fun u => u.id = userId) with
          | [] => (users, cardError 404 .userNotFound)
          | user :: _ =>
            -- if (totalRequired !== recipeData.required)
            if some (sel.map Prod.snd).sum ≠ required then (users, cardError 400 .exactCount)
            else if sel.any (fun e => availableCount lower e.1 (parseCards user.cards) < e.2)
            then (users, cardError 400 .notEnough)
            else
              (setCards users now userId
                (joinSpace (removeSelected lower sel (parseCards user.cards) ++
                  [possibleCards.getD randomIndex ""])),
               { http := 200, status := .success, message := .crafted,
                 user := some (User.toJson { user with
                   cards := some (joinSpace (removeSelected lower sel (parseCards user.cards) ++
                     [possibleCards.getD randomIndex ""])),
                   updated_at := now }),
                 craftedCard := some (possibleCards.getD randomIndex ""),
                 transferDetails := Option.none })
  | _, _ => (users, cardError 400 .recipeRequired)

/-! ## Sequences of operations -/

/-- One call against the store: a handler with its arguments and clock reading, or a sweep. -/
inductive Op where
  | create (now : Int) (room_code : Field String) (player1 : Field Int) (bet : Field Int) : Op
  | update (now roomId : Int) (updates : Patch) : Op
  | delete (roomId : Int) : Op
  | sweep (t1 t2 t3 t4 : Int) : Op
deriving DecidableEq, Repr

/-- The store after one call. -/
def step (s : Store) : Op → Store
  | .create now room_code player1 bet => (create_room s now room_code player1 bet).1
  | .update now roomId updates => (update_room s now roomId updates).1
  | .delete roomId => (delete_room s roomId).1
  | .sweep t1 t2 t3 t4 => cleanupClosedRooms s t1 t2 t3 t4

/-- The store after a sequence of calls run one after another on the empty table. -/
def run (ops : List Op) : Store := ops.foldl step emptyStore

/-- A patch that stays within what the join check of `update_room` covers: it does not write
`player1`, its `player2` is not the falsy id `0` (for which the check is skipped), and it writes
the state `waiting` or `game` only to a row that is active already. Being a `Patch`, its keys
are exact column names. -/
def guardedPatch (rows : List Room) (roomId : Int) (u : Patch) : Prop :=
  u.player1 = .absent ∧ u.player2 ≠ .val 0 ∧
  ∀ g, u.game_state = .val g → (g = "waiting" ∨ g = "game") →
    ∀ r ∈ rows, r.id = roomId → isActive r

/-- A call whose patch, if it is an update, is guarded in the store it is run on. -/
def guardedOp (s : Store) : Op → Prop
  | .update _ roomId updates => guardedPatch s.rows roomId updates
  | _ => True

/-- Every update of the sequence is guarded in the store it meets, starting from `s`. -/
def guardedRun : Store → List Op → Prop
  | _, [] => True
  | s, op :: ops => guardedOp s op ∧ guardedRun (step s op) ops

/-- The facts carried along a run: row ids are pairwise different and every player is in at
most one row with state `waiting` or `game`. -/
def RunInv (rows : List Room) : Prop :=
  rows.Pairwise (fun a b => a.id ≠ b.id) ∧ ∀ p, (activeRoomsOf rows p).length ≤ 1

/-- The rows hold values of their column types, as far as the queries of the handlers depend on
it: a code has no NUL character and the players are `BIGINT` values. -/
def typedRows (rows : List Room) : Prop :=
  ∀ r ∈ rows, hasNul r.room_code = false ∧ inInt8 r.player1 ∧ nullOr inInt8 r.player2 = true

instance (rows : List Room) : Decidable (typedRows rows) := by
  unfold typedRows; exact inferInstance

/-! ## Auxiliary lemmas -/

theorem activeRoomsOf_eq_nil_iff (rows : List Room) (p : Int) :
    activeRoomsOf rows p = [] ↔ ∀ r ∈ rows, ¬ (playsIn p r ∧ isActive r) := by
  simp [activeRoomsOf, List.filter_eq_nil_iff]

theorem mem_activeRoomsOf (rows : List Room) (p : Int) (r : Room) :
    r ∈ activeRoomsOf rows p ↔ r ∈ rows ∧ playsIn p r ∧ isActive r := by
  simp [activeRoomsOf, List.mem_filter]

theorem codeRows_eq_nil_iff (rows : List Room) (c : String) :
    rows.filter (fun r => r.room_code = c) = [] ↔ ∀ r ∈ rows, r.room_code ≠ c := by
  simp [List.filter_eq_nil_iff]

/-- A text of at most `n` characters is stored as it is. -/
theorem clip_of_length_le (n : Nat) (s : String) (h : s.length ≤ n) : clip n s = s := by
  unfold clip
  have : s.data.take n = s.data := List.take_of_length_le h
  rw [this]

/-- A text of at most `n` characters fits `VARCHAR(n)`. -/
theorem fitsVarchar_of_length_le (n : Nat) (s : String) (h : s.length ≤ n) :
    fitsVarchar n s = true := by
  unfold fitsVarchar
  have : s.data.drop n = [] := List.drop_of_length_le h
  rw [this]
  rfl

/-- What a `VARCHAR(n)` column stores has at most `n` characters. -/
theorem length_clip_le (n : Nat) (s : String) : (clip n s).length ≤ n := by
  unfold clip
  show (s.data.take n).length ≤ n
  rw [List.length_take]
  exact Nat.min_le_left _ _

/-- Cutting a text does not bring in a NUL character. -/
theorem hasNul_clip (n : Nat) (s : String) (h : hasNul s = false) : hasNul (clip n s) = false := by
  unfold hasNul clip at *
  rw [Bool.eq_false_iff] at *
  intro hc
  apply h
  rw [List.any_eq_true] at *
  obtain ⟨x, hx, hxx⟩ := hc
  exact ⟨x, List.mem_of_mem_take hx, hxx⟩

/-- A player held by a row of a typed table is a `BIGINT` value. -/
theorem inInt8_of_playsIn (rows : List Room) (h : typedRows rows) (p : Int) (r : Room)
    (hr : r ∈ rows) (hp : playsIn p r) : inInt8 p := by
  obtain ⟨_, h1, h2⟩ := h r hr
  rcases hp with hp | hp
  · rw [← hp]; exact h1
  · rw [hp] at h2
    simpa [nullOr] using h2

/-- The `INSERT` statement when the store accepts it. -/
theorem insertGame_ok (s : Store) (now : Int) (c : String) (p : Int) (b : Option Int)
    (h1 : hasNul c = false) (h2 : inInt8 p) (h3 : nullOr inInt4 b = true)
    (h4 : fitsVarchar 4 c = true) (h5 : s.nextId ≤ 2147483647)
    (h6 : ∀ r ∈ s.rows, r.id ≠ s.nextId ∧ r.room_code ≠ clip 4 c) :
    insertGame s now c p b =
      ({ rows := s.rows ++ [newRoom s.nextId now (clip 4 c) p b], nextId := s.nextId + 1 },
       some (newRoom s.nextId now (clip 4 c) p b)) := by
  have hany : ¬ ∃ x ∈ s.rows, x.id = s.nextId ∨ x.room_code = clip 4 c := by
    rintro ⟨x, hx, hxx⟩
    rcases hxx with hxx | hxx
    · exact (h6 x hx).1 hxx
    · exact (h6 x hx).2 hxx
  have h5b : ¬ 2147483647 < s.nextId := by omega
  simp [insertGame, h1, h2, h3, h4, h5b, hany]

/-- The `INSERT` statement when the store raises: no row is returned and the rows stay. -/
theorem insertGame_raise (s : Store) (now : Int) (c : String) (p : Int) (b : Option Int)
    (h : ¬ (hasNul c = false ∧ inInt8 p ∧ nullOr inInt4 b = true ∧ fitsVarchar 4 c = true ∧
      s.nextId ≤ 2147483647 ∧ ∀ r ∈ s.rows, r.id ≠ s.nextId ∧ r.room_code ≠ clip 4 c)) :
    (insertGame s now c p b).2 = none ∧ (insertGame s now c p b).1.rows = s.rows := by
  unfold insertGame
  by_cases h1 : hasNul c = true ∨ ¬ inInt8 p ∨ nullOr inInt4 b = false
  · rw [if_pos h1]; exact ⟨rfl, rfl⟩
  · rw [if_neg h1]
    by_cases h4 : fitsVarchar 4 c = false
    · rw [if_pos h4]; exact ⟨rfl, rfl⟩
    · rw [if_neg h4]
      by_cases h5 : 2147483647 < s.nextId
      · rw [if_pos h5]; exact ⟨rfl, rfl⟩
      · rw [if_neg h5]
        by_cases hany : s.rows.any (fun r => r.id = s.nextId ∨ r.room_code = clip 4 c) = true
        · rw [if_pos hany]; exact ⟨rfl, rfl⟩
        · exfalso
          apply h
          have h1a : hasNul c = false := by
            cases hn : hasNul c with
            | false => rfl
            | true => exact absurd (Or.inl hn) h1
          have h2a : inInt8 p := by
            by_contra hc; exact h1 (Or.inr (Or.inl hc))
          have h3a : nullOr inInt4 b = true := by
            cases hn : nullOr inInt4 b with
            | true => rfl
            | false => exact absurd (Or.inr (Or.inr hn)) h1
          have h4a : fitsVarchar 4 c = true := by
            cases hn : fitsVarchar 4 c with
            | true => rfl
            | false => exact absurd hn h4
          refine ⟨h1a, h2a, h3a, h4a, by omega, ?_⟩
          intro r hr
          constructor
          · intro hc
            apply hany
            rw [List.any_eq_true]
            exact ⟨r, hr, by simp [hc]⟩
          · intro hc
            apply hany
            rw [List.any_eq_true]
            exact ⟨r, hr, by simp [hc]⟩

/-- The seven ways a create request can end: the guard, a raise of the first query, a conflict
with an active room, a raise of the second query, a code that is taken, a raise of the insert,
and the insert of the new row. -/
theorem create_room_cases (s : Store) (now : Int) (room_code : Field String)
    (player1 : Field Int) (bet : Field Int) :
    ((¬ ∃ c p, room_code = .val c ∧ player1 = .val p ∧ c ≠ "" ∧ p ≠ 0) ∧
      create_room s now room_code player1 bet = (s, errorResponse 400 Msg.fieldsRequired)) ∨
    ∃ c p, room_code = .val c ∧ player1 = .val p ∧ c ≠ "" ∧ p ≠ 0 ∧
      ((¬ inInt8 p ∧
        create_room s now room_code player1 bet = (s, errorResponse 500 Msg.createFailed)) ∨
      (inInt8 p ∧ ∃ a ∈ s.rows, (playsIn p a ∧ isActive a) ∧
        create_room s now room_code player1 bet = (s, activeConflict a.room_code)) ∨
      (inInt8 p ∧ (∀ r ∈ s.rows, ¬ (playsIn p r ∧ isActive r)) ∧ hasNul c = true ∧
        create_room s now room_code player1 bet = (s, errorResponse 500 Msg.createFailed)) ∨
      (inInt8 p ∧ (∀ r ∈ s.rows, ¬ (playsIn p r ∧ isActive r)) ∧ hasNul c = false ∧
        (∃ r ∈ s.rows, r.room_code = c) ∧
        create_room s now room_code player1 bet = (s, errorResponse 400 Msg.roomCodeExists)) ∨
      (inInt8 p ∧ (∀ r ∈ s.rows, ¬ (playsIn p r ∧ isActive r)) ∧ hasNul c = false ∧
        (∀ r ∈ s.rows, r.room_code ≠ c) ∧
        ¬ (nullOr inInt4 (betOrDefault bet) = true ∧ fitsVarchar 4 c = true ∧
          s.nextId ≤ 2147483647 ∧ ∀ r ∈ s.rows, r.id ≠ s.nextId ∧ r.room_code ≠ clip 4 c) ∧
        (create_room s now room_code player1 bet).2 = errorResponse 500 Msg.createFailed ∧
        (create_room s now room_code player1 bet).1.rows = s.rows) ∨
      (inInt8 p ∧ (∀ r ∈ s.rows, ¬ (playsIn p r ∧ isActive r)) ∧ hasNul c = false ∧
        (∀ r ∈ s.rows, r.room_code ≠ c) ∧
        (nullOr inInt4 (betOrDefault bet) = true ∧ fitsVarchar 4 c = true ∧
          s.nextId ≤ 2147483647 ∧ ∀ r ∈ s.rows, r.id ≠ s.nextId ∧ r.room_code ≠ clip 4 c) ∧
        create_room s now room_code player1 bet =
          ({ rows := s.rows ++ [newRoom s.nextId now (clip 4 c) p (betOrDefault bet)],
             nextId := s.nextId + 1 },
           roomResponse (some Msg.roomCreated)
             (newRoom s.nextId now (clip 4 c) p (betOrDefault bet))))) := by
  cases room_code with
  | absent =>
    left
    exact ⟨fun ⟨_, _, h, _⟩ => Field.noConfusion h, by simp [create_room]⟩
  | null =>
    left
    exact ⟨fun ⟨_, _, h, _⟩ => Field.noConfusion h, by simp [create_room]⟩
  | val c =>
    cases player1 with
    | absent =>
      left
      exact ⟨fun ⟨_, _, _, h, _⟩ => Field.noConfusion h, by simp [create_room]⟩
    | null =>
      left
      exact ⟨fun ⟨_, _, _, h, _⟩ => Field.noConfusion h, by simp [create_room]⟩
    | val p =>
      by_cases hg : c = "" ∨ p = 0
      · left
        refine ⟨?_, by simp [create_room, hg]⟩
        rintro ⟨c2, p2, h1, h2, h3, h4⟩
        have e1 : c = c2 := Field.val.inj h1
        have e2 : p = p2 := Field.val.inj h2
        subst e1; subst e2
        rcases hg with hg | hg
        · exact h3 hg
        · exact h4 hg
      · right
        have hc1 : c ≠ "" := fun h => hg (Or.inl h)
        have hp1 : p ≠ 0 := fun h => hg (Or.inr h)
        refine ⟨c, p, rfl, rfl, hc1, hp1, ?_⟩
        by_cases h8 : inInt8 p
        · right
          cases hact : activeRoomsOf s.rows p with
          | cons a t =>
            left
            have ha : a ∈ activeRoomsOf s.rows p := by rw [hact]; exact List.mem_cons_self a t
            have ha2 := (mem_activeRoomsOf s.rows p a).mp ha
            exact ⟨h8, a, ha2.1, ha2.2, by simp [create_room, hg, h8, hact]⟩
          | nil =>
            right
            have hna := (activeRoomsOf_eq_nil_iff s.rows p).mp hact
            by_cases hn : hasNul c = true
            · left
              exact ⟨h8, hna, hn, by simp [create_room, hg, h8, hact, hn]⟩
            · right
              have hn2 : hasNul c = false := by simpa using hn
              cases hex : s.rows.filter (fun r => r.room_code = c) with
              | cons a t =>
                left
                have ha := (List.mem_filter.mp (by rw [hex]; exact List.mem_cons_self a t :
                  a ∈ s.rows.filter (fun r => r.room_code = c)))
                exact ⟨h8, hna, hn2, ⟨a, ha.1, by simpa using ha.2⟩,
                  by simp [create_room, hg, h8, hact, hn2, hex]⟩
              | nil =>
                right
                have hnc := (codeRows_eq_nil_iff s.rows c).mp hex
                by_cases hF : nullOr inInt4 (betOrDefault bet) = true ∧ fitsVarchar 4 c = true ∧
                    s.nextId ≤ 2147483647 ∧
                    ∀ r ∈ s.rows, r.id ≠ s.nextId ∧ r.room_code ≠ clip 4 c
                · right
                  refine ⟨h8, hna, hn2, hnc, hF, ?_⟩
                  simp [create_room, hg, h8, hact, hn2, hex,
                    insertGame_ok s now c p (betOrDefault bet) hn2 h8 hF.1 hF.2.1 hF.2.2.1
                      hF.2.2.2]
                · left
                  refine ⟨h8, hna, hn2, hnc, hF, ?_⟩
                  have hr := insertGame_raise s now c p (betOrDefault bet)
                    (fun h => hF ⟨h.2.2.1, h.2.2.2.1, h.2.2.2.2.1, h.2.2.2.2.2⟩)
                  cases hi : insertGame s now c p (betOrDefault bet) with
                  | mk s1 r1 =>
                    rw [hi] at hr
                    simp only at hr
                    obtain ⟨hr1, hr2⟩ := hr
                    subst hr1
                    simp [create_room, hg, h8, hact, hn2, hex, hi, hr2]
        · left
          exact ⟨h8, by simp [create_room, hg, h8]⟩

/-! ## POST /api/game/room: conflicts and the inserted row -/

/-- C2: on a table whose rows hold values of their column types, a create request with truthy
(non-empty) `room_code` and `player1` whose player is in a row with state `waiting` or `game` is
answered HTTP 400 with status `error`, `active_room` is the `room_code` of such a row, and the
store is left as it was. -/
theorem create_room_active_player_conflict (s : Store) (now : Int) (room_code : Field String)
    (p : Int) (bet : Field Int) (hc : room_code.truthyStr = true)
    (hp : (Field.val p).truthyInt = true) (htab : typedRows s.rows)
    (h : ∃ r ∈ s.rows, playsIn p r ∧ isActive r) :
    (create_room s now room_code (.val p) bet).1 = s ∧
    (create_room s now room_code (.val p) bet).2.http = 400 ∧
    (create_room s now room_code (.val p) bet).2.status = Status.error ∧
    ∃ r ∈ s.rows, (playsIn p r ∧ isActive r) ∧
      (create_room s now room_code (.val p) bet).2.active_room = some r.room_code := by
  obtain ⟨r0, hr0, hr0a⟩ := h
  have h8 : inInt8 p := inInt8_of_playsIn s.rows htab p r0 hr0 hr0a.1
  have hp1 : p ≠ 0 := by simpa [Field.truthyInt] using hp
  rcases create_room_cases s now room_code (.val p) bet with ⟨hno, _⟩ | ⟨c, p2, hrc, hp2, _, _, hcase⟩
  · exfalso
    cases room_code with
    | absent => simp [Field.truthyStr] at hc
    | null => simp [Field.truthyStr] at hc
    | val c =>
      have hc1 : c ≠ "" := by simpa [Field.truthyStr] using hc
      exact hno ⟨c, p, rfl, rfl, hc1, hp1⟩
  · have e : p = p2 := Field.val.inj hp2
    subst e
    rcases hcase with ⟨hn8, _⟩ | ⟨_, a, ha, hpa, hres⟩ | ⟨_, hna, _⟩ | ⟨_, hna, _⟩ |
      ⟨_, hna, _⟩ | ⟨_, hna, _⟩
    · exact absurd h8 hn8
    · rw [hres]
      exact ⟨rfl, rfl, rfl, a, ha, hpa, rfl⟩
    · exact absurd hr0a (hna r0 hr0)
    · exact absurd hr0a (hna r0 hr0)
    · exact absurd hr0a (hna r0 hr0)
    · exact absurd hr0a (hna r0 hr0)

/-- Witness for C2: player 7 waits in room `AB12` and asks for a second room. -/
theorem create_room_active_player_conflict_witness :
    (create_room (create_room emptyStore 0 (.val "AB12") (.val 7) .absent).1 5
        (.val "CD34") (.val 7) .absent).2.active_room = some "AB12" := by
  have h := create_room_active_player_conflict
    (create_room emptyStore 0 (.val "AB12") (.val 7) .absent).1 5 (.val "CD34") 7 .absent
    (by decide) (by decide) (by decide)
    ⟨newRoom 1 0 "AB12" 7 (some 0), by decide, by decide⟩
  obtain ⟨_, _, _, r, hr, _, hcode⟩ := h
  rw [hcode]
  have hr1 : r = newRoom 1 0 "AB12" 7 (some 0) := by
    have hrows : (create_room emptyStore 0 (.val "AB12") (.val 7) .absent).1.rows
        = [newRoom 1 0 "AB12" 7 (some 0)] := by decide
    rw [hrows] at hr
    simpa using hr
  rw [hr1]
  rfl

/-- C3 (as stated, refuted): room `ABCD` exists and the player of the request is in no active
room, yet the answer is not the conflict: the player id 9223372036854775808 is outside `BIGINT`,
the first query of the handler raises and the answer is HTTP 500. -/
theorem create_room_code_taken_is_500 :
    (∃ r ∈ (create_room emptyStore 0 (.val "ABCD") (.val 42) (.val 10)).1.rows,
      r.room_code = "ABCD") ∧
    (∀ r ∈ (create_room emptyStore 0 (.val "ABCD") (.val 42) (.val 10)).1.rows,
      ¬ (playsIn 9223372036854775808 r ∧ isActive r)) ∧
    create_room (create_room emptyStore 0 (.val "ABCD") (.val 42) (.val 10)).1 1
        (.val "ABCD") (.val 9223372036854775808) .absent
      = ((create_room emptyStore 0 (.val "ABCD") (.val 42) (.val 10)).1,
          errorResponse 500 Msg.createFailed) := by
  decide

/-- C3 (amended): on a table whose rows hold values of their column types, when a row already
holds the code `c` and the player `p`, an id within `BIGINT`, is in no active room,
`create_room(c, p)` is answered HTTP 400 with status `error` and the store is left as it was
(so no second row with code `c` appears); for truthy `c` and `p` the answer is the
duplicate-code conflict. -/
theorem create_room_code_taken (s : Store) (now : Int) (c : String) (p : Int)
    (bet : Field Int) (htab : typedRows s.rows) (hp8 : inInt8 p)
    (hc : ∃ r ∈ s.rows, r.room_code = c)
    (hp : ∀ r ∈ s.rows, ¬ (playsIn p r ∧ isActive r)) :
    (create_room s now (.val c) (.val p) bet).1 = s ∧
    (create_room s now (.val c) (.val p) bet).2.http = 400 ∧
    (create_room s now (.val c) (.val p) bet).2.status = Status.error ∧
    (c ≠ "" → p ≠ 0 →
      (create_room s now (.val c) (.val p) bet).2 = errorResponse 400 Msg.roomCodeExists) := by
  obtain ⟨r0, hr0, hr0c⟩ := hc
  have hn : hasNul c = false := by rw [← hr0c]; exact (htab r0 hr0).1
  rcases create_room_cases s now (.val c) (.val p) bet with
    ⟨hno, hres⟩ | ⟨c2, p2, hrc, hp2, hc1, hp1, hcase⟩
  · rw [hres]
    exact ⟨rfl, rfl, rfl, fun h1 h2 => absurd ⟨c, p, rfl, rfl, h1, h2⟩ hno⟩
  · have e1 : c = c2 := Field.val.inj hrc
    have e2 : p = p2 := Field.val.inj hp2
    subst e1; subst e2
    rcases hcase with ⟨hn8, _⟩ | ⟨_, a, ha, hpa, _⟩ | ⟨_, _, hn1, _⟩ | ⟨_, _, _, _, hres⟩ |
      ⟨_, _, _, hnc, _⟩ | ⟨_, _, _, hnc, _⟩
    · exact absurd hp8 hn8
    · exact absurd hpa (hp a ha)
    · rw [hn] at hn1; exact Bool.noConfusion hn1
    · rw [hres]
      exact ⟨rfl, rfl, rfl, fun _ _ => rfl⟩
    · exact absurd hr0c (hnc r0 hr0)
    · exact absurd hr0c (hnc r0 hr0)

/-- Witness for C3: `create_room("ABCD", player1=42, bet=10)` followed by
`create_room("ABCD", player1=99)`. -/
theorem create_room_code_taken_witness :
    (create_room (create_room emptyStore 0 (.val "ABCD") (.val 42) (.val 10)).1 1
        (.val "ABCD") (.val 99) .absent).1
      = (create_room emptyStore 0 (.val "ABCD") (.val 42) (.val 10)).1 ∧
    (create_room (create_room emptyStore 0 (.val "ABCD") (.val 42) (.val 10)).1 1
        (.val "ABCD") (.val 99) .absent).2 = errorResponse 400 Msg.roomCodeExists :=
  have h := create_room_code_taken
    (create_room emptyStore 0 (.val "ABCD") (.val 42) (.val 10)).1 1 "ABCD" 99 .absent
    (by decide) (by decide)
    ⟨newRoom 1 0 "ABCD" 42 (some 10), by decide, by decide⟩ (by decide)
  ⟨h.1, h.2.2.2 (by decide) (by decide)⟩

/-- C4 (as stated, refuted): the request carries the code `ABCD` followed by a blank; the column
is `VARCHAR(4)`, the store cuts the blank off, and the row that is inserted and returned has the
code `ABCD`, not the given one. -/
theorem create_room_clips_code :
    (create_room emptyStore 0 (.val "ABCD ") (.val 7) .absent).2.http = 200 ∧
    (create_room emptyStore 0 (.val "ABCD ") (.val 7) .absent).1.rows
      = [newRoom 1 0 "ABCD" 7 (some 0)] ∧
    (create_room emptyStore 0 (.val "ABCD ") (.val 7) .absent).2.room
      = some (newRoom 1 0 "ABCD" 7 (some 0)) ∧
    (newRoom 1 0 "ABCD" 7 (some 0)).room_code ≠ "ABCD " := by
  decide

/-- C4 (amended): a create request answered HTTP 200 appends exactly one row to the table,
leaves the rows before it untouched and advances the sequence by one. The new row takes its id
from the sequence and carries the given `player1` and the given `room_code` cut to its first 4
characters (the code itself when it has at most 4); it has state `waiting`, no `player2`, the
supplied `bet` (`0` when the property is missing, `NULL` when it is `null`), the column defaults
elsewhere, and both timestamps equal to the time of the insert. The answer returns that row,
its timestamps as dates. -/
theorem create_room_success_row (s : Store) (now : Int) (room_code : Field String)
    (player1 : Field Int) (bet : Field Int)
    (h : (create_room s now room_code player1 bet).2.http = 200) :
    ∃ (c : String) (row : Room),
      (create_room s now room_code player1 bet).1.rows = s.rows ++ [row] ∧
      (create_room s now room_code player1 bet).1.nextId = s.nextId + 1 ∧
      (create_room s now room_code player1 bet).2.room = some row.toJson ∧
      (create_room s now room_code player1 bet).2.status = Status.success ∧
      room_code = .val c ∧ row.room_code = clip 4 c ∧ (c.length ≤ 4 → row.room_code = c) ∧
      player1 = .val row.player1 ∧ row.id = s.nextId ∧
      row.game_state = some "waiting" ∧ row.player2 = none ∧
      (bet = .absent → row.bet = some 0) ∧ (bet = .null → row.bet = none) ∧
      (∀ b, bet = .val b → row.bet = some b) ∧
      row.sender_hod = some 0 ∧ row.protect_hod = some 0 ∧ row.zone_sender = none ∧
      row.zone_protect1 = none ∧ row.zone_protect2 = none ∧
      row.created_at = some now ∧ row.updated_at = now := by
  rcases create_room_cases s now room_code player1 bet with
    ⟨_, hres⟩ | ⟨c, p, hrc, hp2, _, _, hcase⟩
  · rw [hres] at h; simp [errorResponse] at h
  · rcases hcase with ⟨_, hres⟩ | ⟨_, a, _, _, hres⟩ | ⟨_, _, _, hres⟩ | ⟨_, _, _, _, hres⟩ |
      ⟨_, _, _, _, _, hres, _⟩ | ⟨_, _, _, _, _, hres⟩
    · rw [hres] at h; simp [errorResponse] at h
    · rw [hres] at h; simp [activeConflict] at h
    · rw [hres] at h; simp [errorResponse] at h
    · rw [hres] at h; simp [errorResponse] at h
    · rw [hres] at h; simp [errorResponse] at h
    · rw [hres]
      refine ⟨c, newRoom s.nextId now (clip 4 c) p (betOrDefault bet), rfl, rfl, rfl, rfl, hrc,
        rfl, ?_, hp2, rfl, rfl, rfl, ?_, ?_, ?_, rfl, rfl, rfl, rfl, rfl, rfl, rfl⟩
      · intro hl
        exact clip_of_length_le 4 c hl
      · intro hb; subst hb; rfl
      · intro hb; subst hb; rfl
      · intro b hb; subst hb; rfl

/-- Witness for C4: the first room of an empty table, created with `bet = 10`. -/
theorem create_room_success_row_witness :
    ∃ row : Room,
      (create_room emptyStore 0 (.val "ABCD") (.val 42) (.val 10)).1.rows = [] ++ [row] ∧
      row.room_code = "ABCD" ∧ row.player1 = 42 ∧ row.bet = some 10 := by
  obtain ⟨c, row, h1, _, _, _, h5, _, h7, h8, _, _, _, _, _, h14, _⟩ :=
    create_room_success_row emptyStore 0 (.val "ABCD") (.val 42) (.val 10) (by decide)
  have hc : c = "ABCD" := (Field.val.inj h5).symm
  subst hc
  refine ⟨row, h1, h7 (by decide), ?_, h14 10 rfl⟩
  exact (Field.val.inj h8).symm

/-- C5 (as stated, refuted): both properties are non-empty, the player is in no active room and
no row holds the code, yet the answer is neither HTTP 200 nor HTTP 400: the five-character code
does not fit `VARCHAR(4)`, the insert raises and the handler answers HTTP 500. -/
theorem create_room_long_code_is_500 :
    (Field.val "ABCDE").truthyStr = true ∧ (Field.val (7 : Int)).truthyInt = true ∧
    activeRoomsOf emptyStore.rows 7 = [] ∧
    emptyStore.rows.filter (fun r => r.room_code = "ABCDE") = [] ∧
    (create_room emptyStore 0 (.val "ABCDE") (.val 7) .absent).2.http = 500 ∧
    (create_room emptyStore 0 (.val "ABCDE") (.val 7) .absent).1.rows = [] := by
  decide

/-- C5 (amended): a create request is answered HTTP 200 exactly when `room_code` and `player1`
are truthy, the player is within `BIGINT` and in no row with state `waiting` or `game`, the code
has no NUL character and no row holds it, and the store accepts the insert: the bet is `NULL` or
within `INTEGER`, the code is blank past its first 4 characters, the sequence has not passed
2147483647, and no row holds the id handed out or the code cut to 4 characters. It is answered
HTTP 400 exactly when `room_code` or `player1` is falsy or, for a player within `BIGINT`, the
player is in an active row or the code (without NUL character) is held by a row. In every other
case it is answered HTTP 500. Every answer other than HTTP 200 has status `error` and leaves the
rows as they were. -/
theorem create_room_outcome (s : Store) (now : Int) (room_code : Field String)
    (player1 : Field Int) (bet : Field Int) :
    ((create_room s now room_code player1 bet).2.http = 200 ↔
      ∃ c p, room_code = .val c ∧ player1 = .val p ∧ c ≠ "" ∧ p ≠ 0 ∧ inInt8 p ∧
        (∀ r ∈ s.rows, ¬ (playsIn p r ∧ isActive r)) ∧ hasNul c = false ∧
        (∀ r ∈ s.rows, r.room_code ≠ c) ∧
        nullOr inInt4 (betOrDefault bet) = true ∧ fitsVarchar 4 c = true ∧
        s.nextId ≤ 2147483647 ∧ ∀ r ∈ s.rows, r.id ≠ s.nextId ∧ r.room_code ≠ clip 4 c) ∧
    ((create_room s now room_code player1 bet).2.http = 400 ↔
      (¬ ∃ c p, room_code = .val c ∧ player1 = .val p ∧ c ≠ "" ∧ p ≠ 0) ∨
      ∃ c p, room_code = .val c ∧ player1 = .val p ∧ inInt8 p ∧
        ((∃ r ∈ s.rows, playsIn p r ∧ isActive r) ∨
          (hasNul c = false ∧ ∃ r ∈ s.rows, r.room_code = c))) ∧
    ((create_room s now room_code player1 bet).2.http = 200 ∨
      (create_room s now room_code player1 bet).2.http = 400 ∨
      (create_room s now room_code player1 bet).2.http = 500) ∧
    ((create_room s now room_code player1 bet).2.http ≠ 200 →
      (create_room s now room_code player1 bet).2.status = Status.error ∧
      (create_room s now room_code player1 bet).1.rows = s.rows) := by
  rcases create_room_cases s now room_code player1 bet with
    ⟨hno, hres⟩ | ⟨c, p, hrc, hp2, hc1, hp1, hcase⟩
  · rw [hres]
    refine ⟨⟨fun h => ?_, fun h => ?_⟩, ⟨fun _ => Or.inl hno, fun _ => rfl⟩, Or.inr (Or.inl rfl),
      fun _ => ⟨rfl, rfl⟩⟩
    · simp [errorResponse] at h
    · obtain ⟨c, p, h1, h2, h3, h4, _⟩ := h
      exact absurd ⟨c, p, h1, h2, h3, h4⟩ hno
  · subst hrc; subst hp2
    have hyes : ∃ c2 p2, Field.val c = Field.val c2 ∧ Field.val p = Field.val p2 ∧
        c2 ≠ "" ∧ p2 ≠ 0 := ⟨c, p, rfl, rfl, hc1, hp1⟩
    rcases hcase with ⟨hn8, hres⟩ | ⟨h8, a, ha, hpa, hres⟩ | ⟨h8, hna, hn1, hres⟩ |
      ⟨h8, hna, hn0, ⟨r0, hr0, hr0c⟩, hres⟩ | ⟨h8, hna, hn0, hnc, hF, hres, hrows⟩ |
      ⟨h8, hna, hn0, hnc, hF, hres⟩
    · rw [hres]
      refine ⟨⟨fun h => ?_, fun h => ?_⟩, ⟨fun h => ?_, fun h => ?_⟩, Or.inr (Or.inr rfl),
        fun _ => ⟨rfl, rfl⟩⟩
      · simp [errorResponse] at h
      · obtain ⟨c2, p2, h1, h2, _, _, h5, _⟩ := h
        have e : p = p2 := Field.val.inj h2
        subst e
        exact absurd h5 hn8
      · simp [errorResponse] at h
      · rcases h with h | ⟨c2, p2, _, h2, h5, _⟩
        · exact absurd hyes h
        · have e : p = p2 := Field.val.inj h2
          subst e
          exact absurd h5 hn8
    · rw [hres]
      refine ⟨⟨fun h => ?_, fun h => ?_⟩, ⟨fun _ => ?_, fun _ => rfl⟩, Or.inr (Or.inl rfl),
        fun _ => ⟨rfl, rfl⟩⟩
      · simp [activeConflict] at h
      · obtain ⟨c2, p2, _, h2, _, _, _, h6, _⟩ := h
        have e : p = p2 := Field.val.inj h2
        subst e
        exact absurd hpa (h6 a ha)
      · exact Or.inr ⟨c, p, rfl, rfl, h8, Or.inl ⟨a, ha, hpa⟩⟩
    · rw [hres]
      refine ⟨⟨fun h => ?_, fun h => ?_⟩, ⟨fun h => ?_, fun h => ?_⟩, Or.inr (Or.inr rfl),
        fun _ => ⟨rfl, rfl⟩⟩
      · simp [errorResponse] at h
      · obtain ⟨c2, p2, h1, _, _, _, _, _, h7, _⟩ := h
        have e : c = c2 := Field.val.inj h1
        subst e
        rw [hn1] at h7
        exact Bool.noConfusion h7
      · simp [errorResponse] at h
      · rcases h with h | ⟨c2, p2, h1, h2, _, h6⟩
        · exact absurd hyes h
        · have e1 : c = c2 := Field.val.inj h1
          have e2 : p = p2 := Field.val.inj h2
          subst e1; subst e2
          rcases h6 with ⟨r, hr, hpr⟩ | ⟨h7, _⟩
          · exact absurd hpr (hna r hr)
          · rw [hn1] at h7
            exact Bool.noConfusion h7
    · rw [hres]
      refine ⟨⟨fun h => ?_, fun h => ?_⟩, ⟨fun _ => ?_, fun _ => rfl⟩, Or.inr (Or.inl rfl),
        fun _ => ⟨rfl, rfl⟩⟩
      · simp [errorResponse] at h
      · obtain ⟨c2, p2, h1, _, _, _, _, _, _, h8, _⟩ := h
        have e : c = c2 := Field.val.inj h1
        subst e
        exact absurd hr0c (h8 r0 hr0)
      · exact Or.inr ⟨c, p, rfl, rfl, h8, Or.inr ⟨hn0, r0, hr0, hr0c⟩⟩
    · have hhttp : (create_room s now (.val c) (.val p) bet).2.http = 500 := by rw [hres]; rfl
      have hstat : (create_room s now (.val c) (.val p) bet).2.status = Status.error := by
        rw [hres]; rfl
      rw [hhttp]
      refine ⟨⟨fun h => ?_, fun h => ?_⟩, ⟨fun h => ?_, fun h => ?_⟩, Or.inr (Or.inr rfl),
        fun _ => ⟨hstat, hrows⟩⟩
      · exact absurd h (by decide)
      · obtain ⟨c2, p2, h1, h2, _, _, _, _, _, _, h9⟩ := h
        have e1 : c = c2 := Field.val.inj h1
        subst e1
        exact absurd h9 hF
      · exact absurd h (by decide)
      · rcases h with h | ⟨c2, p2, h1, h2, _, h6⟩
        · exact absurd hyes h
        · have e1 : c = c2 := Field.val.inj h1
          have e2 : p = p2 := Field.val.inj h2
          subst e1; subst e2
          rcases h6 with ⟨r, hr, hpr⟩ | ⟨_, r, hr, hrc⟩
          · exact absurd hpr (hna r hr)
          · exact absurd hrc (hnc r hr)
    · rw [hres]
      refine ⟨⟨fun _ => ?_, fun _ => rfl⟩, ⟨fun h => ?_, fun h => ?_⟩, Or.inl rfl,
        fun h => absurd rfl h⟩
      · exact ⟨c, p, rfl, rfl, hc1, hp1, h8, hna, hn0, hnc, hF⟩
      · simp [roomResponse] at h
      · rcases h with h | ⟨c2, p2, h1, h2, _, h6⟩
        · exact absurd hyes h
        · have e1 : c = c2 := Field.val.inj h1
          have e2 : p = p2 := Field.val.inj h2
          subst e1; subst e2
          rcases h6 with ⟨r, hr, hpr⟩ | ⟨_, r, hr, hrc⟩
          · exact absurd hpr (hna r hr)
          · exact absurd hrc (hnc r hr)

/-- Witness for C5: on a table holding room `AB12` of player 7, a fresh code and player are
answered HTTP 200, the same player HTTP 400, a bet outside `INTEGER` HTTP 500. -/
theorem create_room_outcome_witness :
    (create_room (create_room emptyStore 0 (.val "AB12") (.val 7) .absent).1 1
      (.val "CD34") (.val 8) (.val 5)).2.http = 200 ∧
    (create_room (create_room emptyStore 0 (.val "AB12") (.val 7) .absent).1 1
      (.val "CD34") (.val 7) (.val 5)).2.http = 400 ∧
    (create_room (create_room emptyStore 0 (.val "AB12") (.val 7) .absent).1 1
      (.val "CD34") (.val 8) (.val 2147483648)).2.http = 500 :=
  ⟨(create_room_outcome (create_room emptyStore 0 (.val "AB12") (.val 7) .absent).1 1
      (.val "CD34") (.val 8) (.val 5)).1.mpr
      ⟨"CD34", 8, rfl, rfl, by decide, by decide, by decide, by decide, by decide, by decide,
        by decide, by decide, by decide, by decide⟩,
   by decide, by decide⟩

/-! ## The lookups -/

theorem filter_key_tail_nil {α β : Type} [DecidableEq β] (key : α → β) (l : List α) (k : β)
    (h : l.Pairwise (fun a b => key a ≠ key b)) (a : α) (t : List α)
    (hf : l.filter (fun r => key r = k) = a :: t) : t = [] := by
  have hp : (l.filter (fun r => key r = k)).Pairwise (fun a b => key a ≠ key b) :=
    List.Pairwise.filter _ h
  rw [hf, List.pairwise_cons] at hp
  cases t with
  | nil => rfl
  | cons b t2 =>
    exfalso
    have ha : a ∈ l.filter (fun r => key r = k) := by rw [hf]; exact List.mem_cons_self _ _
    have hb : b ∈ l.filter (fun r => key r = k) := by
      rw [hf]; exact List.mem_cons_of_mem _ (List.mem_cons_self _ _)
    have hka : key a = k := by simpa using (List.mem_filter.mp ha).2
    have hkb : key b = k := by simpa using (List.mem_filter.mp hb).2
    exact hp.1 b (List.mem_cons_self _ _) (hka.trans hkb.symm)

theorem eq_head_of_filter_key {α β : Type} [DecidableEq β] (key : α → β) (l : List α) (k : β)
    (h : l.Pairwise (fun a b => key a ≠ key b)) (a : α) (t : List α)
    (hf : l.filter (fun r => key r = k) = a :: t) (r : α) (hr : r ∈ l) (hk : key r = k) :
    r = a := by
  have ht := filter_key_tail_nil key l k h a t hf
  have hm : r ∈ l.filter (fun r => key r = k) := List.mem_filter.mpr ⟨hr, by simpa using hk⟩
  rw [hf, ht] at hm
  simpa using hm

theorem head_of_filter_key {α β : Type} [DecidableEq β] (key : α → β) (l : List α) (k : β)
    (a : α) (t : List α) (hf : l.filter (fun r => key r = k) = a :: t) :
    a ∈ l ∧ key a = k := by
  have ha : a ∈ l.filter (fun r => key r = k) := by rw [hf]; exact List.mem_cons_self _ _
  have := List.mem_filter.mp ha
  exact ⟨this.1, by simpa using this.2⟩

/-- C6 (as stated, refuted): no row holds the code that consists of one NUL character, yet the
answer is not NotFound: the store does not accept the text as a parameter, the query raises and
the handler answers HTTP 500. -/
theorem find_room_by_code_nul_is_500 :
    (∀ r ∈ (run [.create 0 (.val "AB12") (.val 7) .absent]).rows, r.room_code ≠ "\x00") ∧
    find_room_by_code (run [.create 0 (.val "AB12") (.val 7) .absent]) "\x00"
      = errorResponse 500 Msg.findFailed := by
  decide

/-- C6 (amended): on a table whose codes are unique (the `UNIQUE` constraint of `room_code`),
the lookup by a code without NUL character returns a room exactly when a row with that code
exists and its state is not `closed`; the room returned is that row, its timestamps as dates
(HTTP 200); in every other case, the row being closed or missing, the answer is HTTP 404 with
status `error` and no room. A returned room is never `closed`. -/
theorem find_room_by_code_spec (s : Store) (c : String)
    (huniq : s.rows.Pairwise (fun a b => a.room_code ≠ b.room_code))
    (hc : hasNul c = false) :
    (∀ r ∈ s.rows, r.room_code = c → r.game_state ≠ some "closed" →
      (find_room_by_code s c).room = some r.toJson ∧ (find_room_by_code s c).http = 200 ∧
      (find_room_by_code s c).status = Status.success) ∧
    ((find_room_by_code s c).room ≠ none ↔
      ∃ r ∈ s.rows, r.room_code = c ∧ r.game_state ≠ some "closed") ∧
    (∀ j : Room, (find_room_by_code s c).room = some j →
      j.game_state ≠ some "closed" ∧
      ∃ r ∈ s.rows, r.room_code = c ∧ r.game_state ≠ some "closed" ∧ j = r.toJson) ∧
    ((¬ ∃ r ∈ s.rows, r.room_code = c ∧ r.game_state ≠ some "closed") →
      (find_room_by_code s c).room = none ∧ (find_room_by_code s c).http = 404 ∧
      (find_room_by_code s c).status = Status.error) := by
  cases hf : s.rows.filter (fun r => r.room_code = c) with
  | nil =>
    have hno := (codeRows_eq_nil_iff s.rows c).mp hf
    have hres : find_room_by_code s c = errorResponse 404 Msg.roomNotFound := by
      simp [find_room_by_code, hc, hf]
    rw [hres]
    refine ⟨?_, ?_, ?_, ?_⟩
    · intro r hr h1 _; exact absurd h1 (hno r hr)
    · constructor
      · intro h; exact absurd rfl h
      · rintro ⟨r, hr, h1, _⟩; exact absurd h1 (hno r hr)
    · intro j h; simp [errorResponse] at h
    · intro _; exact ⟨rfl, rfl, rfl⟩
  | cons a t =>
    have ha := head_of_filter_key Room.room_code s.rows c a t hf
    by_cases hcl : a.game_state = some "closed"
    · have hres : find_room_by_code s c = errorResponse 404 Msg.roomClosed := by
        simp [find_room_by_code, hc, hf, hcl]
      rw [hres]
      refine ⟨?_, ?_, ?_, ?_⟩
      · intro r hr h1 h2
        have := eq_head_of_filter_key Room.room_code s.rows c huniq a t hf r hr h1
        rw [this] at h2
        exact absurd hcl h2
      · constructor
        · intro h; exact absurd rfl h
        · rintro ⟨r, hr, h1, h2⟩
          have := eq_head_of_filter_key Room.room_code s.rows c huniq a t hf r hr h1
          rw [this] at h2
          exact absurd hcl h2
      · intro j h; simp [errorResponse] at h
      · intro _; exact ⟨rfl, rfl, rfl⟩
    · have hres : find_room_by_code s c = roomResponse none a := by
        simp [find_room_by_code, hc, hf, hcl]
      rw [hres]
      refine ⟨?_, ?_, ?_, ?_⟩
      · intro r hr h1 _
        have := eq_head_of_filter_key Room.room_code s.rows c huniq a t hf r hr h1
        rw [this]
        exact ⟨rfl, rfl, rfl⟩
      · constructor
        · intro _; exact ⟨a, ha.1, ha.2, hcl⟩
        · intro _; simp [roomResponse]
      · intro j h
        have hj : a.toJson = j := by simpa [roomResponse] using h
        rw [← hj]
        exact ⟨hcl, a, ha.1, ha.2, hcl, rfl⟩
      · intro hno; exact absurd ⟨a, ha.1, ha.2, hcl⟩ hno

/-- Witness for C6: room `AB12` was closed by a patch, room `CD34` is waiting; the first one is
hidden, the second one is returned. -/
theorem find_room_by_code_spec_witness :
    (find_room_by_code
      (run [.create 0 (.val "AB12") (.val 7) .absent, .create 1 (.val "CD34") (.val 8) .absent,
        .update 2 1 { Patch.none with game_state := .val "closed" }]) "AB12").room = none ∧
    (find_room_by_code
      (run [.create 0 (.val "AB12") (.val 7) .absent, .create 1 (.val "CD34") (.val 8) .absent,
        .update 2 1 { Patch.none with game_state := .val "closed" }]) "CD34").room
      = some (newRoom 2 1 "CD34" 8 (some 0)).toJson := by
  have h1 := find_room_by_code_spec
    (run [.create 0 (.val "AB12") (.val 7) .absent, .create 1 (.val "CD34") (.val 8) .absent,
      .update 2 1 { Patch.none with game_state := .val "closed" }]) "AB12" (by decide)
    (by decide)
  have h2 := find_room_by_code_spec
    (run [.create 0 (.val "AB12") (.val 7) .absent, .create 1 (.val "CD34") (.val 8) .absent,
      .update 2 1 { Patch.none with game_state := .val "closed" }]) "CD34" (by decide)
    (by decide)
  exact ⟨(h1.2.2.2 (by decide)).1, (h2.1 _ (by decide) (by decide) (by decide)).1⟩

/-- C7 (as stated, refuted): no row has the id 2147483648, yet the answer is not NotFound: the
id is outside `INTEGER`, the type of the column, the query raises and the handler answers
HTTP 500. -/
theorem find_room_by_id_out_of_range_is_500 :
    (∀ r ∈ (run [.create 0 (.val "AB12") (.val 7) .absent]).rows, r.id ≠ 2147483648) ∧
    find_room_by_id (run [.create 0 (.val "AB12") (.val 7) .absent]) 2147483648
      = errorResponse 500 Msg.getFailed := by
  decide

/-- C7 (amended): on a table whose ids are unique (the `PRIMARY KEY` constraint), the lookup by
an id within `INTEGER` returns every row under its id, whatever its state (a `closed` row
included), its timestamps as dates, with HTTP 200; it answers HTTP 404 with status `error` and
no room exactly when no row has that id. The lookup by an id outside `INTEGER` is answered
HTTP 500. -/
theorem find_room_by_id_spec (s : Store) (roomId : Int)
    (huniq : s.rows.Pairwise (fun a b => a.id ≠ b.id)) :
    (inInt4 roomId →
      (∀ r ∈ s.rows, r.id = roomId →
        (find_room_by_id s roomId).room = some r.toJson ∧ (find_room_by_id s roomId).http = 200 ∧
        (find_room_by_id s roomId).status = Status.success) ∧
      ((find_room_by_id s roomId).http = 404 ↔ ∀ r ∈ s.rows, r.id ≠ roomId) ∧
      ((∀ r ∈ s.rows, r.id ≠ roomId) →
        find_room_by_id s roomId = errorResponse 404 Msg.roomNotFound)) ∧
    (¬ inInt4 roomId → find_room_by_id s roomId = errorResponse 500 Msg.getFailed) := by
  refine ⟨fun h4 => ?_, fun h4 => by simp [find_room_by_id, h4]⟩
  cases hf : s.rows.filter (fun r => r.id = roomId) with
  | nil =>
    have hno : ∀ r ∈ s.rows, r.id ≠ roomId := by
      simpa [List.filter_eq_nil_iff] using hf
    have hres : find_room_by_id s roomId = errorResponse 404 Msg.roomNotFound := by
      simp [find_room_by_id, h4, hf]
    rw [hres]
    refine ⟨?_, ?_, ?_⟩
    · intro r hr hid; exact absurd hid (hno r hr)
    · constructor
      · intro _; exact hno
      · intro _; rfl
    · intro _; rfl
  | cons a t =>
    have ha := head_of_filter_key Room.id s.rows roomId a t hf
    have hres : find_room_by_id s roomId = roomResponse none a := by
      simp [find_room_by_id, h4, hf]
    rw [hres]
    refine ⟨?_, ?_, ?_⟩
    · intro r hr hid
      have := eq_head_of_filter_key Room.id s.rows roomId huniq a t hf r hr hid
      rw [this]
      exact ⟨rfl, rfl, rfl⟩
    · constructor
      · intro h; simp [roomResponse] at h
      · intro h; exact absurd ha.2 (h a ha.1)
    · intro h; exact absurd ha.2 (h a ha.1)

/-- Witness for C7: room 1 was closed by a patch and is still returned under its id. -/
theorem find_room_by_id_spec_witness :
    (find_room_by_id
      (run [.create 0 (.val "AB12") (.val 7) .absent,
        .update 2 1 { Patch.none with game_state := .val "closed" }]) 1).room
      = some (Room.toJson { newRoom 1 0 "AB12" 7 (some 0) with
          game_state := some "closed", updated_at := 2 }) :=
  (((find_room_by_id_spec
    (run [.create 0 (.val "AB12") (.val 7) .absent,
      .update 2 1 { Patch.none with game_state := .val "closed" }]) 1 (by decide)).1
    (by decide)).1
    { newRoom 1 0 "AB12" 7 (some 0) with game_state := some "closed", updated_at := 2 }
    (by decide) (by decide)).1

/-- C8: on a table whose rows hold values of their column types, `active_game` is a room exactly
when some row has the player as `player1` or `player2` with state `waiting` or `game`; it then
shows the selected columns `id`, `room_code`, `game_state`, `player1`, `player2` and `bet` of
such a row, and the answer is HTTP 200 with status `success`. For a player id within `BIGINT`
the answer is HTTP 200 with status `success` in every case, with `active_game = null` when there
is no such row. Only a store failure gives an error: a player id outside `BIGINT`, on which the
query raises, is answered HTTP 500. -/
theorem check_active_room_spec (s : Store) (userId : Int) (htab : typedRows s.rows) :
    ((check_active_room s userId).active_game ≠ none ↔
      ∃ r ∈ s.rows, playsIn userId r ∧ isActive r) ∧
    (∀ g, (check_active_room s userId).active_game = some g →
      (check_active_room s userId).http = 200 ∧
      (check_active_room s userId).status = Status.success ∧
      ∃ r ∈ s.rows, (playsIn userId r ∧ isActive r) ∧ g.id = r.id ∧
        g.room_code = r.room_code ∧ g.game_state = r.game_state ∧ g.player1 = r.player1 ∧
        g.player2 = r.player2 ∧ g.bet = r.bet) ∧
    (inInt8 userId →
      (check_active_room s userId).http = 200 ∧
      (check_active_room s userId).status = Status.success) ∧
    (¬ inInt8 userId →
      (check_active_room s userId).http = 500 ∧
      (check_active_room s userId).status = Status.error ∧
      (check_active_room s userId).active_game = none) := by
  by_cases h8 : inInt8 userId
  · cases hf : activeRoomsOf s.rows userId with
    | nil =>
      have hno := (activeRoomsOf_eq_nil_iff s.rows userId).mp hf
      have hres : check_active_room s userId
          = { http := 200, status := .success, message := none, active_game := none } := by
        simp [check_active_room, h8, hf]
      rw [hres]
      refine ⟨?_, ?_, fun _ => ⟨rfl, rfl⟩, fun h => absurd h8 h⟩
      · constructor
        · intro h; exact absurd rfl h
        · intro ⟨r, hr, h⟩; exact absurd h (hno r hr)
      · intro g h; simp at h
    | cons a t =>
      have ha : a ∈ activeRoomsOf s.rows userId := by rw [hf]; exact List.mem_cons_self _ _
      have ha2 := (mem_activeRoomsOf s.rows userId a).mp ha
      have hres : check_active_room s userId
          = { http := 200, status := .success, message := none,
              active_game := some a.toActiveGame } := by
        simp [check_active_room, h8, hf]
      rw [hres]
      refine ⟨?_, ?_, fun _ => ⟨rfl, rfl⟩, fun h => absurd h8 h⟩
      · constructor
        · intro _; exact ⟨a, ha2.1, ha2.2⟩
        · intro _; simp
      · intro g h
        have hg : a.toActiveGame = g := by simpa using h
        rw [← hg]
        exact ⟨rfl, rfl, a, ha2.1, ha2.2, rfl, rfl, rfl, rfl, rfl, rfl⟩
  · have hres : check_active_room s userId
        = { http := 500, status := .error, message := some .checkFailed,
            active_game := none } := by
      simp [check_active_room, h8]
    rw [hres]
    refine ⟨?_, ?_, fun h => absurd h h8, fun _ => ⟨rfl, rfl, rfl⟩⟩
    · constructor
      · intro h; exact absurd rfl h
      · intro ⟨r, hr, h⟩
        exact absurd (inInt8_of_playsIn s.rows htab userId r hr h.1) h8
    · intro g h; simp at h

/-- Witness for C8: player 7 waits in room `AB12` with a bet of 3; the check shows the columns
of that row for player 7 and `null` for player 8. -/
theorem check_active_room_spec_witness :
    (∃ g, (check_active_room (run [.create 0 (.val "AB12") (.val 7) (.val 3)]) 7).active_game
        = some g ∧ g.id = 1 ∧ g.room_code = "AB12" ∧ g.game_state = some "waiting" ∧
        g.player1 = 7 ∧ g.player2 = none ∧ g.bet = some 3) ∧
    (check_active_room (run [.create 0 (.val "AB12") (.val 7) (.val 3)]) 8).active_game
      = none := by
  have h7 := check_active_room_spec (run [.create 0 (.val "AB12") (.val 7) (.val 3)]) 7
    (by decide)
  have h8 := check_active_room_spec (run [.create 0 (.val "AB12") (.val 7) (.val 3)]) 8
    (by decide)
  refine ⟨?_, ?_⟩
  · cases hg : (check_active_room (run [.create 0 (.val "AB12") (.val 7) (.val 3)])
        7).active_game with
    | none => exact absurd hg (h7.1.mpr ⟨newRoom 1 0 "AB12" 7 (some 3), by decide, by decide⟩)
    | some g =>
      obtain ⟨_, _, r, hr, _, e1, e2, e3, e4, e5, e6⟩ := h7.2.1 g hg
      have hrows : (run [.create 0 (.val "AB12") (.val 7) (.val 3)]).rows
          = [newRoom 1 0 "AB12" 7 (some 3)] := by decide
      rw [hrows] at hr
      have hr1 : r = newRoom 1 0 "AB12" 7 (some 3) := by simpa using hr
      subst hr1
      exact ⟨g, rfl, e1, e2, e3, e4, e5, e6⟩
  · by_contra hne
    obtain ⟨r, hr, hpa⟩ := h8.1.mp hne
    revert r
    decide

/-! ## PUT /api/game/room/:room_id -/

/-- The cut to whole milliseconds lies less than one millisecond below the timestamp. -/
theorem toDate_le (t : Int) : toDate t ≤ t ∧ t < toDate t + 1000 ∧ toDate t % 1000 = 0 := by
  unfold toDate
  omega

/-- A timestamp on a whole millisecond is its own date. -/
theorem toDate_of_whole (t : Int) (h : t % 1000 = 0) : toDate t = t := by
  unfold toDate
  omega

/-- A text shorter than the column is stored only for itself: nothing is cut down to it. -/
theorem eq_of_clip_eq_short (n : Nat) (g w : String) (hw : w.length < n) (h : clip n g = w) :
    g = w := by
  by_cases hl : g.length ≤ n
  · rw [clip_of_length_le n g hl] at h
    exact h
  · exfalso
    have h1 : (clip n g).length = n := by
      unfold clip
      show (g.data.take n).length = n
      rw [List.length_take]
      have : n < g.data.length := by
        have : g.length = g.data.length := rfl
        omega
      omega
    rw [h] at h1
    omega

/-- What a successful update did: the join check ran through and found nothing, the statement
was accepted, at least one row matched, and every matching row was rewritten by `applyPatch`. -/
theorem update_room_ok (s : Store) (now roomId : Int) (u : Patch)
    (h : (update_room s now roomId u).2.http = 200) :
    ∃ t ts, s.rows.filter (fun r => r.id = roomId) = t :: ts ∧
      joinCheckRaises roomId u = false ∧
      joinConflicts s.rows roomId u = [] ∧ keyTaken s.rows roomId u = false ∧
      u.unreadable roomId = false ∧ u.updated_at = .absent ∧ u.nullInNotNull = false ∧
      update_room s now roomId u =
        ({ s with rows := s.rows.map (fun r => if r.id = roomId then applyPatch u now r else r) },
         roomResponse (some Msg.roomUpdated) (applyPatch u now t)) := by
  by_cases hjr : joinCheckRaises roomId u = true
  · simp [update_room, hjr, errorResponse] at h
  · cases hj : joinConflicts s.rows roomId u with
    | cons a l => simp [update_room, hjr, hj, activeConflict] at h
    | nil =>
      by_cases he : u.isEmpty = true
      · simp [update_room, hjr, hj, he, errorResponse] at h
      · by_cases h1 : (!u.updated_at.isAbsent) = true
        · simp [update_room, hjr, hj, he, execUpdate, h1, errorResponse] at h
        · by_cases h2 : u.unreadable roomId = true
          · simp [update_room, hjr, hj, he, execUpdate, h1, h2, errorResponse] at h
          · cases hf : s.rows.filter (fun r => r.id = roomId) with
            | nil =>
              simp [update_room, hjr, hj, he, execUpdate, h1, h2, hf, errorResponse] at h
            | cons t ts =>
              by_cases h3 : u.nullInNotNull = true
              · simp [update_room, hjr, hj, he, execUpdate, h1, h2, hf, h3, errorResponse] at h
              · by_cases h4 : keyTaken s.rows roomId u = true
                · simp [update_room, hjr, hj, he, execUpdate, h1, h2, hf, h3, h4,
                    errorResponse] at h
                · have hua : u.updated_at = .absent := by
                    cases hu : u.updated_at with
                    | absent => rfl
                    | null => simp [hu, Field.isAbsent] at h1
                    | val v => simp [hu, Field.isAbsent] at h1
                  refine ⟨t, ts, rfl, by simpa using hjr, rfl, by simpa using h4,
                    by simpa using h2, hua, by simpa using h3, ?_⟩
                  simp [update_room, hjr, hj, he, execUpdate, h1, h2, hf, h3, h4]

/-- An update that is not answered HTTP 200 leaves the store as it was. -/
theorem update_room_fail (s : Store) (now roomId : Int) (u : Patch)
    (h : (update_room s now roomId u).2.http ≠ 200) : (update_room s now roomId u).1 = s := by
  by_cases hjr : joinCheckRaises roomId u = true
  · simp [update_room, hjr]
  · cases hj : joinConflicts s.rows roomId u with
    | cons a l => simp [update_room, hjr, hj]
    | nil =>
      by_cases he : u.isEmpty = true
      · simp [update_room, hjr, hj, he]
      · cases hx : execUpdate s.rows now roomId u with
        | none => simp [update_room, hjr, hj, he, hx]
        | some pr =>
          obtain ⟨rows1, ret⟩ := pr
          cases ret with
          | nil => simp [update_room, hjr, hj, he, hx]
          | cons a l => simp [update_room, hjr, hj, he, hx, roomResponse] at h

/-- C9: player `0` sits in the active room 1 and a patch of room 2 carries `player2 = 0`. The
claim asks for the conflict answer and an unchanged store. The handler runs the check under
`if (updates.player2)`: the value `0` is falsy, the check is skipped, the update is answered
HTTP 200 and player `0` is in both rooms. -/
theorem update_room_join_zero_unchecked :
    (∃ r ∈ (run [.create 0 (.val "AB12") (.val 7) .absent,
          .update 1 1 { Patch.none with player2 := .val 0 },
          .create 2 (.val "CD34") (.val 8) .absent]).rows,
        r.id ≠ 2 ∧ playsIn 0 r ∧ isActive r) ∧
    (update_room (run [.create 0 (.val "AB12") (.val 7) .absent,
        .update 1 1 { Patch.none with player2 := .val 0 },
        .create 2 (.val "CD34") (.val 8) .absent]) 3 2
      { Patch.none with player2 := .val 0 }).2.http = 200 ∧
    (activeRoomsOf (update_room (run [.create 0 (.val "AB12") (.val 7) .absent,
        .update 1 1 { Patch.none with player2 := .val 0 },
        .create 2 (.val "CD34") (.val 8) .absent]) 3 2
      { Patch.none with player2 := .val 0 }).1.rows 0).length = 2 := by
  decide

/-- The join check at work: on a table whose rows hold values of their column types, for a
truthy player id `p` and a room id within `INTEGER`, if `p` is `player1` or `player2` of a row
other than `roomId` with state `waiting` or `game`, every update of `roomId` whose patch carries
`player2 = p` is answered HTTP 400 with status `error`, `active_room` is the code of such a row,
and the store is left as it was. -/
theorem update_room_join_conflict (s : Store) (now roomId p : Int) (u : Patch)
    (hp : p ≠ 0) (hid : inInt4 roomId) (htab : typedRows s.rows) (hu : u.player2 = .val p)
    (h : ∃ r ∈ s.rows, r.id ≠ roomId ∧ playsIn p r ∧ isActive r) :
    (update_room s now roomId u).1 = s ∧
    (update_room s now roomId u).2.http = 400 ∧
    (update_room s now roomId u).2.status = Status.error ∧
    ∃ r ∈ s.rows, r.id ≠ roomId ∧ (playsIn p r ∧ isActive r) ∧
      (update_room s now roomId u).2.active_room = some r.room_code := by
  obtain ⟨r0, hr0, hid0, hpl0, hac0⟩ := h
  have h8 : inInt8 p := inInt8_of_playsIn s.rows htab p r0 hr0 hpl0
  have hjr : joinCheckRaises roomId u = false := by
    simp [joinCheckRaises, hu, h8, hid]
  have hjc : joinConflicts s.rows roomId u
      = s.rows.filter (fun r => (playsIn p r ∧ isActive r) ∧ r.id ≠ roomId) := by
    simp [joinConflicts, hu, hp]
  cases hj : joinConflicts s.rows roomId u with
  | nil =>
    exfalso
    rw [hjc, List.filter_eq_nil_iff] at hj
    have := hj r0 hr0
    simp [hid0, hpl0, hac0] at this
  | cons a l =>
    have ha : a ∈ s.rows.filter (fun r => (playsIn p r ∧ isActive r) ∧ r.id ≠ roomId) := by
      rw [← hjc, hj]; exact List.mem_cons_self _ _
    have ha2 := List.mem_filter.mp ha
    have ha3 : (playsIn p a ∧ isActive a) ∧ a.id ≠ roomId := by simpa using ha2.2
    have hres : update_room s now roomId u = (s, activeConflict a.room_code) := by
      simp [update_room, hjr, hj]
    rw [hres]
    exact ⟨rfl, rfl, rfl, a, ha2.1, ha3.2, ha3.1, rfl⟩

/-- C10 (as stated, refuted): a patch of the bet is sent at time 1500 (one and a half
milliseconds). The row in the table is stamped 1500, but the row in the answer carries
`updated_at` as a date, which has whole milliseconds only: 1000. -/
theorem update_room_returns_date :
    (update_room (run [.create 0 (.val "AB12") (.val 7) .absent]) 1500 1
      { Patch.none with bet := .val 3 }).2.http = 200 ∧
    (update_room (run [.create 0 (.val "AB12") (.val 7) .absent]) 1500 1
      { Patch.none with bet := .val 3 }).1.rows
      = [{ newRoom 1 0 "AB12" 7 (some 3) with updated_at := 1500 }] ∧
    (update_room (run [.create 0 (.val "AB12") (.val 7) .absent]) 1500 1
      { Patch.none with bet := .val 3 }).2.room
      = some { newRoom 1 0 "AB12" 7 (some 3) with updated_at := 1000 } := by
  decide

/-- C10 (amended): an update answered HTTP 200 at time `now` stamps the updated row in the table
with `updated_at = now`, whatever properties the patch holds: the row that the answer returns is
in the table with `updated_at = now`, and so is every row under its id and every row rewritten
from a row under `roomId`. In the answer the row carries `updated_at` as a date: `now` cut to
whole milliseconds, which is `now` itself when `now` is on a whole millisecond and less than a
millisecond below `now` otherwise. -/
theorem update_room_refreshes_updated_at (s : Store) (now roomId : Int) (u : Patch)
    (h : (update_room s now roomId u).2.http = 200) :
    ∃ room : Room,
      (update_room s now roomId u).2.room = some room.toJson ∧ room.updated_at = now ∧
      room ∈ (update_room s now roomId u).1.rows ∧
      room.toJson.updated_at = toDate now ∧
      (now % 1000 = 0 → room.toJson.updated_at = now) ∧
      (toDate now ≤ now ∧ now < toDate now + 1000) ∧
      (∀ r ∈ (update_room s now roomId u).1.rows, r.id = room.id → r.updated_at = now) ∧
      (∀ r ∈ s.rows, r.id = roomId →
        applyPatch u now r ∈ (update_room s now roomId u).1.rows ∧
        (applyPatch u now r).updated_at = now) := by
  obtain ⟨t, ts, hf, _, _, hk, _, _, _, hres⟩ := update_room_ok s now roomId u h
  have ht := head_of_filter_key Room.id s.rows roomId t ts hf
  rw [hres]
  refine ⟨applyPatch u now t, rfl, rfl, ?_, rfl, fun hw => toDate_of_whole now hw,
    ⟨(toDate_le now).1, (toDate_le now).2.1⟩, ?_, ?_⟩
  · simp only [List.mem_map]
    exact ⟨t, ht.1, by simp [ht.2]⟩
  · intro r hr hid
    simp only [List.mem_map] at hr
    obtain ⟨x, hx, hxr⟩ := hr
    by_cases hxi : x.id = roomId
    · simp only [hxi, if_true] at hxr
      rw [← hxr]; rfl
    · simp only [hxi, if_false] at hxr
      exfalso
      subst hxr
      have hkf : ¬ (x.id ≠ roomId ∧
          (u.id = .val x.id ∨ u.room_code.clip 4 = .val x.room_code)) := by
        intro hc
        have : keyTaken s.rows roomId u = true := by
          simp only [keyTaken, List.any_eq_true]
          exact ⟨x, hx, by simpa using hc⟩
        rw [hk] at this
        exact Bool.noConfusion this
      cases hui : u.id with
      | absent =>
        simp [applyPatch, hui, Field.writeReq, ht.2] at hid
        exact hxi hid
      | null =>
        simp [applyPatch, hui, Field.writeReq, ht.2] at hid
        exact hxi hid
      | val k =>
        simp [applyPatch, hui, Field.writeReq] at hid
        exact hkf ⟨hxi, Or.inl (by rw [hui, hid])⟩
  · intro r hr hid
    refine ⟨?_, rfl⟩
    simp only [List.mem_map]
    exact ⟨r, hr, by simp [hid]⟩

/-- Witness for C10: a patch of the bet alone, sent at time 9000, refreshes `updated_at`. -/
theorem update_room_refreshes_updated_at_witness :
    ∃ room : Room,
      (update_room (run [.create 0 (.val "AB12") (.val 7) .absent]) 9000 1
        { Patch.none with bet := .val 3 }).2.room = some room.toJson ∧
      room.updated_at = 9000 ∧ room.toJson.updated_at = 9000 := by
  obtain ⟨room, h1, h2, _, _, h5, _⟩ := update_room_refreshes_updated_at
    (run [.create 0 (.val "AB12") (.val 7) .absent]) 9000 1 { Patch.none with bet := .val 3 }
    (by decide)
  exact ⟨room, h1, h2, h5 (by decide)⟩

/-! ## The single-active-room invariant along runs -/

theorem length_filter_map_le {α : Type} (f : α → α) (q q2 : α → Bool) (l : List α)
    (h : ∀ x ∈ l, q (f x) = true → q2 x = true) :
    ((l.map f).filter q).length ≤ (l.filter q2).length := by
  induction l with
  | nil => simp
  | cons a t ih =>
    have iht := ih (fun x hx => h x (List.mem_cons_of_mem _ hx))
    have ha := h a (List.mem_cons_self _ _)
    simp only [List.map_cons, List.filter_cons]
    by_cases hq : q (f a) = true
    · have hq2 := ha hq
      simp [hq, hq2]
      exact iht
    · by_cases hq2 : q2 a = true
      · simp [hq, hq2]
        omega
      · simp [hq, hq2]
        exact iht

theorem length_filter_key_le_one {α β : Type} [DecidableEq β] (key : α → β) (l : List α)
    (k : β) (h : l.Pairwise (fun a b => key a ≠ key b)) :
    (l.filter (fun r => key r = k)).length ≤ 1 := by
  cases hf : l.filter (fun r => key r = k) with
  | nil => simp
  | cons a t =>
    have := filter_key_tail_nil key l k h a t hf
    simp [this]

theorem runInv_nil : RunInv [] := by
  refine ⟨List.Pairwise.nil, ?_⟩
  intro p
  simp [activeRoomsOf]

theorem runInv_sublist (l1 l2 : List Room) (hs : l1.Sublist l2) (h : RunInv l2) :
    RunInv l1 := by
  refine ⟨List.Pairwise.sublist hs h.1, ?_⟩
  intro p
  have : (activeRoomsOf l1 p).Sublist (activeRoomsOf l2 p) := List.Sublist.filter _ hs
  exact Nat.le_trans this.length_le (h.2 p)

theorem runInv_map (f : Room → Room) (rows : List Room)
    (hid : ∀ r ∈ rows, (f r).id = r.id)
    (hact : ∀ p, ∀ r ∈ rows, playsIn p (f r) ∧ isActive (f r) → playsIn p r ∧ isActive r)
    (h : RunInv rows) : RunInv (rows.map f) := by
  refine ⟨?_, ?_⟩
  · rw [List.pairwise_map]
    refine List.Pairwise.imp_of_mem ?_ h.1
    intro a b ha hb hab
    rw [hid a ha, hid b hb]
    exact hab
  · intro p
    refine Nat.le_trans ?_ (h.2 p)
    unfold activeRoomsOf
    apply length_filter_map_le
    intro x hx hq
    have := hact p x hx (by simpa using hq)
    simpa using this

theorem runInv_closeInactiveRooms (now : Int) (rows : List Room) (h : RunInv rows) :
    RunInv (closeInactiveRooms now rows) := by
  unfold closeInactiveRooms
  apply runInv_map _ _ _ _ h
  · intro r _
    split <;> rfl
  · intro p r _ hpa
    split at hpa
    · exfalso
      have := hpa.2
      revert this
      simp [isActive]
    · exact hpa

theorem runInv_autoFinishGames (now : Int) (rows : List Room) (h : RunInv rows) :
    RunInv (autoFinishGames now rows) := by
  unfold autoFinishGames
  apply runInv_map _ _ _ _ h
  · intro r _
    split <;> rfl
  · intro p r _ hpa
    split at hpa
    · exfalso
      have := hpa.2
      revert this
      simp [isActive]
    · exact hpa

theorem runInv_cleanupClosedRooms (s : Store) (t1 t2 t3 t4 : Int) (h : RunInv s.rows) :
    RunInv (cleanupClosedRooms s t1 t2 t3 t4).rows := by
  unfold cleanupClosedRooms deleteFinishedRooms deleteClosedRooms
  apply runInv_sublist _ _ (List.filter_sublist _)
  apply runInv_autoFinishGames
  apply runInv_sublist _ _ (List.filter_sublist _)
  exact runInv_closeInactiveRooms t1 s.rows h

/-- A delete leaves a sublist of the rows. -/
theorem delete_room_sublist (s : Store) (roomId : Int) :
    (delete_room s roomId).1.rows.Sublist s.rows := by
  unfold delete_room
  split
  · exact List.Sublist.refl _
  · split
    · exact List.filter_sublist _
    · exact List.Sublist.refl _

theorem runInv_delete_room (s : Store) (roomId : Int) (h : RunInv s.rows) :
    RunInv (delete_room s roomId).1.rows :=
  runInv_sublist _ _ (delete_room_sublist s roomId) h

/-- The rows after a create request: unchanged, or one fresh row of a player who was in no
active room. -/
theorem create_room_rows (s : Store) (now : Int) (room_code : Field String)
    (player1 : Field Int) (bet : Field Int) :
    (create_room s now room_code player1 bet).1.rows = s.rows ∨
    ∃ c p b, activeRoomsOf s.rows p = [] ∧ (∀ r ∈ s.rows, r.id ≠ s.nextId) ∧
      (create_room s now room_code player1 bet).1.rows
        = s.rows ++ [newRoom s.nextId now c p b] := by
  rcases create_room_cases s now room_code player1 bet with
    ⟨_, hres⟩ | ⟨c, p, _, _, _, _, hcase⟩
  · left; rw [hres]
  · rcases hcase with ⟨_, hres⟩ | ⟨_, a, _, _, hres⟩ | ⟨_, _, _, hres⟩ | ⟨_, _, _, _, hres⟩ |
      ⟨_, _, _, _, _, _, hrows⟩ | ⟨_, hna, _, _, hF, hres⟩
    · left; rw [hres]
    · left; rw [hres]
    · left; rw [hres]
    · left; rw [hres]
    · left; exact hrows
    · right
      refine ⟨clip 4 c, p, betOrDefault bet, (activeRoomsOf_eq_nil_iff s.rows p).mpr hna,
        fun r hr => (hF.2.2.2 r hr).1, ?_⟩
      rw [hres]

theorem runInv_create_room (s : Store) (now : Int) (room_code : Field String)
    (player1 : Field Int) (bet : Field Int) (h : RunInv s.rows) :
    RunInv (create_room s now room_code player1 bet).1.rows := by
  rcases create_room_rows s now room_code player1 bet with hr | ⟨c, p, b, hact, hfresh, hr⟩
  · rw [hr]; exact h
  · rw [hr]
    refine ⟨?_, ?_⟩
    · rw [List.pairwise_append]
      refine ⟨h.1, List.pairwise_singleton _ _, ?_⟩
      intro a ha b2 hb2
      have : b2 = newRoom s.nextId now c p b := by simpa using hb2
      rw [this]
      exact hfresh a ha
    · intro q
      unfold activeRoomsOf
      rw [List.filter_append, List.length_append]
      by_cases hq : q = p
      · subst hq
        have : s.rows.filter (fun r => playsIn q r ∧ isActive r) = [] := hact
        rw [this]
        simp only [List.length_nil, Nat.zero_add]
        exact Nat.le_trans (List.filter_sublist _).length_le (by simp)
      · have hnot : ¬ playsIn q (newRoom s.nextId now c p b) := by
          intro hpl
          rcases hpl with hpl | hpl
          · exact hq hpl.symm
          · simp [newRoom] at hpl
        have h2 := h.2 q
        unfold activeRoomsOf at h2
        simpa [hnot] using h2

theorem writeReq_absent_or (f : Field Int) (old : Int) :
    f.writeReq old = old ∨ f = .val (f.writeReq old) := by
  cases f with
  | absent => left; rfl
  | null => left; rfl
  | val k => right; rfl

theorem runInv_update_room (s : Store) (now roomId : Int) (u : Patch)
    (hg : guardedPatch s.rows roomId u) (h : RunInv s.rows) :
    RunInv (update_room s now roomId u).1.rows := by
  by_cases hok : (update_room s now roomId u).2.http = 200
  · obtain ⟨t, ts, hf, _, hjc, hk, _, _, _, hres⟩ := update_room_ok s now roomId u hok
    obtain ⟨hg1, hg2, hg3⟩ := hg
    have hkf : ∀ x ∈ s.rows, x.id ≠ roomId →
        ¬ (u.id = .val x.id ∨ u.room_code.clip 4 = .val x.room_code) := by
      intro x hx hxi hc
      have : keyTaken s.rows roomId u = true := by
        simp only [keyTaken, List.any_eq_true]
        exact ⟨x, hx, by simpa using ⟨hxi, hc⟩⟩
      rw [hk] at this
      exact Bool.noConfusion this
    rw [hres]
    refine ⟨?_, ?_⟩
    · show (s.rows.map (fun r => if r.id = roomId then applyPatch u now r else r)).Pairwise
        (fun a b => a.id ≠ b.id)
      rw [List.pairwise_map]
      refine List.Pairwise.imp_of_mem ?_ h.1
      intro a b ha hb hab
      by_cases hai : a.id = roomId
      · have hbi : b.id ≠ roomId := fun hbi => hab (hai.trans hbi.symm)
        simp only [hai, hbi, if_true, if_false]
        rcases writeReq_absent_or u.id a.id with hw | hw
        · show u.id.writeReq a.id ≠ b.id
          rw [hw]; exact hab
        · show u.id.writeReq a.id ≠ b.id
          intro hc
          rw [hc] at hw
          exact hkf b hb hbi (Or.inl hw)
      · by_cases hbi : b.id = roomId
        · simp only [hai, hbi, if_true, if_false]
          rcases writeReq_absent_or u.id b.id with hw | hw
          · show a.id ≠ u.id.writeReq b.id
            rw [hw]; exact hab
          · show a.id ≠ u.id.writeReq b.id
            intro hc
            rw [← hc] at hw
            exact hkf a ha hai (Or.inl hw)
        · simp only [hai, hbi, if_false]
          exact hab
    · intro p
      show (activeRoomsOf (s.rows.map (fun r => if r.id = roomId then applyPatch u now r else r))
        p).length ≤ 1
      unfold activeRoomsOf
      by_cases hp2 : u.player2 = .val p
      · -- the joining player: only rewritten rows can hold that player
        have hp0 : p ≠ 0 := by
          intro hp0
          rw [hp0] at hp2
          exact hg2 hp2
        have hjc2 : s.rows.filter (fun r => (playsIn p r ∧ isActive r) ∧ r.id ≠ roomId) = [] := by
          simpa [joinConflicts, hp2, hp0] using hjc
        refine Nat.le_trans ?_ (length_filter_key_le_one Room.id s.rows roomId h.1)
        apply length_filter_map_le
        intro x hx hq
        by_cases hxi : x.id = roomId
        · simpa using hxi
        · exfalso
          simp only [hxi, if_false] at hq
          rw [List.filter_eq_nil_iff] at hjc2
          have := hjc2 x hx
          apply this
          simp only [decide_eq_true_eq] at hq ⊢
          exact ⟨hq, hxi⟩
      · refine Nat.le_trans ?_ (h.2 p)
        unfold activeRoomsOf
        apply length_filter_map_le
        intro x hx hq
        by_cases hxi : x.id = roomId
        · simp only [hxi, if_true, decide_eq_true_eq] at hq ⊢
          obtain ⟨hpl, hac⟩ := hq
          refine ⟨?_, ?_⟩
          · rcases hpl with hpl | hpl
            · left
              simpa [applyPatch, hg1, Field.writeReq] using hpl
            · right
              have hpl2 : u.player2.write x.player2 = some p := hpl
              cases hu2 : u.player2 with
              | absent => simpa [hu2, Field.write] using hpl2
              | null => simp [hu2, Field.write] at hpl2
              | val q =>
                simp [hu2, Field.write] at hpl2
                rw [hpl2] at hu2
                exact absurd hu2 hp2
          · have hac2 : (u.game_state.clip 20).write x.game_state = some "waiting" ∨
                (u.game_state.clip 20).write x.game_state = some "game" := hac
            cases hgs : u.game_state with
            | absent => simpa [hgs, Field.clip, Field.write, isActive] using hac2
            | null => simp [hgs, Field.clip, Field.write] at hac2
            | val g =>
              simp only [hgs, Field.clip, Field.write, Option.some.injEq] at hac2
              have hg4 : g = "waiting" ∨ g = "game" := by
                rcases hac2 with h1 | h1
                · exact Or.inl (eq_of_clip_eq_short 20 g "waiting" (by decide) h1)
                · exact Or.inr (eq_of_clip_eq_short 20 g "game" (by decide) h1)
              exact hg3 g hgs hg4 x hx hxi
        · simpa [hxi] using hq
  · rw [update_room_fail s now roomId u hok]
    exact h

theorem runInv_step (s : Store) (op : Op) (hg : guardedOp s op) (h : RunInv s.rows) :
    RunInv (step s op).rows := by
  cases op with
  | create now room_code player1 bet => exact runInv_create_room s now room_code player1 bet h
  | update now roomId updates => exact runInv_update_room s now roomId updates hg h
  | delete roomId => exact runInv_delete_room s roomId h
  | sweep t1 t2 t3 t4 => exact runInv_cleanupClosedRooms s t1 t2 t3 t4 h

theorem runInv_foldl (ops : List Op) (s : Store) (hg : guardedRun s ops) (h : RunInv s.rows) :
    RunInv (ops.foldl step s).rows := by
  induction ops generalizing s with
  | nil => exact h
  | cons op rest ih =>
    exact ih (step s op) hg.2 (runInv_step s op hg.1 h)

/-- C1 (as stated, refuted) by three runs of create and update calls. First: players 7 and 8
each create a room, then a patch of room 2 writes `player1 = 7`; no check covers `player1` and
player 7 ends as `player1` of two rows with state `waiting`. Second: player 7 creates room 1, a
patch sets it to `finished`, player 7 creates room 2, a patch sets room 1 back to `waiting`.
Third: the falsy `player2 = 0` is written to two waiting rooms, the join check being skipped. -/
theorem single_active_room_broken_by_patch :
    (activeRoomsOf (run [.create 0 (.val "AB12") (.val 7) .absent,
        .create 1 (.val "CD34") (.val 8) .absent,
        .update 2 2 { Patch.none with player1 := .val 7 }]).rows 7).length = 2 ∧
    (activeRoomsOf (run [.create 0 (.val "AB12") (.val 7) .absent,
        .update 1 1 { Patch.none with game_state := .val "finished" },
        .create 2 (.val "CD34") (.val 7) .absent,
        .update 3 1 { Patch.none with game_state := .val "waiting" }]).rows 7).length = 2 ∧
    (activeRoomsOf (run [.create 0 (.val "AB12") (.val 7) .absent,
        .create 1 (.val "CD34") (.val 8) .absent,
        .update 2 1 { Patch.none with player2 := .val 0 },
        .update 3 2 { Patch.none with player2 := .val 0 }]).rows 0).length = 2 := by
  decide

/-- C1 (amended): in every store reached from the empty table by create, delete, sweep and
update calls run one after another, where every update carries a guarded patch (a body whose
keys are column names spelled exactly as in the table, that does not write `player1`, that
writes `player2` only as a truthy value, for which the handler runs its join check, so not as
`0`, and that writes the state `waiting` or `game` only to a row that is `waiting` or `game`
already), every player is `player1` or `player2` of at most one row with state `waiting` or
`game`. -/
theorem single_active_room_guarded_runs (ops : List Op) (hg : guardedRun emptyStore ops)
    (p : Int) : (activeRoomsOf (run ops).rows p).length ≤ 1 :=
  (runInv_foldl ops emptyStore hg runInv_nil).2 p

/-- Witness for C1: a room is created, player 9 joins it with a patch that also starts the game,
a stale sweep follows; the run is guarded and player 9 is in at most one active room. -/
theorem single_active_room_guarded_runs_witness :
    (activeRoomsOf (run [.create 0 (.val "AB12") (.val 7) .absent,
        .update 1 1 { Patch.none with player2 := .val 9, game_state := .val "game" },
        .sweep 2 2 2 2]).rows 9).length ≤ 1 := by
  apply single_active_room_guarded_runs
  refine ⟨trivial, ⟨rfl, by decide, ?_⟩, trivial, trivial⟩
  intro g _ _
  show ∀ r ∈ (step emptyStore (.create 0 (.val "AB12") (.val 7) .absent)).rows,
    r.id = 1 → isActive r
  decide

/-! ## PUT: empty patches, missing rows and the frame of a successful update -/

/-- C11 (as stated, refuted): the patch holds one property, `updated_at`, no row has id 1 and no
join check is run; the statement assigns `updated_at` twice, the store raises and the handler
answers HTTP 500 instead of HTTP 404. -/
theorem update_room_missing_row_is_500 :
    joinCheckRaises 1 { Patch.none with updated_at := .val 5 } = false ∧
    joinConflicts emptyStore.rows 1 { Patch.none with updated_at := .val 5 } = [] ∧
    Patch.isEmpty { Patch.none with updated_at := .val 5 } = false ∧
    (∀ r ∈ emptyStore.rows, r.id ≠ 1) ∧
    (update_room emptyStore 9 1 { Patch.none with updated_at := .val 5 }).2.http = 500 := by
  decide

/-- C11 (amended): for an update whose join check, if it is run, does not raise and finds no
conflict, an empty patch is answered HTTP 400 (no data); a non-empty patch for an id that no row
has is answered HTTP 404 when the store can read the statement (the patch does not hold
`updated_at`, the id and the integers of the patch are within the types of their columns, the
texts of the patch have no NUL character and are blank past the length of their columns), and
HTTP 500 otherwise. An update whose join check raises is answered HTTP 500. In all these cases
the store is left as it was. -/
theorem update_room_empty_or_missing (s : Store) (now roomId : Int) (u : Patch) :
    (joinCheckRaises roomId u = true →
      update_room s now roomId u = (s, errorResponse 500 Msg.updateFailed)) ∧
    (joinCheckRaises roomId u = false → joinConflicts s.rows roomId u = [] →
      (u.isEmpty = true →
        update_room s now roomId u = (s, errorResponse 400 Msg.noUpdateData)) ∧
      (u.isEmpty = false → (∀ r ∈ s.rows, r.id ≠ roomId) →
        (u.updated_at = .absent ∧ u.unreadable roomId = false →
          update_room s now roomId u = (s, errorResponse 404 Msg.roomNotFound)) ∧
        (¬ (u.updated_at = .absent ∧ u.unreadable roomId = false) →
          update_room s now roomId u = (s, errorResponse 500 Msg.updateFailed)))) := by
  refine ⟨fun hjr => by simp [update_room, hjr], fun hjr hj => ⟨?_, ?_⟩⟩
  · intro he
    simp [update_room, hjr, hj, he]
  · intro he hno
    have hf : s.rows.filter (fun r => r.id = roomId) = [] := by
      rw [List.filter_eq_nil_iff]
      intro r hr
      simpa using hno r hr
    refine ⟨?_, ?_⟩
    · rintro ⟨h1, h2⟩
      simp [update_room, hjr, hj, he, execUpdate, h1, h2, hf, Field.isAbsent]
    · intro hbad
      have hx : execUpdate s.rows now roomId u = none := by
        unfold execUpdate
        by_cases h1 : u.updated_at = .absent
        · by_cases h2 : u.unreadable roomId = false
          · exact absurd ⟨h1, h2⟩ hbad
          · simp [h1, Field.isAbsent, h2]
        · cases hu : u.updated_at with
          | absent => exact absurd hu h1
          | null => simp [Field.isAbsent]
          | val v => simp [Field.isAbsent]
      simp [update_room, hjr, hj, he, hx]

/-- Witness for C11: on a table holding room 1, for the id 5 that no row has, the empty patch is
answered HTTP 400, a bet patch HTTP 404, and a patch with a bet outside `INTEGER` or with a
code that is not blank past 4 characters HTTP 500; a code with a blank past 4 characters is
answered HTTP 404. -/
theorem update_room_empty_or_missing_witness :
    update_room (run [.create 0 (.val "AB12") (.val 7) .absent]) 3 5 Patch.none
      = (run [.create 0 (.val "AB12") (.val 7) .absent], errorResponse 400 Msg.noUpdateData) ∧
    update_room (run [.create 0 (.val "AB12") (.val 7) .absent]) 3 5
        { Patch.none with bet := .val 2 }
      = (run [.create 0 (.val "AB12") (.val 7) .absent], errorResponse 404 Msg.roomNotFound) ∧
    update_room (run [.create 0 (.val "AB12") (.val 7) .absent]) 3 5
        { Patch.none with bet := .val 2147483648 }
      = (run [.create 0 (.val "AB12") (.val 7) .absent], errorResponse 500 Msg.updateFailed) ∧
    update_room (run [.create 0 (.val "AB12") (.val 7) .absent]) 3 5
        { Patch.none with room_code := .val "AB12 " }
      = (run [.create 0 (.val "AB12") (.val 7) .absent], errorResponse 404 Msg.roomNotFound) ∧
    update_room (run [.create 0 (.val "AB12") (.val 7) .absent]) 3 5
        { Patch.none with room_code := .val "AB123" }
      = (run [.create 0 (.val "AB12") (.val 7) .absent], errorResponse 500 Msg.updateFailed) :=
  ⟨((update_room_empty_or_missing (run [.create 0 (.val "AB12") (.val 7) .absent]) 3 5
      Patch.none).2 (by decide) (by decide)).1 (by decide),
   (((update_room_empty_or_missing (run [.create 0 (.val "AB12") (.val 7) .absent]) 3 5
      { Patch.none with bet := .val 2 }).2 (by decide) (by decide)).2 (by decide)
      (by decide)).1 (by decide),
   (((update_room_empty_or_missing (run [.create 0 (.val "AB12") (.val 7) .absent]) 3 5
      { Patch.none with bet := .val 2147483648 }).2 (by decide) (by decide)).2 (by decide)
      (by decide)).2 (by decide),
   (((update_room_empty_or_missing (run [.create 0 (.val "AB12") (.val 7) .absent]) 3 5
      { Patch.none with room_code := .val "AB12 " }).2 (by decide) (by decide)).2 (by decide)
      (by decide)).1 (by decide),
   (((update_room_empty_or_missing (run [.create 0 (.val "AB12") (.val 7) .absent]) 3 5
      { Patch.none with room_code := .val "AB123" }).2 (by decide) (by decide)).2 (by decide)
      (by decide)).2 (by decide)⟩

/-- C12: an update answered HTTP 200 rewrites the table row by row: a row under another id is
kept as it is; in a row under `roomId` every column named in the patch holds the patch value
(`NULL` for `null`; for the two `VARCHAR` columns the value as the store coerces it, cut to the
column length, which is the value itself when it is no longer than the column), every column not
named keeps its value, `updated_at` apart; the table has the same rows in the same order
otherwise, the sequence is untouched, and the answer returns the rewritten row of a row under
`roomId`, its timestamps as dates. -/
theorem update_room_patch_frame (s : Store) (now roomId : Int) (u : Patch)
    (h : (update_room s now roomId u).2.http = 200) :
    ∃ f : Room → Room,
      (update_room s now roomId u).1.rows = s.rows.map f ∧
      (update_room s now roomId u).1.nextId = s.nextId ∧
      (∀ r : Room, r.id ≠ roomId → f r = r) ∧
      (∃ old ∈ s.rows, old.id = roomId ∧
        (update_room s now roomId u).2.room = some (f old).toJson) ∧
      ∀ r : Room, r.id = roomId →
        (u.id = .absent → (f r).id = r.id) ∧ (∀ v, u.id = .val v → (f r).id = v) ∧
        (u.room_code = .absent → (f r).room_code = r.room_code) ∧
        (∀ v, u.room_code = .val v → (f r).room_code = clip 4 v) ∧
        (∀ v, u.room_code = .val v → v.length ≤ 4 → (f r).room_code = v) ∧
        (u.player1 = .absent → (f r).player1 = r.player1) ∧
        (∀ v, u.player1 = .val v → (f r).player1 = v) ∧
        (u.player2 = .absent → (f r).player2 = r.player2) ∧
        (u.player2 = .null → (f r).player2 = none) ∧
        (∀ v, u.player2 = .val v → (f r).player2 = some v) ∧
        (u.game_state = .absent → (f r).game_state = r.game_state) ∧
        (u.game_state = .null → (f r).game_state = none) ∧
        (∀ v, u.game_state = .val v → (f r).game_state = some (clip 20 v)) ∧
        (∀ v, u.game_state = .val v → v.length ≤ 20 → (f r).game_state = some v) ∧
        (u.sender_hod = .absent → (f r).sender_hod = r.sender_hod) ∧
        (u.sender_hod = .null → (f r).sender_hod = none) ∧
        (∀ v, u.sender_hod = .val v → (f r).sender_hod = some v) ∧
        (u.protect_hod = .absent → (f r).protect_hod = r.protect_hod) ∧
        (u.protect_hod = .null → (f r).protect_hod = none) ∧
        (∀ v, u.protect_hod = .val v → (f r).protect_hod = some v) ∧
        (u.zone_sender = .absent → (f r).zone_sender = r.zone_sender) ∧
        (u.zone_sender = .null → (f r).zone_sender = none) ∧
        (∀ v, u.zone_sender = .val v → (f r).zone_sender = some v) ∧
        (u.zone_protect1 = .absent → (f r).zone_protect1 = r.zone_protect1) ∧
        (u.zone_protect1 = .null → (f r).zone_protect1 = none) ∧
        (∀ v, u.zone_protect1 = .val v → (f r).zone_protect1 = some v) ∧
        (u.zone_protect2 = .absent → (f r).zone_protect2 = r.zone_protect2) ∧
        (u.zone_protect2 = .null → (f r).zone_protect2 = none) ∧
        (∀ v, u.zone_protect2 = .val v → (f r).zone_protect2 = some v) ∧
        (u.bet = .absent → (f r).bet = r.bet) ∧
        (u.bet = .null → (f r).bet = none) ∧
        (∀ v, u.bet = .val v → (f r).bet = some v) ∧
        (u.created_at = .absent → (f r).created_at = r.created_at) ∧
        (u.created_at = .null → (f r).created_at = none) ∧
        (∀ v, u.created_at = .val v → (f r).created_at = some v) := by
  obtain ⟨t, ts, hf, _, _, _, _, _, _, hres⟩ := update_room_ok s now roomId u h
  have ht := head_of_filter_key Room.id s.rows roomId t ts hf
  refine ⟨fun r => if r.id = roomId then applyPatch u now r else r, ?_, ?_, ?_, ?_, ?_⟩
  · rw [hres]
  · rw [hres]
  · intro r hr
    simp [hr]
  · refine ⟨t, ht.1, ht.2, ?_⟩
    rw [hres]
    simp [roomResponse, ht.2]
  · intro r hr
    simp only [hr, if_true]
    refine ⟨?_, ?_, ?_, ?_, ?_, ?_, ?_, ?_, ?_, ?_, ?_, ?_, ?_, ?_, ?_, ?_, ?_, ?_, ?_, ?_, ?_,
      ?_, ?_, ?_, ?_, ?_, ?_, ?_, ?_, ?_, ?_, ?_, ?_, ?_, ?_⟩
    case refine_5 =>
      intro v hv hl
      simp only [applyPatch, Field.clip, Field.writeReq, hv]
      exact clip_of_length_le 4 v hl
    case refine_14 =>
      intro v hv hl
      simp only [applyPatch, Field.clip, Field.write, hv]
      rw [clip_of_length_le 20 v hl]
    all_goals (intros; simp only [applyPatch, Field.clip, Field.write, Field.writeReq, *])

/-- Witness for C12: player 9 joins room 1 with a patch that also starts the game; the bet and
the creator stay, room 2 stays. -/
theorem update_room_patch_frame_witness :
    ∃ f : Room → Room,
      (update_room (run [.create 0 (.val "AB12") (.val 7) (.val 3),
          .create 1 (.val "CD34") (.val 8) .absent]) 5 1
        { Patch.none with player2 := .val 9, game_state := .val "game" }).1.rows
        = [f (newRoom 1 0 "AB12" 7 (some 3)), f (newRoom 2 1 "CD34" 8 (some 0))] ∧
      f (newRoom 2 1 "CD34" 8 (some 0)) = newRoom 2 1 "CD34" 8 (some 0) ∧
      (f (newRoom 1 0 "AB12" 7 (some 3))).player2 = some 9 ∧
      (f (newRoom 1 0 "AB12" 7 (some 3))).game_state = some "game" ∧
      (f (newRoom 1 0 "AB12" 7 (some 3))).bet = some 3 := by
  obtain ⟨f, h1, _, h3, _, h5⟩ := update_room_patch_frame
    (run [.create 0 (.val "AB12") (.val 7) (.val 3), .create 1 (.val "CD34") (.val 8) .absent])
    5 1 { Patch.none with player2 := .val 9, game_state := .val "game" } (by decide)
  have hrows : (run [.create 0 (.val "AB12") (.val 7) (.val 3),
      .create 1 (.val "CD34") (.val 8) .absent]).rows
      = [newRoom 1 0 "AB12" 7 (some 3), newRoom 2 1 "CD34" 8 (some 0)] := by decide
  rw [hrows] at h1
  have h5a := h5 (newRoom 1 0 "AB12" 7 (some 3)) rfl
  refine ⟨f, h1, h3 _ (by decide), ?_, ?_, ?_⟩
  · exact h5a.2.2.2.2.2.2.2.2.2.1 9 rfl
  · exact h5a.2.2.2.2.2.2.2.2.2.2.2.2.2.1 "game" rfl (by decide)
  · have := h5a.2.2.2.2.2.2.2.2.2.2.2.2.2.2.2.2.2.2.2.2.2.2.2.2.2.2.2.2.2.1 rfl
    rw [this]; rfl

/-! ## DELETE /api/game/room/:room_id -/

/-- C13 (as stated, refuted): no row has the id 2147483648, yet the answer is not NotFound: the
id is outside `INTEGER`, the type of the column, the statement raises and the handler answers
HTTP 500. -/
theorem delete_room_out_of_range_is_500 :
    (∀ r ∈ (run [.create 0 (.val "AB12") (.val 7) .absent]).rows, r.id ≠ 2147483648) ∧
    delete_room (run [.create 0 (.val "AB12") (.val 7) .absent]) 2147483648
      = (run [.create 0 (.val "AB12") (.val 7) .absent],
          errorResponse 500 Msg.deleteFailed) := by
  decide

/-- C13 (amended): the delete by an id within `INTEGER` is answered HTTP 200 exactly when a row
has the id and HTTP 404 with status `error` exactly when none has; afterwards no row has the id,
and the rows under other ids are the same as before, in the same order. The delete by an id
outside `INTEGER` is answered HTTP 500 and leaves the store as it was. -/
theorem delete_room_spec (s : Store) (roomId : Int) :
    (inInt4 roomId →
      ((delete_room s roomId).2.http = 200 ↔ ∃ r ∈ s.rows, r.id = roomId) ∧
      ((delete_room s roomId).2.http = 404 ↔ ¬ ∃ r ∈ s.rows, r.id = roomId) ∧
      ((delete_room s roomId).2.http = 200 → (delete_room s roomId).2.status = Status.success) ∧
      ((delete_room s roomId).2.http = 404 → (delete_room s roomId).2.status = Status.error) ∧
      (∀ r ∈ (delete_room s roomId).1.rows, r.id ≠ roomId) ∧
      (delete_room s roomId).1.rows = s.rows.filter (fun r => r.id ≠ roomId) ∧
      (delete_room s roomId).1.nextId = s.nextId ∧
      (∀ r : Room, r.id ≠ roomId → (r ∈ (delete_room s roomId).1.rows ↔ r ∈ s.rows))) ∧
    (¬ inInt4 roomId →
      delete_room s roomId = (s, errorResponse 500 Msg.deleteFailed)) := by
  refine ⟨fun h4 => ?_, fun h4 => by simp [delete_room, h4]⟩
  cases hf : s.rows.filter (fun r => r.id = roomId) with
  | nil =>
    have hno : ∀ r ∈ s.rows, r.id ≠ roomId := by
      simpa [List.filter_eq_nil_iff] using hf
    have hres : delete_room s roomId = (s, errorResponse 404 Msg.roomNotFound) := by
      simp [delete_room, h4, hf]
    have hall : s.rows.filter (fun r => r.id ≠ roomId) = s.rows := by
      rw [List.filter_eq_self]
      intro r hr
      simpa using hno r hr
    rw [hres]
    refine ⟨?_, ?_, ?_, ?_, ?_, ?_, rfl, ?_⟩
    · constructor
      · intro h; simp [errorResponse] at h
      · rintro ⟨r, hr, hid⟩; exact absurd hid (hno r hr)
    · constructor
      · rintro _ ⟨r, hr, hid⟩; exact absurd hid (hno r hr)
      · intro _; rfl
    · intro h; simp [errorResponse] at h
    · intro _; rfl
    · exact hno
    · exact hall.symm
    · intro r _; exact Iff.rfl
  | cons a t =>
    have ha := head_of_filter_key Room.id s.rows roomId a t hf
    have hres : delete_room s roomId =
        ({ s with rows := s.rows.filter (fun r => ¬ r.id = roomId) },
         { http := 200, status := .success, message := some .roomDeleted, room := none,
           active_room := none }) := by
      simp [delete_room, h4, hf]
    rw [hres]
    refine ⟨?_, ?_, ?_, ?_, ?_, ?_, rfl, ?_⟩
    · constructor
      · intro _; exact ⟨a, ha.1, ha.2⟩
      · intro _; rfl
    · constructor
      · intro h; simp at h
      · intro h; exact absurd ⟨a, ha.1, ha.2⟩ h
    · intro _; rfl
    · intro h; simp at h
    · intro r hr
      have := (List.mem_filter.mp hr).2
      simpa using this
    · rfl
    · intro r hr
      simp [List.mem_filter, hr]

/-- Witness for C13: of the rooms 1 and 2, room 1 is deleted and room 2 stays; a second delete
of room 1 is answered HTTP 404. -/
theorem delete_room_spec_witness :
    (delete_room (run [.create 0 (.val "AB12") (.val 7) .absent,
        .create 1 (.val "CD34") (.val 8) .absent]) 1).2.http = 200 ∧
    (delete_room (run [.create 0 (.val "AB12") (.val 7) .absent,
        .create 1 (.val "CD34") (.val 8) .absent]) 1).1.rows
      = [newRoom 2 1 "CD34" 8 (some 0)] ∧
    (delete_room (run [.create 0 (.val "AB12") (.val 7) .absent,
        .create 1 (.val "CD34") (.val 8) .absent, .delete 1]) 1).2.http = 404 :=
  ⟨((delete_room_spec (run [.create 0 (.val "AB12") (.val 7) .absent,
        .create 1 (.val "CD34") (.val 8) .absent]) 1).1 (by decide)).1.mpr
      ⟨newRoom 1 0 "AB12" 7 (some 0), by decide, by decide⟩,
   by decide,
   ((delete_room_spec (run [.create 0 (.val "AB12") (.val 7) .absent,
        .create 1 (.val "CD34") (.val 8) .absent, .delete 1]) 1).1 (by decide)).2.1.mpr
      (by decide)⟩

/-! ## The sweep, row by row -/

theorem closeInactiveRooms_eq_map (now : Int) (rows : List Room) :
    closeInactiveRooms now rows = rows.map (closeRow now) := rfl

theorem autoFinishGames_eq_map (now : Int) (rows : List Room) :
    autoFinishGames now rows = rows.map (finishRow now) := rfl

theorem closeRow_id (now : Int) (r : Room) : (closeRow now r).id = r.id := by
  unfold closeRow
  split <;> rfl

theorem finishRow_id (now : Int) (r : Room) : (finishRow now r).id = r.id := by
  unfold finishRow
  split <;> rfl

/-- The rows after a sweep: the rewritten old rows that pass both deletes. -/
theorem mem_cleanupClosedRooms (s : Store) (t1 t2 t3 t4 : Int) (r2 : Room) :
    r2 ∈ (cleanupClosedRooms s t1 t2 t3 t4).rows ↔
      ∃ r ∈ s.rows,
        ¬ ((closeRow t1 r).game_state = some "closed" ∧
            (closeRow t1 r).updated_at < t2 - seconds 10) ∧
        r2 = finishRow t3 (closeRow t1 r) ∧
        ¬ (r2.game_state = some "finished" ∧ r2.updated_at < t4 - minutes 1) := by
  simp only [cleanupClosedRooms, deleteFinishedRooms, deleteClosedRooms,
    closeInactiveRooms_eq_map, autoFinishGames_eq_map, List.mem_filter, List.mem_map,
    decide_eq_true_eq]
  constructor
  · rintro ⟨⟨x, ⟨⟨r, hr, hx⟩, hk2⟩, hx2⟩, hk4⟩
    subst hx
    exact ⟨r, hr, hk2, hx2.symm, hk4⟩
  · rintro ⟨r, hr, hk2, hx2, hk4⟩
    exact ⟨⟨closeRow t1 r, ⟨⟨r, hr, rfl⟩, hk2⟩, hx2.symm⟩, hk4⟩

theorem eq_of_mem_of_id_eq (rows : List Room) (huniq : rows.Pairwise (fun a b => a.id ≠ b.id))
    (a b : Room) (ha : a ∈ rows) (hb : b ∈ rows) (hab : a.id = b.id) : a = b := by
  cases hf : rows.filter (fun r => r.id = b.id) with
  | nil =>
    exfalso
    rw [List.filter_eq_nil_iff] at hf
    have := hf b hb
    simp at this
  | cons x t =>
    have h1 := eq_head_of_filter_key Room.id rows b.id huniq x t hf a ha hab
    have h2 := eq_head_of_filter_key Room.id rows b.id huniq x t hf b hb rfl
    rw [h1, h2]

/-- On a table with unique ids, the row found after a sweep under the id of an old row is the
rewritten old row, and it is found exactly when it passes both deletes. -/
theorem cleanup_row_image (s : Store) (t1 t2 t3 t4 : Int)
    (huniq : s.rows.Pairwise (fun a b => a.id ≠ b.id)) (r : Room) (hr : r ∈ s.rows)
    (r2 : Room) :
    (r2 ∈ (cleanupClosedRooms s t1 t2 t3 t4).rows ∧ r2.id = r.id) ↔
      (r2 = finishRow t3 (closeRow t1 r) ∧
        ¬ ((closeRow t1 r).game_state = some "closed" ∧
            (closeRow t1 r).updated_at < t2 - seconds 10) ∧
        ¬ (r2.game_state = some "finished" ∧ r2.updated_at < t4 - minutes 1)) := by
  rw [mem_cleanupClosedRooms]
  constructor
  · rintro ⟨⟨r0, hr0, hk2, hx, hk4⟩, hid⟩
    have hid0 : r0.id = r.id := by
      rw [← hid, hx, finishRow_id, closeRow_id]
    have := eq_of_mem_of_id_eq s.rows huniq r0 r hr0 hr hid0
    subst this
    exact ⟨hx, hk2, hk4⟩
  · rintro ⟨hx, hk2, hk4⟩
    refine ⟨⟨r, hr, hk2, hx, hk4⟩, ?_⟩
    rw [hx, finishRow_id, closeRow_id]

/-! ## The four steps of a sweep -/

theorem sweep_waiting_image (now : Int) (r : Room) (hw : r.game_state = some "waiting") :
    finishRow now (closeRow now r) = closeRow now r ∧
    ¬ ((closeRow now r).game_state = some "closed" ∧
        (closeRow now r).updated_at < now - seconds 10) ∧
    ¬ ((closeRow now r).game_state = some "finished" ∧
        (closeRow now r).updated_at < now - minutes 1) := by
  by_cases hs : r.updated_at < now - minutes 5
  · have hc : closeRow now r = { r with game_state := some "closed", updated_at := now } := by
      simp [closeRow, hw, hs]
    rw [hc]
    refine ⟨?_, ?_, ?_⟩
    · simp [finishRow]
    · simp [seconds]
    · simp
  · have hc : closeRow now r = r := by
      simp [closeRow, hs]
    rw [hc]
    refine ⟨?_, ?_, ?_⟩
    · simp [finishRow, hw]
    · simp [hw]
    · simp [hw]

/-- C14 (sweep step 1): on a table with unique ids, a row that is `waiting` before a sweep at
time `now` is still in the table afterwards; it is then `closed` exactly when its `updated_at`
was more than 5 minutes before `now`, in which case only its state (`closed`) and `updated_at`
(`now`) changed; a waiting row that is 5 minutes old or less is left as it was. -/
theorem sweep_closes_stale_waiting (s : Store) (now : Int)
    (huniq : s.rows.Pairwise (fun a b => a.id ≠ b.id)) (r : Room) (hr : r ∈ s.rows)
    (hw : r.game_state = some "waiting") :
    (∃ r2 ∈ (sweep s now).rows, r2.id = r.id) ∧
    ∀ r2 ∈ (sweep s now).rows, r2.id = r.id →
      (r2.game_state = some "closed" ↔ r.updated_at < now - minutes 5) ∧
      (r.updated_at < now - minutes 5 →
        r2 = { r with game_state := some "closed", updated_at := now }) ∧
      (¬ r.updated_at < now - minutes 5 → r2 = r) := by
  obtain ⟨h1, h2, h3⟩ := sweep_waiting_image now r hw
  have himg := cleanup_row_image s now now now now huniq r hr
  refine ⟨?_, ?_⟩
  · refine ⟨closeRow now r, ?_⟩
    exact (himg (closeRow now r)).mpr ⟨h1.symm, h2, h3⟩
  · intro r2 hr2 hid
    have h4 := ((himg r2).mp ⟨hr2, hid⟩).1
    rw [h1] at h4
    by_cases hs : r.updated_at < now - minutes 5
    · have hc : closeRow now r = { r with game_state := some "closed", updated_at := now } := by
        simp [closeRow, hw, hs]
      rw [hc] at h4
      refine ⟨?_, ?_, ?_⟩
      · rw [h4]; simp [hs]
      · intro _; exact h4
      · intro hn; exact absurd hs hn
    · have hc : closeRow now r = r := by
        simp [closeRow, hs]
      rw [hc] at h4
      refine ⟨?_, ?_, ?_⟩
      · rw [h4]; simp [hs, hw]
      · intro h; exact absurd h hs
      · intro _; exact h4

/-- Witness for C14: a room created at time 0 and swept one microsecond after 5 minutes. -/
theorem sweep_closes_stale_waiting_witness :
    { newRoom 1 0 "AB12" 7 (some 0) with game_state := some "closed", updated_at := 300000001 }
      ∈ (sweep (run [.create 0 (.val "AB12") (.val 7) .absent]) 300000001).rows := by
  have h := sweep_closes_stale_waiting (run [.create 0 (.val "AB12") (.val 7) .absent])
    300000001 (by decide) (newRoom 1 0 "AB12" 7 (some 0)) (by decide) (by decide)
  obtain ⟨⟨r2, hr2, hid⟩, hall⟩ := h
  have := (hall r2 hr2 hid).2.1 (by decide)
  rw [this] at hr2
  exact hr2

theorem sweep_closed_image (now : Int) (r : Room) (hc : r.game_state = some "closed") :
    finishRow now (closeRow now r) = r ∧ closeRow now r = r := by
  have h1 : closeRow now r = r := by simp [closeRow, hc]
  rw [h1]
  exact ⟨by simp [finishRow, hc], rfl⟩

/-- C15 (sweep step 2): on a table with unique ids, a row that is `closed` before a sweep at
time `now` is deleted by it (no row is left under its id) exactly when its `updated_at` was more
than 10 seconds before `now`; a closed row that is 10 seconds old or less is still in the table,
as it was. -/
theorem sweep_deletes_stale_closed (s : Store) (now : Int)
    (huniq : s.rows.Pairwise (fun a b => a.id ≠ b.id)) (r : Room) (hr : r ∈ s.rows)
    (hc : r.game_state = some "closed") :
    ((∀ r2 ∈ (sweep s now).rows, r2.id ≠ r.id) ↔ r.updated_at < now - seconds 10) ∧
    (¬ r.updated_at < now - seconds 10 → r ∈ (sweep s now).rows) ∧
    (∀ r2 ∈ (sweep s now).rows, r2.id = r.id → r2 = r) := by
  obtain ⟨h1, h2⟩ := sweep_closed_image now r hc
  have himg := cleanup_row_image s now now now now huniq r hr
  have hkeep : ¬ r.updated_at < now - seconds 10 → r ∈ (sweep s now).rows := by
    intro hn
    refine ((himg r).mpr ⟨h1.symm, ?_, ?_⟩).1
    · rw [h2]; exact fun h => hn h.2
    · simp [hc]
  refine ⟨⟨?_, ?_⟩, hkeep, ?_⟩
  · intro hall
    by_contra hn
    exact hall r (hkeep hn) rfl
  · intro hs r2 hr2 hid
    have := ((himg r2).mp ⟨hr2, hid⟩).2.1
    rw [h2] at this
    exact this ⟨hc, hs⟩
  · intro r2 hr2 hid
    have := ((himg r2).mp ⟨hr2, hid⟩).1
    rw [h1] at this
    exact this

/-- Witness for C15: room 1 is closed by a patch at time 5; a sweep at 10 seconds and 5
microseconds keeps it, a sweep one microsecond later deletes it. -/
theorem sweep_deletes_stale_closed_witness :
    { newRoom 1 0 "AB12" 7 (some 0) with game_state := some "closed", updated_at := 5 }
      ∈ (sweep (run [.create 0 (.val "AB12") (.val 7) .absent,
          .update 5 1 { Patch.none with game_state := .val "closed" }]) 10000005).rows ∧
    ¬ { newRoom 1 0 "AB12" 7 (some 0) with game_state := some "closed", updated_at := 5 }
      ∈ (sweep (run [.create 0 (.val "AB12") (.val 7) .absent,
          .update 5 1 { Patch.none with game_state := .val "closed" }]) 10000006).rows := by
  have h1 := sweep_deletes_stale_closed (run [.create 0 (.val "AB12") (.val 7) .absent,
      .update 5 1 { Patch.none with game_state := .val "closed" }]) 10000005 (by decide)
    { newRoom 1 0 "AB12" 7 (some 0) with game_state := some "closed", updated_at := 5 }
    (by decide) (by decide)
  have h2 := sweep_deletes_stale_closed (run [.create 0 (.val "AB12") (.val 7) .absent,
      .update 5 1 { Patch.none with game_state := .val "closed" }]) 10000006 (by decide)
    { newRoom 1 0 "AB12" 7 (some 0) with game_state := some "closed", updated_at := 5 }
    (by decide) (by decide)
  refine ⟨h1.2.1 (by decide), ?_⟩
  intro hmem
  exact (h2.1.mpr (by decide)) _ hmem rfl

theorem sweep_game_image (now : Int) (r : Room) (hg : r.game_state = some "game") :
    closeRow now r = r ∧
    ¬ (r.game_state = some "closed" ∧ r.updated_at < now - seconds 10) ∧
    ¬ ((finishRow now r).game_state = some "finished" ∧
        (finishRow now r).updated_at < now - minutes 1) := by
  refine ⟨by simp [closeRow, hg], by simp [hg], ?_⟩
  by_cases hs : r.updated_at < now - seconds 30
  · have hf : finishRow now r = { r with game_state := some "finished", updated_at := now } := by
      simp [finishRow, hg, hs]
    rw [hf]
    simp [minutes]
  · have hf : finishRow now r = r := by simp [finishRow, hs]
    rw [hf]
    simp [hg]

/-- C16 (sweep step 3): on a table with unique ids, a row that is `game` before a sweep at time
`now` is still in the table afterwards; it is then `finished` exactly when its `updated_at` was
more than 30 seconds before `now`, in which case only its state (`finished`) and `updated_at`
(`now`) changed; a game row that is 30 seconds old or less is left as it was. -/
theorem sweep_finishes_stale_game (s : Store) (now : Int)
    (huniq : s.rows.Pairwise (fun a b => a.id ≠ b.id)) (r : Room) (hr : r ∈ s.rows)
    (hg : r.game_state = some "game") :
    (∃ r2 ∈ (sweep s now).rows, r2.id = r.id) ∧
    ∀ r2 ∈ (sweep s now).rows, r2.id = r.id →
      (r2.game_state = some "finished" ↔ r.updated_at < now - seconds 30) ∧
      (r.updated_at < now - seconds 30 →
        r2 = { r with game_state := some "finished", updated_at := now }) ∧
      (¬ r.updated_at < now - seconds 30 → r2 = r) := by
  obtain ⟨h1, h2, h3⟩ := sweep_game_image now r hg
  have himg := cleanup_row_image s now now now now huniq r hr
  refine ⟨?_, ?_⟩
  · refine ⟨finishRow now r, ?_⟩
    refine (himg (finishRow now r)).mpr ⟨by rw [h1], ?_, h3⟩
    rw [h1]; exact h2
  · intro r2 hr2 hid
    have h4 := ((himg r2).mp ⟨hr2, hid⟩).1
    rw [h1] at h4
    by_cases hs : r.updated_at < now - seconds 30
    · have hf : finishRow now r
          = { r with game_state := some "finished", updated_at := now } := by
        simp [finishRow, hg, hs]
      rw [hf] at h4
      refine ⟨?_, ?_, ?_⟩
      · rw [h4]; simp [hs]
      · intro _; exact h4
      · intro hn; exact absurd hs hn
    · have hf : finishRow now r = r := by simp [finishRow, hs]
      rw [hf] at h4
      refine ⟨?_, ?_, ?_⟩
      · rw [h4]; simp [hs, hg]
      · intro h; exact absurd h hs
      · intro _; exact h4

/-- Witness for C16: room 1 is set to `game` at time 5 and swept one microsecond after 30
seconds have passed. -/
theorem sweep_finishes_stale_game_witness :
    { newRoom 1 0 "AB12" 7 (some 0) with game_state := some "finished", updated_at := 30000006 }
      ∈ (sweep (run [.create 0 (.val "AB12") (.val 7) .absent,
          .update 5 1 { Patch.none with game_state := .val "game" }]) 30000006).rows := by
  have h := sweep_finishes_stale_game (run [.create 0 (.val "AB12") (.val 7) .absent,
      .update 5 1 { Patch.none with game_state := .val "game" }]) 30000006 (by decide)
    { newRoom 1 0 "AB12" 7 (some 0) with game_state := some "game", updated_at := 5 }
    (by decide) (by decide)
  obtain ⟨⟨r2, hr2, hid⟩, hall⟩ := h
  have := (hall r2 hr2 hid).2.1 (by decide)
  rw [this] at hr2
  exact hr2

theorem sweep_finished_image (now : Int) (r : Room) (hf : r.game_state = some "finished") :
    finishRow now (closeRow now r) = r ∧ closeRow now r = r := by
  have h1 : closeRow now r = r := by simp [closeRow, hf]
  rw [h1]
  exact ⟨by simp [finishRow, hf], rfl⟩

/-- C17 (sweep step 4): on a table with unique ids, a row that is `finished` before a sweep at
time `now` is deleted by it (no row is left under its id) exactly when its `updated_at` was more
than 1 minute before `now`; a finished row that is 1 minute old or less is still in the table,
as it was. -/
theorem sweep_deletes_stale_finished (s : Store) (now : Int)
    (huniq : s.rows.Pairwise (fun a b => a.id ≠ b.id)) (r : Room) (hr : r ∈ s.rows)
    (hf : r.game_state = some "finished") :
    ((∀ r2 ∈ (sweep s now).rows, r2.id ≠ r.id) ↔ r.updated_at < now - minutes 1) ∧
    (¬ r.updated_at < now - minutes 1 → r ∈ (sweep s now).rows) ∧
    (∀ r2 ∈ (sweep s now).rows, r2.id = r.id → r2 = r) := by
  obtain ⟨h1, h2⟩ := sweep_finished_image now r hf
  have himg := cleanup_row_image s now now now now huniq r hr
  have hkeep : ¬ r.updated_at < now - minutes 1 → r ∈ (sweep s now).rows := by
    intro hn
    refine ((himg r).mpr ⟨h1.symm, ?_, ?_⟩).1
    · rw [h2]; simp [hf]
    · exact fun h => hn h.2
  refine ⟨⟨?_, ?_⟩, hkeep, ?_⟩
  · intro hall
    by_contra hn
    exact hall r (hkeep hn) rfl
  · intro hs r2 hr2 hid
    have h4 := (himg r2).mp ⟨hr2, hid⟩
    have h5 := h4.2.2
    rw [h4.1, h1] at h5
    exact h5 ⟨hf, hs⟩
  · intro r2 hr2 hid
    have := ((himg r2).mp ⟨hr2, hid⟩).1
    rw [h1] at this
    exact this

/-- Witness for C17: room 1 is set to `finished` at time 5; a sweep at 1 minute and 5
microseconds keeps it, a sweep one microsecond later deletes it. -/
theorem sweep_deletes_stale_finished_witness :
    { newRoom 1 0 "AB12" 7 (some 0) with game_state := some "finished", updated_at := 5 }
      ∈ (sweep (run [.create 0 (.val "AB12") (.val 7) .absent,
          .update 5 1 { Patch.none with game_state := .val "finished" }]) 60000005).rows ∧
    ¬ { newRoom 1 0 "AB12" 7 (some 0) with game_state := some "finished", updated_at := 5 }
      ∈ (sweep (run [.create 0 (.val "AB12") (.val 7) .absent,
          .update 5 1 { Patch.none with game_state := .val "finished" }]) 60000006).rows := by
  have h1 := sweep_deletes_stale_finished (run [.create 0 (.val "AB12") (.val 7) .absent,
      .update 5 1 { Patch.none with game_state := .val "finished" }]) 60000005 (by decide)
    { newRoom 1 0 "AB12" 7 (some 0) with game_state := some "finished", updated_at := 5 }
    (by decide) (by decide)
  have h2 := sweep_deletes_stale_finished (run [.create 0 (.val "AB12") (.val 7) .absent,
      .update 5 1 { Patch.none with game_state := .val "finished" }]) 60000006 (by decide)
    { newRoom 1 0 "AB12" 7 (some 0) with game_state := some "finished", updated_at := 5 }
    (by decide) (by decide)
  refine ⟨h1.2.1 (by decide), ?_⟩
  intro hmem
  exact (h2.1.mpr (by decide)) _ hmem rfl

/-! ## Lifecycles over two sweeps -/

/-- A create request answered HTTP 200 appended one row and returns it, its timestamps as
dates. -/
theorem create_room_room_eq (s : Store) (now : Int) (room_code : Field String)
    (player1 : Field Int) (bet : Field Int)
    (h : (create_room s now room_code player1 bet).2.http = 200) :
    ∃ c p b, (create_room s now room_code player1 bet).2.room
        = some (newRoom s.nextId now c p b).toJson ∧
      (create_room s now room_code player1 bet).1.rows
        = s.rows ++ [newRoom s.nextId now c p b] := by
  rcases create_room_cases s now room_code player1 bet with
    ⟨_, hres⟩ | ⟨c, p, _, _, _, _, hcase⟩
  · rw [hres] at h; simp [errorResponse] at h
  · rcases hcase with ⟨_, hres⟩ | ⟨_, a, _, _, hres⟩ | ⟨_, _, _, hres⟩ | ⟨_, _, _, _, hres⟩ |
      ⟨_, _, _, _, _, hres, _⟩ | ⟨_, _, _, _, _, hres⟩
    · rw [hres] at h; simp [errorResponse] at h
    · rw [hres] at h; simp [activeConflict] at h
    · rw [hres] at h; simp [errorResponse] at h
    · rw [hres] at h; simp [errorResponse] at h
    · rw [hres] at h; simp [errorResponse] at h
    · rw [hres]
      exact ⟨clip 4 c, p, betOrDefault bet, rfl, rfl⟩

/-- A stale waiting row is closed by the sweep and stays in the table. -/
theorem sweep_waiting_stale_row (s : Store) (now : Int)
    (huniq : s.rows.Pairwise (fun a b => a.id ≠ b.id)) (r : Room) (hr : r ∈ s.rows)
    (hw : r.game_state = some "waiting") (hs : r.updated_at < now - minutes 5) :
    { r with game_state := some "closed", updated_at := now } ∈ (sweep s now).rows ∧
    ∀ r2 ∈ (sweep s now).rows, r2.id = r.id →
      r2 = { r with game_state := some "closed", updated_at := now } := by
  obtain ⟨h1, h2, h3⟩ := sweep_waiting_image now r hw
  have himg := cleanup_row_image s now now now now huniq r hr
  have hc : closeRow now r = { r with game_state := some "closed", updated_at := now } := by
    simp [closeRow, hw, hs]
  rw [hc] at h1 h2 h3
  refine ⟨?_, ?_⟩
  · refine ((himg _).mpr ⟨?_, ?_, h3⟩).1
    · rw [hc]; exact h1.symm
    · rw [hc]; exact h2
  · intro r2 hr2 hid
    have h4 := ((himg r2).mp ⟨hr2, hid⟩).1
    rw [hc, h1] at h4
    exact h4

/-- A stale closed row is gone after the sweep. -/
theorem sweep_closed_stale_gone (s : Store) (now : Int)
    (huniq : s.rows.Pairwise (fun a b => a.id ≠ b.id)) (r : Room) (hr : r ∈ s.rows)
    (hc : r.game_state = some "closed") (hs : r.updated_at < now - seconds 10) :
    ∀ r2 ∈ (sweep s now).rows, r2.id ≠ r.id := by
  obtain ⟨_, h2⟩ := sweep_closed_image now r hc
  have himg := cleanup_row_image s now now now now huniq r hr
  intro r2 hr2 hid
  have := ((himg r2).mp ⟨hr2, hid⟩).2.1
  rw [h2] at this
  exact this ⟨hc, hs⟩

/-- A stale game row is finished by the sweep and stays in the table. -/
theorem sweep_game_stale_row (s : Store) (now : Int)
    (huniq : s.rows.Pairwise (fun a b => a.id ≠ b.id)) (r : Room) (hr : r ∈ s.rows)
    (hg : r.game_state = some "game") (hs : r.updated_at < now - seconds 30) :
    { r with game_state := some "finished", updated_at := now } ∈ (sweep s now).rows ∧
    ∀ r2 ∈ (sweep s now).rows, r2.id = r.id →
      r2 = { r with game_state := some "finished", updated_at := now } := by
  obtain ⟨h1, h2, h3⟩ := sweep_game_image now r hg
  have himg := cleanup_row_image s now now now now huniq r hr
  have hf : finishRow now r = { r with game_state := some "finished", updated_at := now } := by
    simp [finishRow, hg, hs]
  rw [hf] at h3
  refine ⟨?_, ?_⟩
  · refine ((himg _).mpr ⟨?_, ?_, h3⟩).1
    · rw [h1, hf]
    · rw [h1]; exact h2
  · intro r2 hr2 hid
    have h4 := ((himg r2).mp ⟨hr2, hid⟩).1
    rw [h1, hf] at h4
    exact h4

/-- A stale finished row is gone after the sweep. -/
theorem sweep_finished_stale_gone (s : Store) (now : Int)
    (huniq : s.rows.Pairwise (fun a b => a.id ≠ b.id)) (r : Room) (hr : r ∈ s.rows)
    (hf : r.game_state = some "finished") (hs : r.updated_at < now - minutes 1) :
    ∀ r2 ∈ (sweep s now).rows, r2.id ≠ r.id := by
  obtain ⟨h1, _⟩ := sweep_finished_image now r hf
  have himg := cleanup_row_image s now now now now huniq r hr
  intro r2 hr2 hid
  have h4 := (himg r2).mp ⟨hr2, hid⟩
  have h5 := h4.2.2
  rw [h4.1, h1] at h5
  exact h5 ⟨hf, hs⟩

/-- C18 (waiting-room lifecycle): a create request answered HTTP 200 at time `t0` returns (with
its timestamps as dates) a row that is in the table, `waiting`, without `player2` and stamped
`t0`. In any table with unique ids that still holds this row untouched, a sweep at a time
`t1 > t0 + 5 minutes` leaves it in the table as a `closed` row stamped `t1`; in any table with
unique ids that holds that closed row untouched, a sweep at a time `t2 > t1 + 10 seconds` leaves
no row under its id. -/
theorem waiting_room_lifecycle (s0 : Store) (t0 : Int) (room_code : Field String)
    (player1 : Field Int) (bet : Field Int)
    (hcreate : (create_room s0 t0 room_code player1 bet).2.http = 200) :
    ∃ r : Room,
      (create_room s0 t0 room_code player1 bet).2.room = some r.toJson ∧
      r ∈ (create_room s0 t0 room_code player1 bet).1.rows ∧
      r.game_state = some "waiting" ∧ r.player2 = none ∧ r.updated_at = t0 ∧
      ∀ (sA : Store) (t1 : Int), sA.rows.Pairwise (fun a b => a.id ≠ b.id) → r ∈ sA.rows →
        t0 + minutes 5 < t1 →
        { r with game_state := some "closed", updated_at := t1 } ∈ (sweep sA t1).rows ∧
        (∀ r2 ∈ (sweep sA t1).rows, r2.id = r.id →
          r2 = { r with game_state := some "closed", updated_at := t1 }) ∧
        ∀ (sB : Store) (t2 : Int), sB.rows.Pairwise (fun a b => a.id ≠ b.id) →
          { r with game_state := some "closed", updated_at := t1 } ∈ sB.rows →
          t1 + seconds 10 < t2 →
          ∀ r2 ∈ (sweep sB t2).rows, r2.id ≠ r.id := by
  obtain ⟨c, p, b, hroom, hrows⟩ := create_room_room_eq s0 t0 room_code player1 bet hcreate
  refine ⟨newRoom s0.nextId t0 c p b, hroom, ?_, rfl, rfl, rfl, ?_⟩
  · rw [hrows]; simp
  · intro sA t1 huA hrA h1
    have hs : (newRoom s0.nextId t0 c p b).updated_at < t1 - minutes 5 := by
      show t0 < t1 - minutes 5
      omega
    obtain ⟨hin, hall⟩ := sweep_waiting_stale_row sA t1 huA (newRoom s0.nextId t0 c p b) hrA
      rfl hs
    refine ⟨hin, hall, ?_⟩
    intro sB t2 huB hrB h2
    have hgone := sweep_closed_stale_gone sB t2 huB
      { newRoom s0.nextId t0 c p b with game_state := some "closed", updated_at := t1 } hrB rfl
      (by show t1 < t2 - seconds 10; omega)
    exact hgone

/-- Witness for C18: created at time 0, swept one microsecond after 5 minutes, swept again
one microsecond after 10 more seconds. -/
theorem waiting_room_lifecycle_witness :
    { newRoom 1 0 "AB12" 7 (some 0) with game_state := some "closed", updated_at := 300000001 }
      ∈ (sweep (create_room emptyStore 0 (.val "AB12") (.val 7) .absent).1 300000001).rows ∧
    ∀ r2 ∈ (sweep (sweep (create_room emptyStore 0 (.val "AB12") (.val 7) .absent).1
        300000001) 310000002).rows, r2.id ≠ 1 := by
  obtain ⟨r, _, hmem, _, _, _, h⟩ := waiting_room_lifecycle emptyStore 0 (.val "AB12") (.val 7)
    .absent (by decide)
  have hrows : (create_room emptyStore 0 (.val "AB12") (.val 7) .absent).1.rows
      = [newRoom 1 0 "AB12" 7 (some 0)] := by decide
  rw [hrows] at hmem
  have hr : r = newRoom 1 0 "AB12" 7 (some 0) := by simpa using hmem
  subst hr
  have hA := h (create_room emptyStore 0 (.val "AB12") (.val 7) .absent).1 300000001
    (by decide) (by decide) (by decide)
  refine ⟨hA.1, ?_⟩
  exact hA.2.2 (sweep (create_room emptyStore 0 (.val "AB12") (.val 7) .absent).1 300000001)
    310000002 (by decide) hA.1 (by decide)

/-- C19 (game-room lifecycle): in a table with unique ids, a `game` row last updated at `t0` is
left in the table by a sweep at a time `t1 > t0 + 30 seconds` as a `finished` row stamped `t1`;
in any table with unique ids that holds that finished row untouched, a sweep at a time
`t2 > t1 + 1 minute` leaves no row under its id. -/
theorem game_room_lifecycle (sA : Store) (t0 t1 : Int) (r : Room)
    (huA : sA.rows.Pairwise (fun a b => a.id ≠ b.id)) (hrA : r ∈ sA.rows)
    (hg : r.game_state = some "game") (ht : r.updated_at = t0) (h1 : t0 + seconds 30 < t1) :
    { r with game_state := some "finished", updated_at := t1 } ∈ (sweep sA t1).rows ∧
    (∀ r2 ∈ (sweep sA t1).rows, r2.id = r.id →
      r2 = { r with game_state := some "finished", updated_at := t1 }) ∧
    ∀ (sB : Store) (t2 : Int), sB.rows.Pairwise (fun a b => a.id ≠ b.id) →
      { r with game_state := some "finished", updated_at := t1 } ∈ sB.rows →
      t1 + minutes 1 < t2 →
      ∀ r2 ∈ (sweep sB t2).rows, r2.id ≠ r.id := by
  have hs : r.updated_at < t1 - seconds 30 := by rw [ht]; omega
  obtain ⟨hin, hall⟩ := sweep_game_stale_row sA t1 huA r hrA hg hs
  refine ⟨hin, hall, ?_⟩
  intro sB t2 huB hrB h2
  have hgone := sweep_finished_stale_gone sB t2 huB
    { r with game_state := some "finished", updated_at := t1 } hrB rfl
    (by show t1 < t2 - minutes 1; omega)
  exact hgone

/-- Witness for C19: room 1 is set to `game` at time 5, swept one microsecond after 30 seconds,
swept again one microsecond after one more minute. -/
theorem game_room_lifecycle_witness :
    { newRoom 1 0 "AB12" 7 (some 0) with game_state := some "finished", updated_at := 30000006 }
      ∈ (sweep (run [.create 0 (.val "AB12") (.val 7) .absent,
          .update 5 1 { Patch.none with game_state := .val "game" }]) 30000006).rows ∧
    ∀ r2 ∈ (sweep (sweep (run [.create 0 (.val "AB12") (.val 7) .absent,
        .update 5 1 { Patch.none with game_state := .val "game" }]) 30000006) 90000007).rows,
      r2.id ≠ 1 := by
  have h := game_room_lifecycle (run [.create 0 (.val "AB12") (.val 7) .absent,
      .update 5 1 { Patch.none with game_state := .val "game" }]) 5 30000006
    { newRoom 1 0 "AB12" 7 (some 0) with game_state := some "game", updated_at := 5 }
    (by decide) (by decide) (by decide) (by decide) (by decide)
  refine ⟨h.1, ?_⟩
  exact h.2.2 (sweep (run [.create 0 (.val "AB12") (.val 7) .absent,
      .update 5 1 { Patch.none with game_state := .val "game" }]) 30000006) 90000007
    (by decide) h.1 (by decide)

/-! ## A sweep does not delete what it has just closed or finished -/

/-- With one clock per statement: a row that is `waiting` or `game` before the sweep is in the
table afterwards, rewritten by steps 1 and 3, as long as step 2 reads its clock at most 10
seconds after step 1 and step 4 at most 1 minute after step 3. -/
theorem cleanup_keeps_active_row (s : Store) (t1 t2 t3 t4 : Int)
    (h12 : t2 ≤ t1 + seconds 10) (h34 : t4 ≤ t3 + minutes 1) (r : Room) (hr : r ∈ s.rows)
    (ha : isActive r) :
    finishRow t3 (closeRow t1 r) ∈ (cleanupClosedRooms s t1 t2 t3 t4).rows := by
  rw [mem_cleanupClosedRooms]
  refine ⟨r, hr, ?_, rfl, ?_⟩
  · rcases ha with hw | hg
    · by_cases hs : r.updated_at < t1 - minutes 5
      · have hc : closeRow t1 r = { r with game_state := some "closed", updated_at := t1 } := by
          simp [closeRow, hw, hs]
        rw [hc]
        intro h
        have : t1 < t2 - seconds 10 := h.2
        omega
      · have hc : closeRow t1 r = r := by simp [closeRow, hs]
        rw [hc]
        simp [hw]
    · have hc : closeRow t1 r = r := by simp [closeRow, hg]
      rw [hc]
      simp [hg]
  · rcases ha with hw | hg
    · by_cases hs : r.updated_at < t1 - minutes 5
      · have hc : closeRow t1 r = { r with game_state := some "closed", updated_at := t1 } := by
          simp [closeRow, hw, hs]
        rw [hc]
        simp [finishRow]
      · have hc : closeRow t1 r = r := by simp [closeRow, hs]
        rw [hc]
        simp [finishRow, hw]
    · have hc : closeRow t1 r = r := by simp [closeRow, hg]
      rw [hc]
      by_cases hs : r.updated_at < t3 - seconds 30
      · have hf : finishRow t3 r
            = { r with game_state := some "finished", updated_at := t3 } := by
          simp [finishRow, hg, hs]
        rw [hf]
        intro h
        have : t3 < t4 - minutes 1 := h.2
        omega
      · have hf : finishRow t3 r = r := by simp [finishRow, hs]
        rw [hf]
        simp [hg]

/-- C20 (as stated, refuted): the four statements of a sweep are sent one after another and each
reads the clock for itself. Room 1 is waiting since time 0; step 1 closes it at 10 minutes and
step 2 reads its clock 11 seconds later: the room that step 1 closed in this pass is deleted by
step 2 of the same pass. Likewise room 1, in state `game` since time 5, is finished by step 3 at
40 seconds and deleted by step 4, which reads its clock 61 seconds later. -/
theorem cleanup_deletes_what_it_closed :
    (∃ r ∈ (run [.create 0 (.val "AB12") (.val 7) .absent]).rows, r.id = 1 ∧ isActive r) ∧
    (cleanupClosedRooms (run [.create 0 (.val "AB12") (.val 7) .absent])
      600000000 611000000 611000000 611000000).rows = [] ∧
    (∃ r ∈ (run [.create 0 (.val "AB12") (.val 7) .absent,
        .update 5 1 { Patch.none with game_state := .val "game" }]).rows,
      r.id = 1 ∧ isActive r) ∧
    (cleanupClosedRooms (run [.create 0 (.val "AB12") (.val 7) .absent,
        .update 5 1 { Patch.none with game_state := .val "game" }])
      40000000 40000000 40000000 101000000).rows = [] := by
  decide

/-- C20 (amended): when step 2 of a sweep reads its clock at most 10 seconds after step 1, and
step 4 at most 1 minute after step 3 (in particular when all four read the same time), every
row that is `waiting` or `game` before the sweep still has a row under its id after it: a
waiting row that step 1 closes in this pass is in the table as a `closed` row (step 2 of the
same pass does not delete it), and a game row that step 3 finishes in this pass is in the table
as a `finished` row (step 4 does not delete it). -/
theorem sweep_keeps_active_rooms (s : Store) (t1 t2 t3 t4 : Int)
    (h12 : t2 ≤ t1 + seconds 10) (h34 : t4 ≤ t3 + minutes 1) (r : Room) (hr : r ∈ s.rows)
    (ha : isActive r) :
    (∃ r2 ∈ (cleanupClosedRooms s t1 t2 t3 t4).rows, r2.id = r.id) ∧
    (r.game_state = some "waiting" → r.updated_at < t1 - minutes 5 →
      { r with game_state := some "closed", updated_at := t1 }
        ∈ (cleanupClosedRooms s t1 t2 t3 t4).rows) ∧
    (r.game_state = some "game" → r.updated_at < t3 - seconds 30 →
      { r with game_state := some "finished", updated_at := t3 }
        ∈ (cleanupClosedRooms s t1 t2 t3 t4).rows) ∧
    (t1 = t2 → t2 = t3 → t3 = t4 → cleanupClosedRooms s t1 t2 t3 t4 = sweep s t1) := by
  have hin : finishRow t3 (closeRow t1 r) ∈ (cleanupClosedRooms s t1 t2 t3 t4).rows :=
    cleanup_keeps_active_row s t1 t2 t3 t4 h12 h34 r hr ha
  refine ⟨⟨_, hin, by rw [finishRow_id, closeRow_id]⟩, ?_, ?_, ?_⟩
  · intro hw hs
    have hc : finishRow t3 (closeRow t1 r)
        = { r with game_state := some "closed", updated_at := t1 } := by
      simp [closeRow, finishRow, hw, hs]
    rw [← hc]; exact hin
  · intro hg hs
    have hc : finishRow t3 (closeRow t1 r)
        = { r with game_state := some "finished", updated_at := t3 } := by
      simp [closeRow, finishRow, hg, hs]
    rw [← hc]; exact hin
  · intro e1 e2 e3
    subst e1; subst e2; subst e3
    rfl

/-- Witness for C20: a room created at time 0 and swept long after, at 10 minutes, with step 2
reading its clock 10 seconds after step 1, is closed by that sweep and still in the table. -/
theorem sweep_keeps_active_rooms_witness :
    { newRoom 1 0 "AB12" 7 (some 0) with game_state := some "closed", updated_at := 600000000 }
      ∈ (cleanupClosedRooms (run [.create 0 (.val "AB12") (.val 7) .absent])
          600000000 610000000 610000000 610000000).rows :=
  (sweep_keeps_active_rooms (run [.create 0 (.val "AB12") (.val 7) .absent])
    600000000 610000000 610000000 610000000 (by decide) (by decide)
    (newRoom 1 0 "AB12" 7 (some 0)) (by decide) (by decide)).2.1 (by decide) (by decide)

/-! ## Updates reset the staleness clocks -/

theorem writeReq_old_or_val {α : Type} (f : Field α) (old : α) :
    f.writeReq old = old ∨ f = .val (f.writeReq old) := by
  cases f with
  | absent => left; rfl
  | null => left; rfl
  | val k => right; rfl

/-- No other row holds a key that an accepted update writes. -/
theorem keyTaken_false (rows : List Room) (roomId : Int) (u : Patch)
    (hk : keyTaken rows roomId u = false) (x : Room) (hx : x ∈ rows) (hxi : x.id ≠ roomId) :
    u.id ≠ .val x.id ∧ u.room_code.clip 4 ≠ .val x.room_code := by
  have hn : ¬ (u.id = .val x.id ∨ u.room_code.clip 4 = .val x.room_code) := by
    intro hc
    have : keyTaken rows roomId u = true := by
      simp only [keyTaken, List.any_eq_true]
      exact ⟨x, hx, by simpa using ⟨hxi, hc⟩⟩
    rw [hk] at this
    exact Bool.noConfusion this
  exact ⟨fun h => hn (Or.inl h), fun h => hn (Or.inr h)⟩

/-- An update keeps the ids of the table pairwise different. -/
theorem update_room_ids_pairwise (s : Store) (now roomId : Int) (u : Patch)
    (h : s.rows.Pairwise (fun a b => a.id ≠ b.id)) :
    (update_room s now roomId u).1.rows.Pairwise (fun a b => a.id ≠ b.id) := by
  by_cases hok : (update_room s now roomId u).2.http = 200
  · obtain ⟨t, ts, hf, _, _, hk, _, _, _, hres⟩ := update_room_ok s now roomId u hok
    rw [hres]
    show (s.rows.map (fun r => if r.id = roomId then applyPatch u now r else r)).Pairwise
      (fun a b => a.id ≠ b.id)
    rw [List.pairwise_map]
    refine List.Pairwise.imp_of_mem ?_ h
    intro a b ha hb hab
    by_cases hai : a.id = roomId
    · have hbi : b.id ≠ roomId := fun hbi => hab (hai.trans hbi.symm)
      simp only [hai, hbi, if_true, if_false]
      rcases writeReq_old_or_val u.id a.id with hw | hw
      · show u.id.writeReq a.id ≠ b.id
        rw [hw]; exact hab
      · show u.id.writeReq a.id ≠ b.id
        intro hc
        rw [hc] at hw
        exact (keyTaken_false s.rows roomId u hk b hb hbi).1 hw
    · by_cases hbi : b.id = roomId
      · simp only [hai, hbi, if_true, if_false]
        rcases writeReq_old_or_val u.id b.id with hw | hw
        · show a.id ≠ u.id.writeReq b.id
          rw [hw]; exact hab
        · show a.id ≠ u.id.writeReq b.id
          intro hc
          rw [← hc] at hw
          exact (keyTaken_false s.rows roomId u hk a ha hai).1 hw
      · simp only [hai, hbi, if_false]
        exact hab
  · rw [update_room_fail s now roomId u hok]
    exact h

/-- A row stamped at most 10 seconds before the sweep time is out of reach of all four steps. -/
theorem sweep_fresh_image (now : Int) (r : Room) (h : ¬ r.updated_at < now - seconds 10) :
    closeRow now r = r ∧ finishRow now r = r ∧
    ¬ (r.game_state = some "closed" ∧ r.updated_at < now - seconds 10) ∧
    ¬ (r.game_state = some "finished" ∧ r.updated_at < now - minutes 1) := by
  have h5 : ¬ r.updated_at < now - minutes 5 := by
    simp only [minutes, seconds] at *
    omega
  have h30 : ¬ r.updated_at < now - seconds 30 := by
    simp only [seconds] at *
    omega
  have h60 : ¬ r.updated_at < now - minutes 1 := by
    simp only [minutes, seconds] at *
    omega
  refine ⟨by simp [closeRow, h5], by simp [finishRow, h30], fun hc => h hc.2, fun hc => h60 hc.2⟩

/-- C21: on a table with unique ids, when an update of a room is answered HTTP 200 at time `t`
and a sweep runs on the resulting table at a time `now` with `t ≤ now ≤ t + 10 seconds`, the
updated row (the one the answer returns, there with its timestamps as dates), whatever its
state, is in the table after the sweep and is the only row under its id: the sweep leaves every
column of it as the update wrote it. -/
theorem update_then_sweep_keeps_room (s : Store) (t roomId : Int) (u : Patch) (now : Int)
    (huniq : s.rows.Pairwise (fun a b => a.id ≠ b.id))
    (hok : (update_room s t roomId u).2.http = 200) (_h1 : t ≤ now)
    (h2 : now ≤ t + seconds 10) :
    ∃ room : Room,
      (update_room s t roomId u).2.room = some room.toJson ∧
      room ∈ (update_room s t roomId u).1.rows ∧
      room ∈ (sweep (update_room s t roomId u).1 now).rows ∧
      ∀ r2 ∈ (sweep (update_room s t roomId u).1 now).rows, r2.id = room.id → r2 = room := by
  have hu1 := update_room_ids_pairwise s t roomId u huniq
  obtain ⟨x, xs, hf, _, _, _, _, _, _, hres⟩ := update_room_ok s t roomId u hok
  have hx := head_of_filter_key Room.id s.rows roomId x xs hf
  have hroom : (update_room s t roomId u).2.room = some (applyPatch u t x).toJson := by
    rw [hres]; rfl
  have hmem : applyPatch u t x ∈ (update_room s t roomId u).1.rows := by
    rw [hres]
    simp only [List.mem_map]
    exact ⟨x, hx.1, by simp [hx.2]⟩
  have hfresh : ¬ (applyPatch u t x).updated_at < now - seconds 10 := by
    show ¬ t < now - seconds 10
    omega
  obtain ⟨hc, hfin, hk2, hk4⟩ := sweep_fresh_image now (applyPatch u t x) hfresh
  have himg := cleanup_row_image (update_room s t roomId u).1 now now now now hu1
    (applyPatch u t x) hmem
  refine ⟨applyPatch u t x, hroom, hmem, ?_, ?_⟩
  · refine ((himg (applyPatch u t x)).mpr ⟨?_, ?_, hk4⟩).1
    · rw [hc, hfin]
    · rw [hc]; exact hk2
  · intro r2 hr2 hid
    have := ((himg r2).mp ⟨hr2, hid⟩).1
    rw [hc, hfin] at this
    exact this

/-- Witness for C21: a waiting room created at time 0 gets a bet patch 5 minutes and 1 second
later and is swept 10 seconds after the patch; it is still there, waiting. -/
theorem update_then_sweep_keeps_room_witness :
    { newRoom 1 0 "AB12" 7 (some 0) with bet := some 3, updated_at := 301000000 }
      ∈ (sweep (update_room (run [.create 0 (.val "AB12") (.val 7) .absent]) 301000000 1
          { Patch.none with bet := .val 3 }).1 311000000).rows := by
  obtain ⟨room, _, h2, h3, _⟩ := update_then_sweep_keeps_room
    (run [.create 0 (.val "AB12") (.val 7) .absent]) 301000000 1
    { Patch.none with bet := .val 3 } 311000000 (by decide) (by decide) (by decide) (by decide)
  have hrows : (update_room (run [.create 0 (.val "AB12") (.val 7) .absent]) 301000000 1
      { Patch.none with bet := .val 3 }).1.rows
      = [{ newRoom 1 0 "AB12" 7 (some 0) with bet := some 3, updated_at := 301000000 }] := by
    decide
  rw [hrows] at h2
  have : room = { newRoom 1 0 "AB12" 7 (some 0) with bet := some 3, updated_at := 301000000 } := by
    simpa using h2
  rw [this] at h3
  exact h3

/-! ## Running the sweep twice -/

/-- C22: a sweep at time `now` run on the result of a sweep at the same time `now` changes
nothing: the store after two sweeps is the store after one. -/
theorem sweep_idempotent (s : Store) (now : Int) : sweep (sweep s now) now = sweep s now := by
  have hfix : ∀ r2 ∈ (sweep s now).rows,
      closeRow now r2 = r2 ∧ finishRow now r2 = r2 ∧
      ¬ (r2.game_state = some "closed" ∧ r2.updated_at < now - seconds 10) ∧
      ¬ (r2.game_state = some "finished" ∧ r2.updated_at < now - minutes 1) := by
    intro r2 hr2
    obtain ⟨r, _, hk2, hx, hk4⟩ := (mem_cleanupClosedRooms s now now now now r2).mp hr2
    by_cases hw : r.game_state = some "waiting" ∧ r.updated_at < now - minutes 5
    · have hc : closeRow now r = { r with game_state := some "closed", updated_at := now } := by
        simp [closeRow, hw]
      have hx2 : r2 = { r with game_state := some "closed", updated_at := now } := by
        rw [hx, hc]; simp [finishRow]
      rw [hx2]
      refine ⟨by simp [closeRow], by simp [finishRow], ?_, by simp⟩
      simp [seconds]
    · have hc : closeRow now r = r := by
        unfold closeRow; rw [if_neg hw]
      rw [hc] at hx hk2
      by_cases hg : r.game_state = some "game" ∧ r.updated_at < now - seconds 30
      · have hf : finishRow now r
            = { r with game_state := some "finished", updated_at := now } := by
          simp [finishRow, hg]
        rw [hx, hf]
        refine ⟨by simp [closeRow], by simp [finishRow], by simp, ?_⟩
        simp [minutes]
      · have hf : finishRow now r = r := by
          unfold finishRow; rw [if_neg hg]
        rw [hf] at hx
        rw [hx] at hk4 ⊢
        exact ⟨hc, hf, hk2, hk4⟩
  have h1 : closeInactiveRooms now (sweep s now).rows = (sweep s now).rows := by
    rw [closeInactiveRooms_eq_map]
    calc (sweep s now).rows.map (closeRow now)
        = (sweep s now).rows.map id := List.map_congr_left (fun r hr => (hfix r hr).1)
      _ = (sweep s now).rows := List.map_id _
  have h2 : deleteClosedRooms now (sweep s now).rows = (sweep s now).rows := by
    unfold deleteClosedRooms
    rw [List.filter_eq_self]
    intro r hr
    exact decide_eq_true (hfix r hr).2.2.1
  have h3 : autoFinishGames now (sweep s now).rows = (sweep s now).rows := by
    rw [autoFinishGames_eq_map]
    calc (sweep s now).rows.map (finishRow now)
        = (sweep s now).rows.map id := List.map_congr_left (fun r hr => (hfix r hr).2.1)
      _ = (sweep s now).rows := List.map_id _
  have h4 : deleteFinishedRooms now (sweep s now).rows = (sweep s now).rows := by
    unfold deleteFinishedRooms
    rw [List.filter_eq_self]
    intro r hr
    exact decide_eq_true (hfix r hr).2.2.2
  show cleanupClosedRooms (sweep s now) now now now now = sweep s now
  unfold cleanupClosedRooms
  rw [h1, h2, h3, h4]

/-! ## What one operation can do to one room -/

/-- On a table with unique ids, the row found after one operation under the id of an old row
is that old row itself, or what a sweep made of it, or what an update of that very id made of
it. -/
theorem step_row_origin (s : Store) (op : Op)
    (huniq : s.rows.Pairwise (fun a b => a.id ≠ b.id)) (r : Room) (hr : r ∈ s.rows)
    (r2 : Room) (hr2 : r2 ∈ (step s op).rows) (hid : r2.id = r.id) :
    r2 = r ∨ (∃ t1 t3, r2 = finishRow t3 (closeRow t1 r)) ∨
      ∃ now u, op = .update now r.id u ∧ r2 = applyPatch u now r := by
  cases op with
  | create now room_code player1 bet =>
    left
    rcases create_room_rows s now room_code player1 bet with hrows | ⟨c, p, b, _, hfresh, hrows⟩
    · have : r2 ∈ s.rows := by rw [← hrows]; exact hr2
      exact eq_of_mem_of_id_eq s.rows huniq r2 r this hr hid
    · have hr3 : r2 ∈ s.rows ++ [newRoom s.nextId now c p b] := by rw [← hrows]; exact hr2
      rcases List.mem_append.mp hr3 with h | h
      · exact eq_of_mem_of_id_eq s.rows huniq r2 r h hr hid
      · exfalso
        have h2 : r2 = newRoom s.nextId now c p b := by simpa using h
        rw [h2] at hid
        exact hfresh r hr hid.symm
  | delete roomId =>
    left
    exact eq_of_mem_of_id_eq s.rows huniq r2 r ((delete_room_sublist s roomId).subset hr2) hr hid
  | sweep t1 t2 t3 t4 =>
    right; left
    have := (cleanup_row_image s t1 t2 t3 t4 huniq r hr r2).mp ⟨hr2, hid⟩
    exact ⟨t1, t3, this.1⟩
  | update now roomId u =>
    by_cases hok : (update_room s now roomId u).2.http = 200
    · obtain ⟨t, ts, hf, _, _, hk, _, _, _, hres⟩ := update_room_ok s now roomId u hok
      have hr3 : r2 ∈ s.rows.map (fun r => if r.id = roomId then applyPatch u now r else r) := by
        have : (step s (.update now roomId u)).rows
            = s.rows.map (fun r => if r.id = roomId then applyPatch u now r else r) := by
          show (update_room s now roomId u).1.rows = _
          rw [hres]
        rw [← this]; exact hr2
      obtain ⟨x, hx, hxr⟩ := List.mem_map.mp hr3
      by_cases hxi : x.id = roomId
      · simp only [hxi, if_true] at hxr
        have hxid : x.id = r.id := by
          rcases writeReq_old_or_val u.id x.id with hw | hw
          · have : r2.id = x.id := by rw [← hxr]; exact hw
            rw [← this]; exact hid
          · by_contra hne
            have hri : r.id ≠ roomId := fun h => hne (hxi.trans h.symm)
            have h2 : u.id.writeReq x.id = r.id := by
              have : r2.id = u.id.writeReq x.id := by rw [← hxr]; rfl
              rw [← this]; exact hid
            rw [h2] at hw
            exact (keyTaken_false s.rows roomId u hk r hr hri).1 hw
        have hxeq := eq_of_mem_of_id_eq s.rows huniq x r hx hr hxid
        right; right
        refine ⟨now, u, ?_, ?_⟩
        · rw [← hxid, hxi]
        · rw [← hxr, hxeq]
      · simp only [hxi, if_false] at hxr
        left
        rw [← hxr] at hid ⊢
        exact eq_of_mem_of_id_eq s.rows huniq x r hx hr hid
    · left
      have : (step s (.update now roomId u)).rows = s.rows := by
        show (update_room s now roomId u).1.rows = _
        rw [update_room_fail s now roomId u hok]
      rw [this] at hr2
      exact eq_of_mem_of_id_eq s.rows huniq r2 r hr2 hr hid

/-- C23 (as stated, refuted): room 1 is set to `game` by a patch, then a patch writes
`game_state = waiting`; the update is answered HTTP 200 and the room is `waiting` again. -/
theorem update_room_back_to_waiting :
    (∃ r ∈ (run [.create 0 (.val "AB12") (.val 7) .absent,
        .update 1 1 { Patch.none with game_state := .val "game" }]).rows,
      r.id = 1 ∧ r.game_state = some "game") ∧
    (update_room (run [.create 0 (.val "AB12") (.val 7) .absent,
        .update 1 1 { Patch.none with game_state := .val "game" }]) 2 1
      { Patch.none with game_state := .val "waiting" }).2.http = 200 ∧
    ∃ r ∈ (step (run [.create 0 (.val "AB12") (.val 7) .absent,
        .update 1 1 { Patch.none with game_state := .val "game" }])
        (.update 2 1 { Patch.none with game_state := .val "waiting" })).rows,
      r.id = 1 ∧ r.game_state = some "waiting" := by
  decide

/-- C23 (amended): on a table with unique ids, for every operation (create, update, delete,
sweep) other than an update of the room itself whose patch writes `game_state = waiting`, a
room whose state before the operation is not `waiting` (so `game`, `finished`, `closed`, or any
other value) is not `waiting` after the operation. -/
theorem no_return_to_waiting (s : Store) (op : Op)
    (huniq : s.rows.Pairwise (fun a b => a.id ≠ b.id)) (r : Room) (hr : r ∈ s.rows)
    (hstate : r.game_state ≠ some "waiting")
    (hop : ∀ now u, op = .update now r.id u → u.game_state ≠ .val "waiting") :
    ∀ r2 ∈ (step s op).rows, r2.id = r.id → r2.game_state ≠ some "waiting" := by
  intro r2 hr2 hid
  rcases step_row_origin s op huniq r hr r2 hr2 hid with h | ⟨t1, t3, h⟩ | ⟨now, u, ho, h⟩
  · rw [h]; exact hstate
  · rw [h]
    have hc : closeRow t1 r = r := by simp [closeRow, hstate]
    rw [hc]
    unfold finishRow
    split
    · simp
    · exact hstate
  · rw [h]
    have hu := hop now u ho
    show (u.game_state.clip 20).write r.game_state ≠ some "waiting"
    cases hg : u.game_state with
    | absent => simpa [Field.clip, Field.write] using hstate
    | null => simp [Field.clip, Field.write]
    | val g =>
      simp only [Field.clip, Field.write]
      intro hc
      rw [hg] at hu
      exact hu (by rw [eq_of_clip_eq_short 20 g "waiting" (by decide) (Option.some.inj hc)])

/-- Witness for C23: room 1 is in state `game`; a patch that sets it to `finished` does not
bring it back to `waiting`. -/
theorem no_return_to_waiting_witness :
    { newRoom 1 0 "AB12" 7 (some 0) with game_state := some "finished", updated_at := 2 }
      ∈ (step (run [.create 0 (.val "AB12") (.val 7) .absent,
          .update 1 1 { Patch.none with game_state := .val "game" }])
          (.update 2 1 { Patch.none with game_state := .val "finished" })).rows ∧
    ({ newRoom 1 0 "AB12" 7 (some 0) with game_state := some "finished", updated_at := 2 }
      : Room).game_state ≠ some "waiting" :=
  ⟨by decide,
   no_return_to_waiting (run [.create 0 (.val "AB12") (.val 7) .absent,
      .update 1 1 { Patch.none with game_state := .val "game" }])
    (.update 2 1 { Patch.none with game_state := .val "finished" }) (by decide)
    { newRoom 1 0 "AB12" 7 (some 0) with game_state := some "game", updated_at := 1 }
    (by decide) (by decide)
    (by
      intro now u h
      injection h with _ _ hu
      rw [← hu]
      decide)
    { newRoom 1 0 "AB12" 7 (some 0) with game_state := some "finished", updated_at := 2 }
    (by decide) rfl⟩

/-- C24 (as stated, refuted): player 8 has joined room 1; a patch of room 1 that carries
`player2 = 9` is answered HTTP 200 and `player2` is 9 afterwards. -/
theorem update_room_overwrites_player2 :
    (∃ r ∈ (run [.create 0 (.val "AB12") (.val 7) .absent,
        .update 1 1 { Patch.none with player2 := .val 8 }]).rows,
      r.id = 1 ∧ r.player2 = some 8) ∧
    (update_room (run [.create 0 (.val "AB12") (.val 7) .absent,
        .update 1 1 { Patch.none with player2 := .val 8 }]) 2 1
      { Patch.none with player2 := .val 9 }).2.http = 200 ∧
    ∃ r ∈ (step (run [.create 0 (.val "AB12") (.val 7) .absent,
        .update 1 1 { Patch.none with player2 := .val 8 }])
        (.update 2 1 { Patch.none with player2 := .val 9 })).rows,
      r.id = 1 ∧ r.player2 = some 9 := by
  decide

/-- C24 (amended): on a table with unique ids, no create, delete or sweep, and no update other
than an update of the room itself whose patch holds the property `player2`, changes the
`player2` of a room: the row found under its id after the operation has the same `player2`. -/
theorem player2_changed_only_by_patch (s : Store) (op : Op)
    (huniq : s.rows.Pairwise (fun a b => a.id ≠ b.id)) (r : Room) (hr : r ∈ s.rows)
    (hop : ∀ now u, op = .update now r.id u → u.player2 = .absent) :
    ∀ r2 ∈ (step s op).rows, r2.id = r.id → r2.player2 = r.player2 := by
  intro r2 hr2 hid
  rcases step_row_origin s op huniq r hr r2 hr2 hid with h | ⟨t1, t3, h⟩ | ⟨now, u, ho, h⟩
  · rw [h]
  · rw [h]
    have h1 : (closeRow t1 r).player2 = r.player2 := by
      unfold closeRow; split <;> rfl
    have h2 : (finishRow t3 (closeRow t1 r)).player2 = (closeRow t1 r).player2 := by
      unfold finishRow; split <;> rfl
    rw [h2, h1]
  · rw [h]
    show u.player2.write r.player2 = r.player2
    rw [hop now u ho]
    rfl

/-- Witness for C24: player 8 has joined room 1; a patch of the bet leaves `player2` alone. -/
theorem player2_changed_only_by_patch_witness :
    { newRoom 1 0 "AB12" 7 (some 0) with player2 := some 8, bet := some 4, updated_at := 2 }
      ∈ (step (run [.create 0 (.val "AB12") (.val 7) .absent,
          .update 1 1 { Patch.none with player2 := .val 8 }])
          (.update 2 1 { Patch.none with bet := .val 4 })).rows ∧
    ({ newRoom 1 0 "AB12" 7 (some 0) with player2 := some 8, bet := some 4, updated_at := 2 }
      : Room).player2 = some 8 :=
  ⟨by decide,
   player2_changed_only_by_patch (run [.create 0 (.val "AB12") (.val 7) .absent,
      .update 1 1 { Patch.none with player2 := .val 8 }])
    (.update 2 1 { Patch.none with bet := .val 4 }) (by decide)
    { newRoom 1 0 "AB12" 7 (some 0) with player2 := some 8, updated_at := 1 }
    (by decide)
    (by
      intro now u h
      injection h with _ _ hu
      rw [← hu]
      rfl)
    { newRoom 1 0 "AB12" 7 (some 0) with player2 := some 8, bet := some 4, updated_at := 2 }
    (by decide) rfl⟩

/-! ## Unique room codes along runs -/

/-- The rows after a create request: unchanged, or one more row whose id and code no old row
holds. -/
theorem create_room_rows_keys (s : Store) (now : Int) (room_code : Field String)
    (player1 : Field Int) (bet : Field Int) :
    (create_room s now room_code player1 bet).1.rows = s.rows ∨
    ∃ row : Room, (∀ r ∈ s.rows, r.id ≠ row.id ∧ r.room_code ≠ row.room_code) ∧
      (create_room s now room_code player1 bet).1.rows = s.rows ++ [row] := by
  rcases create_room_cases s now room_code player1 bet with
    ⟨_, hres⟩ | ⟨c, p, _, _, _, _, hcase⟩
  · left; rw [hres]
  · rcases hcase with ⟨_, hres⟩ | ⟨_, a, _, _, hres⟩ | ⟨_, _, _, hres⟩ | ⟨_, _, _, _, hres⟩ |
      ⟨_, _, _, _, _, _, hrows⟩ | ⟨_, _, _, _, hF, hres⟩
    · left; rw [hres]
    · left; rw [hres]
    · left; rw [hres]
    · left; rw [hres]
    · left; exact hrows
    · right
      refine ⟨newRoom s.nextId now (clip 4 c) p (betOrDefault bet), hF.2.2.2, ?_⟩
      rw [hres]

theorem keysDistinct_create_room (s : Store) (now : Int) (room_code : Field String)
    (player1 : Field Int) (bet : Field Int)
    (h : s.rows.Pairwise (fun a b => a.id ≠ b.id ∧ a.room_code ≠ b.room_code)) :
    (create_room s now room_code player1 bet).1.rows.Pairwise
      (fun a b => a.id ≠ b.id ∧ a.room_code ≠ b.room_code) := by
  rcases create_room_rows_keys s now room_code player1 bet with hr | ⟨row, hfresh, hr⟩
  · rw [hr]; exact h
  · rw [hr, List.pairwise_append]
    refine ⟨h, List.pairwise_singleton _ _, ?_⟩
    intro a ha b hb
    have : b = row := by simpa using hb
    rw [this]
    exact hfresh a ha

theorem keysDistinct_update_room (s : Store) (now roomId : Int) (u : Patch)
    (h : s.rows.Pairwise (fun a b => a.id ≠ b.id ∧ a.room_code ≠ b.room_code)) :
    (update_room s now roomId u).1.rows.Pairwise
      (fun a b => a.id ≠ b.id ∧ a.room_code ≠ b.room_code) := by
  by_cases hok : (update_room s now roomId u).2.http = 200
  · obtain ⟨t, ts, hf, _, _, hk, _, _, _, hres⟩ := update_room_ok s now roomId u hok
    rw [hres]
    show (s.rows.map (fun r => if r.id = roomId then applyPatch u now r else r)).Pairwise
      (fun a b => a.id ≠ b.id ∧ a.room_code ≠ b.room_code)
    rw [List.pairwise_map]
    refine List.Pairwise.imp_of_mem ?_ h
    intro a b ha hb hab
    by_cases hai : a.id = roomId
    · have hbi : b.id ≠ roomId := fun hbi => hab.1 (hai.trans hbi.symm)
      have hkb := keyTaken_false s.rows roomId u hk b hb hbi
      simp only [hai, hbi, if_true, if_false]
      constructor
      · rcases writeReq_old_or_val u.id a.id with hw | hw
        · show u.id.writeReq a.id ≠ b.id
          rw [hw]; exact hab.1
        · show u.id.writeReq a.id ≠ b.id
          intro hc
          rw [hc] at hw
          exact hkb.1 hw
      · rcases writeReq_old_or_val (u.room_code.clip 4) a.room_code with hw | hw
        · show (u.room_code.clip 4).writeReq a.room_code ≠ b.room_code
          rw [hw]; exact hab.2
        · show (u.room_code.clip 4).writeReq a.room_code ≠ b.room_code
          intro hc
          rw [hc] at hw
          exact hkb.2 hw
    · by_cases hbi : b.id = roomId
      · have hka := keyTaken_false s.rows roomId u hk a ha hai
        simp only [hai, hbi, if_true, if_false]
        constructor
        · rcases writeReq_old_or_val u.id b.id with hw | hw
          · show a.id ≠ u.id.writeReq b.id
            rw [hw]; exact hab.1
          · show a.id ≠ u.id.writeReq b.id
            intro hc
            rw [← hc] at hw
            exact hka.1 hw
        · rcases writeReq_old_or_val (u.room_code.clip 4) b.room_code with hw | hw
          · show a.room_code ≠ (u.room_code.clip 4).writeReq b.room_code
            rw [hw]; exact hab.2
          · show a.room_code ≠ (u.room_code.clip 4).writeReq b.room_code
            intro hc
            rw [← hc] at hw
            exact hka.2 hw
      · simp only [hai, hbi, if_false]
        exact hab
  · rw [update_room_fail s now roomId u hok]
    exact h

theorem closeRow_room_code (now : Int) (r : Room) : (closeRow now r).room_code = r.room_code := by
  unfold closeRow
  split <;> rfl

theorem finishRow_room_code (now : Int) (r : Room) :
    (finishRow now r).room_code = r.room_code := by
  unfold finishRow
  split <;> rfl

theorem keysDistinct_cleanupClosedRooms (s : Store) (t1 t2 t3 t4 : Int)
    (h : s.rows.Pairwise (fun a b => a.id ≠ b.id ∧ a.room_code ≠ b.room_code)) :
    (cleanupClosedRooms s t1 t2 t3 t4).rows.Pairwise
      (fun a b => a.id ≠ b.id ∧ a.room_code ≠ b.room_code) := by
  unfold cleanupClosedRooms deleteFinishedRooms deleteClosedRooms
  rw [closeInactiveRooms_eq_map, autoFinishGames_eq_map]
  refine List.Pairwise.sublist (List.filter_sublist _) ?_
  rw [List.pairwise_map]
  refine List.Pairwise.sublist (List.filter_sublist _) ?_
  rw [List.pairwise_map]
  refine List.Pairwise.imp ?_ h
  intro a b hab
  rw [finishRow_id, finishRow_id, closeRow_id, closeRow_id, finishRow_room_code,
    finishRow_room_code, closeRow_room_code, closeRow_room_code]
  exact hab

theorem keysDistinct_step (s : Store) (op : Op)
    (h : s.rows.Pairwise (fun a b => a.id ≠ b.id ∧ a.room_code ≠ b.room_code)) :
    (step s op).rows.Pairwise (fun a b => a.id ≠ b.id ∧ a.room_code ≠ b.room_code) := by
  cases op with
  | create now room_code player1 bet => exact keysDistinct_create_room s now room_code player1 bet h
  | update now roomId u => exact keysDistinct_update_room s now roomId u h
  | delete roomId =>
    exact List.Pairwise.sublist (delete_room_sublist s roomId) h
  | sweep t1 t2 t3 t4 => exact keysDistinct_cleanupClosedRooms s t1 t2 t3 t4 h

theorem keysDistinct_foldl (ops : List Op) (s : Store)
    (h : s.rows.Pairwise (fun a b => a.id ≠ b.id ∧ a.room_code ≠ b.room_code)) :
    (ops.foldl step s).rows.Pairwise (fun a b => a.id ≠ b.id ∧ a.room_code ≠ b.room_code) := by
  induction ops generalizing s with
  | nil => exact h
  | cons op rest ih => exact ih (step s op) (keysDistinct_step s op h)

/-- C25: in every store reached from the empty table by a sequence of calls run one after
another (create, delete and sweep, and updates as well, since the store rejects a patch that
would duplicate a code), no two rows share a `room_code`, so the query behind the lookup by
code returns at most one row. -/
theorem room_codes_unique (ops : List Op) :
    (run ops).rows.Pairwise (fun a b => a.room_code ≠ b.room_code) ∧
    ∀ c : String, ((run ops).rows.filter (fun r => r.room_code = c)).length ≤ 1 := by
  have h := keysDistinct_foldl ops emptyStore List.Pairwise.nil
  have hc : (run ops).rows.Pairwise (fun a b => a.room_code ≠ b.room_code) :=
    List.Pairwise.imp (fun hab => hab.2) h
  exact ⟨hc, fun c => length_filter_key_le_one Room.room_code (run ops).rows c hc⟩

/-! ## Create and plain join, run one after another -/

theorem activeRoomsOf_pair_le_one (a b : Room) (q : Int)
    (h : ¬ (playsIn q a ∧ playsIn q b)) : (activeRoomsOf [a, b] q).length ≤ 1 := by
  unfold activeRoomsOf
  simp only [List.filter_cons, List.filter_nil]
  by_cases ha : playsIn q a ∧ isActive a <;> by_cases hb : playsIn q b ∧ isActive b
  · exact absurd ⟨ha.1, hb.1⟩ h
  · simp [ha, hb]
  · simp [ha, hb]
  · simp [ha, hb]

/-- C28: player `0` is `player2` of the waiting room 1 and of no other row, the ids are unique
and every player is in at most one active room. The claim asks that the plain join keeps it so.
The handler runs its check under `if (updates.player2)`: for the plain join of room 2 with
`player2 = 0` the value is falsy, the check is skipped, the join is answered HTTP 200 and player
`0` is in two active rooms. -/
theorem join_zero_breaks_invariant :
    (run [.create 0 (.val "AB12") (.val 7) .absent,
        .update 1 1 { Patch.none with player2 := .val 0 },
        .create 2 (.val "CD34") (.val 8) .absent]).rows.Pairwise (fun a b => a.id ≠ b.id) ∧
    (∀ q, (activeRoomsOf (run [.create 0 (.val "AB12") (.val 7) .absent,
        .update 1 1 { Patch.none with player2 := .val 0 },
        .create 2 (.val "CD34") (.val 8) .absent]).rows q).length ≤ 1) ∧
    (update_room (run [.create 0 (.val "AB12") (.val 7) .absent,
        .update 1 1 { Patch.none with player2 := .val 0 },
        .create 2 (.val "CD34") (.val 8) .absent]) 3 2
      { Patch.none with player2 := .val 0 }).2.http = 200 ∧
    (activeRoomsOf (update_room (run [.create 0 (.val "AB12") (.val 7) .absent,
        .update 1 1 { Patch.none with player2 := .val 0 },
        .create 2 (.val "CD34") (.val 8) .absent]) 3 2
      { Patch.none with player2 := .val 0 }).1.rows 0).length = 2 := by
  refine ⟨by decide, ?_, by decide, by decide⟩
  intro q
  have hrows : (run [.create 0 (.val "AB12") (.val 7) .absent,
      .update 1 1 { Patch.none with player2 := .val 0 },
      .create 2 (.val "CD34") (.val 8) .absent]).rows
      = [{ newRoom 1 0 "AB12" 7 (some 0) with player2 := some 0, updated_at := 1 },
         newRoom 2 2 "CD34" 8 (some 0)] := by decide
  rw [hrows]
  apply activeRoomsOf_pair_le_one
  rintro ⟨h1, h2⟩
  have h3 : q = 8 := by
    rcases h2 with h | h
    · exact h.symm
    · simp [newRoom] at h
  subst h3
  revert h1
  decide

/-- Outside the falsy id the two paths keep the invariant: on a table with unique ids in which
every player is in at most one active room, the same holds after a create request, whatever its
arguments and outcome, and after a plain join `update_room(id, {player2: p})` with a player id
`p` other than `0`, whatever its outcome. -/
theorem create_and_join_keep_invariant (s : Store)
    (huniq : s.rows.Pairwise (fun a b => a.id ≠ b.id))
    (hinv : ∀ q, (activeRoomsOf s.rows q).length ≤ 1) :
    (∀ (now : Int) (room_code : Field String) (player1 : Field Int) (bet : Field Int) (q : Int),
      (activeRoomsOf (create_room s now room_code player1 bet).1.rows q).length ≤ 1) ∧
    (∀ (now roomId p : Int), p ≠ 0 → ∀ q : Int,
      (activeRoomsOf (update_room s now roomId
        { Patch.none with player2 := .val p }).1.rows q).length ≤ 1) := by
  have hinv2 : RunInv s.rows := ⟨huniq, hinv⟩
  refine ⟨?_, ?_⟩
  · intro now room_code player1 bet q
    exact (runInv_create_room s now room_code player1 bet hinv2).2 q
  · intro now roomId p hp q
    refine (runInv_update_room s now roomId { Patch.none with player2 := .val p } ?_ hinv2).2 q
    refine ⟨rfl, ?_, ?_⟩
    · intro h
      exact hp (Field.val.inj h)
    · intro g hg
      exact Field.noConfusion hg

/-! ## The frame of a sweep -/

/-- C29: every row of the table after a sweep comes from a row of the table before it, with the
same id, `room_code`, `player1`, `player2`, `bet`, gameplay columns and `created_at`; it is that
row unchanged, or the row was `waiting` and is now `closed`, or the row was `game` and is now
`finished`; a row that is `waiting` or `game` after the sweep is an unchanged old row. The sweep
inserts nothing: the ids after it are a sublist of the ids before it. This holds whatever clock
each of the four statements reads, in particular for one sweep time. -/
theorem sweep_only_closes_finishes_deletes (s : Store) (t1 t2 t3 t4 : Int) :
    (∀ r2 ∈ (cleanupClosedRooms s t1 t2 t3 t4).rows, ∃ r ∈ s.rows,
      r2.id = r.id ∧ r2.room_code = r.room_code ∧ r2.player1 = r.player1 ∧
      r2.player2 = r.player2 ∧ r2.bet = r.bet ∧ r2.sender_hod = r.sender_hod ∧
      r2.protect_hod = r.protect_hod ∧ r2.zone_sender = r.zone_sender ∧
      r2.zone_protect1 = r.zone_protect1 ∧ r2.zone_protect2 = r.zone_protect2 ∧
      r2.created_at = r.created_at ∧
      (r2 = r ∨ (r.game_state = some "waiting" ∧ r2.game_state = some "closed") ∨
        (r.game_state = some "game" ∧ r2.game_state = some "finished")) ∧
      (isActive r2 → r2 = r)) ∧
    ((cleanupClosedRooms s t1 t2 t3 t4).rows.map Room.id).Sublist (s.rows.map Room.id) ∧
    (cleanupClosedRooms s t1 t2 t3 t4).rows.length ≤ s.rows.length ∧
    (cleanupClosedRooms s t1 t2 t3 t4).nextId = s.nextId := by
  have hsub : ((cleanupClosedRooms s t1 t2 t3 t4).rows.map Room.id).Sublist
      (s.rows.map Room.id) := by
    unfold cleanupClosedRooms deleteFinishedRooms deleteClosedRooms
    rw [closeInactiveRooms_eq_map, autoFinishGames_eq_map]
    have hid : s.rows.map Room.id
        = ((s.rows.map (closeRow t1)).map (finishRow t3)).map Room.id := by
      rw [List.map_map, List.map_map]
      apply List.map_congr_left
      intro r _
      simp [finishRow_id, closeRow_id]
    have hid2 : ∀ l : List Room, (l.map (finishRow t3)).map Room.id = l.map Room.id := by
      intro l
      rw [List.map_map]
      apply List.map_congr_left
      intro r _
      simp [finishRow_id]
    rw [hid]
    refine List.Sublist.trans (List.Sublist.map _ (List.filter_sublist _)) ?_
    rw [hid2, hid2]
    exact List.Sublist.map _ (List.filter_sublist _)
  refine ⟨?_, hsub, ?_, rfl⟩
  · intro r2 hr2
    obtain ⟨r, hr, _, hx, _⟩ := (mem_cleanupClosedRooms s t1 t2 t3 t4 r2).mp hr2
    refine ⟨r, hr, ?_⟩
    by_cases hw : r.game_state = some "waiting" ∧ r.updated_at < t1 - minutes 5
    · have hc : closeRow t1 r = { r with game_state := some "closed", updated_at := t1 } := by
        simp [closeRow, hw]
      have hx2 : r2 = { r with game_state := some "closed", updated_at := t1 } := by
        rw [hx, hc]; simp [finishRow]
      rw [hx2]
      refine ⟨rfl, rfl, rfl, rfl, rfl, rfl, rfl, rfl, rfl, rfl, rfl, Or.inr (Or.inl ⟨hw.1, rfl⟩),
        ?_⟩
      intro ha
      exfalso
      revert ha
      simp [isActive]
    · have hc : closeRow t1 r = r := by
        unfold closeRow; rw [if_neg hw]
      rw [hc] at hx
      by_cases hg : r.game_state = some "game" ∧ r.updated_at < t3 - seconds 30
      · have hf : finishRow t3 r
            = { r with game_state := some "finished", updated_at := t3 } := by
          simp [finishRow, hg]
        rw [hx, hf]
        refine ⟨rfl, rfl, rfl, rfl, rfl, rfl, rfl, rfl, rfl, rfl, rfl,
          Or.inr (Or.inr ⟨hg.1, rfl⟩), ?_⟩
        intro ha
        exfalso
        revert ha
        simp [isActive]
      · have hf : finishRow t3 r = r := by
          unfold finishRow; rw [if_neg hg]
        rw [hf] at hx
        rw [hx]
        exact ⟨rfl, rfl, rfl, rfl, rfl, rfl, rfl, rfl, rfl, rfl, rfl, Or.inl rfl, fun _ => rfl⟩
  · have := hsub.length_le
    simpa using this

/-! ## The join path: check, then write -/

/-- The PUT handler is its join check followed by its write part. -/
theorem update_room_eq_check_then_write (s : Store) (now roomId : Int) (u : Patch) :
    update_room s now roomId u =
      if joinCheckRaises roomId u then (s, errorResponse 500 Msg.updateFailed)
      else
        match joinConflicts s.rows roomId u with
        | activeGame :: _ => (s, activeConflict activeGame.room_code)
        | [] => update_room_write s now roomId u := by
  unfold update_room update_room_write
  rfl

/-- C26: there is a store in which every player is in at most one active room, a player `p`
and two different active rooms such that, when the join checks of two requests
`update_room(id1, {player2: p})` and `update_room(id2, {player2: p})` are both run before either
write, both checks run through and find nothing, both writes are then answered HTTP 200, and `p`
ends up in two active rooms; run one after another, the second request is refused with
HTTP 400. -/
theorem join_race_two_rooms :
    ∃ (s : Store) (p id1 id2 t1 t2 : Int),
      (∀ q, (activeRoomsOf s.rows q).length ≤ 1) ∧ id1 ≠ id2 ∧
      (∃ r ∈ s.rows, r.id = id1 ∧ isActive r) ∧ (∃ r ∈ s.rows, r.id = id2 ∧ isActive r) ∧
      joinCheckRaises id1 { Patch.none with player2 := .val p } = false ∧
      joinCheckRaises id2 { Patch.none with player2 := .val p } = false ∧
      joinConflicts s.rows id1 { Patch.none with player2 := .val p } = [] ∧
      joinConflicts s.rows id2 { Patch.none with player2 := .val p } = [] ∧
      (update_room_write s t1 id1 { Patch.none with player2 := .val p }).2.http = 200 ∧
      (update_room_write (update_room_write s t1 id1 { Patch.none with player2 := .val p }).1
        t2 id2 { Patch.none with player2 := .val p }).2.http = 200 ∧
      (activeRoomsOf (update_room_write
        (update_room_write s t1 id1 { Patch.none with player2 := .val p }).1
        t2 id2 { Patch.none with player2 := .val p }).1.rows p).length = 2 ∧
      (update_room (update_room s t1 id1 { Patch.none with player2 := .val p }).1
        t2 id2 { Patch.none with player2 := .val p }).2.http = 400 := by
  refine ⟨run [.create 0 (.val "AB12") (.val 7) .absent, .create 1 (.val "CD34") (.val 8) .absent],
    9, 1, 2, 2, 3, ?_, by decide, by decide, by decide, by decide, by decide, by decide,
    by decide, by decide, by decide, by decide, by decide⟩
  exact (runInv_foldl [.create 0 (.val "AB12") (.val 7) .absent,
    .create 1 (.val "CD34") (.val 8) .absent] emptyStore ⟨trivial, trivial, trivial⟩
    runInv_nil).2

/-! ## The rows of a run hold values of their column types -/

theorem typedRows_sublist (l1 l2 : List Room) (hs : l1.Sublist l2) (h : typedRows l2) :
    typedRows l1 :=
  fun r hr => h r (hs.subset hr)

theorem typedRows_create_room (s : Store) (now : Int) (room_code : Field String)
    (player1 : Field Int) (bet : Field Int) (h : typedRows s.rows) :
    typedRows (create_room s now room_code player1 bet).1.rows := by
  rcases create_room_cases s now room_code player1 bet with
    ⟨_, hres⟩ | ⟨c, p, _, _, _, _, hcase⟩
  · rw [hres]; exact h
  · rcases hcase with ⟨_, hres⟩ | ⟨_, a, _, _, hres⟩ | ⟨_, _, _, hres⟩ | ⟨_, _, _, _, hres⟩ |
      ⟨_, _, _, _, _, _, hrows⟩ | ⟨h8, _, hn, _, _, hres⟩
    · rw [hres]; exact h
    · rw [hres]; exact h
    · rw [hres]; exact h
    · rw [hres]; exact h
    · rw [hrows]; exact h
    · rw [hres]
      intro r hr
      rcases List.mem_append.mp hr with hr | hr
      · exact h r hr
      · have : r = newRoom s.nextId now (clip 4 c) p (betOrDefault bet) := by simpa using hr
        rw [this]
        exact ⟨hasNul_clip 4 c hn, h8, rfl⟩

theorem typedRows_update_room (s : Store) (now roomId : Int) (u : Patch)
    (h : typedRows s.rows) : typedRows (update_room s now roomId u).1.rows := by
  by_cases hok : (update_room s now roomId u).2.http = 200
  · obtain ⟨t, ts, _, _, _, _, hur, _, _, hres⟩ := update_room_ok s now roomId u hok
    simp only [Patch.unreadable, Bool.or_eq_false_iff] at hur
    obtain ⟨⟨⟨⟨⟨⟨⟨⟨⟨⟨⟨_, _⟩, hcode⟩, hp1⟩, hp2⟩, _⟩, _⟩, _⟩, _⟩, _⟩, _⟩, _⟩ := hur
    rw [hres]
    intro r hr
    obtain ⟨x, hx, hxr⟩ := List.mem_map.mp hr
    obtain ⟨hx1, hx2, hx3⟩ := h x hx
    by_cases hxi : x.id = roomId
    · simp only [hxi, if_true] at hxr
      rw [← hxr]
      refine ⟨?_, ?_, ?_⟩
      · show hasNul ((u.room_code.clip 4).writeReq x.room_code) = false
        cases hc : u.room_code with
        | absent => simpa [Field.clip, Field.writeReq] using hx1
        | null => simpa [Field.clip, Field.writeReq] using hx1
        | val v =>
          simp only [Field.clip, Field.writeReq]
          apply hasNul_clip
          have := hcode
          simp only [hc, Field.badText, Bool.or_eq_false_iff] at this
          exact this.1
      · show inInt8 (u.player1.writeReq x.player1)
        cases hc : u.player1 with
        | absent => simpa [Field.writeReq] using hx2
        | null => simpa [Field.writeReq] using hx2
        | val v =>
          simp only [Field.writeReq]
          simpa [hc, Field.outOf] using hp1
      · show nullOr inInt8 (u.player2.write x.player2) = true
        cases hc : u.player2 with
        | absent => simpa [Field.write] using hx3
        | null => rfl
        | val v =>
          simp only [Field.write, nullOr]
          simpa [hc, Field.outOf] using hp2
    · simp only [hxi, if_false] at hxr
      rw [← hxr]
      exact ⟨hx1, hx2, hx3⟩
  · rw [update_room_fail s now roomId u hok]
    exact h

theorem typedRows_cleanupClosedRooms (s : Store) (t1 t2 t3 t4 : Int) (h : typedRows s.rows) :
    typedRows (cleanupClosedRooms s t1 t2 t3 t4).rows := by
  intro r hr
  rw [mem_cleanupClosedRooms] at hr
  obtain ⟨x, hx, _, hxr, _⟩ := hr
  obtain ⟨hx1, hx2, hx3⟩ := h x hx
  have e1 : (finishRow t3 (closeRow t1 x)).room_code = x.room_code := by
    rw [finishRow_room_code, closeRow_room_code]
  have e2 : (finishRow t3 (closeRow t1 x)).player1 = x.player1 := by
    unfold finishRow closeRow
    split <;> split <;> rfl
  have e3 : (finishRow t3 (closeRow t1 x)).player2 = x.player2 := by
    unfold finishRow closeRow
    split <;> split <;> rfl
  rw [hxr, e1, e2, e3]
  exact ⟨hx1, hx2, hx3⟩

theorem typedRows_step (s : Store) (op : Op) (h : typedRows s.rows) :
    typedRows (step s op).rows := by
  cases op with
  | create now room_code player1 bet => exact typedRows_create_room s now room_code player1 bet h
  | update now roomId u => exact typedRows_update_room s now roomId u h
  | delete roomId => exact typedRows_sublist _ _ (delete_room_sublist s roomId) h
  | sweep t1 t2 t3 t4 => exact typedRows_cleanupClosedRooms s t1 t2 t3 t4 h

theorem typedRows_foldl (ops : List Op) (s : Store) (h : typedRows s.rows) :
    typedRows (ops.foldl step s).rows := by
  induction ops generalizing s with
  | nil => exact h
  | cons op rest ih => exact ih (step s op) (typedRows_step s op h)

/-- In every store reached from the empty table the rows hold values of their column types: the
typing hypothesis that statements above make on the table is met along every run. -/
theorem typedRows_run (ops : List Op) : typedRows (run ops).rows :=
  typedRows_foldl ops emptyStore (fun _ hr => absurd hr (List.not_mem_nil _))

/-! ## Card transfer -/

theorem eraseFirst_length (p : String → Bool) (l : List String) (h : l.any p = true) :
    (eraseFirst p l).length + 1 = l.length := by
  induction l with
  | nil => simp at h
  | cons a t ih =>
    by_cases ha : p a = true
    · simp [eraseFirst, ha]
    · have ht : t.any p = true := by
        simpa [List.any_cons, ha] using h
      simp [eraseFirst, ha, ih ht]

/-- The rollback at work: whatever the request, the readings of the ids and the statement the
store may raise on, a transfer that is not answered HTTP 200 has status `error` and leaves the
table, so every user's cards, exactly as before. -/
theorem transfer_card_failure_unchanged (lower : String → String)
    (readInt : String → Option Int) (raises : TxStmt → Bool) (users : List User) (now : Int)
    (fromUserId toUserId : Field JsId) (cardKey : Field String)
    (h : (transfer_card lower readInt raises users now fromUserId toUserId cardKey).2.http
      ≠ 200) :
    (transfer_card lower readInt raises users now fromUserId toUserId cardKey).2.status
      = Status.error ∧
    (transfer_card lower readInt raises users now fromUserId toUserId cardKey).1 = users := by
  cases fromUserId with
  | absent => simp [transfer_card, cardError]
  | null => simp [transfer_card, cardError]
  | val f =>
    cases toUserId with
    | absent => simp [transfer_card, cardError]
    | null => simp [transfer_card, cardError]
    | val t =>
      cases cardKey with
      | absent => simp [transfer_card, cardError]
      | null => simp [transfer_card, cardError]
      | val k =>
        by_cases hg : f.truthy = false ∨ t.truthy = false ∨ k = ""
        · simp [transfer_card, hg, cardError]
        · by_cases hft : f = t
          · subst hft; simp [transfer_card, hg, cardError]
          · by_cases hb : raises .beginTx = true ∨ raises .selectFrom = true
            · simp [transfer_card, hg, hft, hb, cardError]
            · cases hfi : f.toInt8 readInt with
              | none => simp [transfer_card, hg, hft, hb, hfi, cardError]
              | some fromId =>
                cases hff : users.filter (fun u => u.id = fromId) with
                | nil => simp [transfer_card, hg, hft, hb, hfi, hff, cardError]
                | cons fromUser fs =>
                  by_cases hst : raises .selectTo = true
                  · simp [transfer_card, hg, hft, hb, hfi, hff, hst, cardError]
                  · cases hti : t.toInt8 readInt with
                    | none => simp [transfer_card, hg, hft, hb, hfi, hff, hst, hti, cardError]
                    | some toId =>
                      cases hft2 : users.filter (fun u => u.id = toId) with
                      | nil =>
                        simp [transfer_card, hg, hft, hb, hfi, hff, hst, hti, hft2, cardError]
                      | cons toUser ts =>
                        by_cases hown : (parseCards fromUser.cards).any
                            (fun card => lower card = lower k) = true
                        · by_cases h1 : raises .updateFrom = true
                          · simp [transfer_card, hg, hft, hb, hfi, hff, hst, hti, hft2, hown,
                              h1, cardError]
                          · by_cases h2 : raises .updateTo = true
                            · simp [transfer_card, hg, hft, hb, hfi, hff, hst, hti, hft2, hown,
                                h1, h2, cardError]
                            · by_cases h3 : raises .commitTx = true
                              · simp [transfer_card, hg, hft, hb, hfi, hff, hst, hti, hft2,
                                  hown, h1, h2, h3, cardError]
                              · exfalso
                                apply h
                                simp [transfer_card, hg, hft, hb, hfi, hff, hst, hti, hft2,
                                  hown, h1, h2, h3]
                        · simp [transfer_card, hg, hft, hb, hfi, hff, hst, hti, hft2, hown,
                            cardError]

/-- Two runs of the transfer on the same table: without a store error the card moves from
user 1 to user 2; when the store raises on the second update, the answer is HTTP 500 and the
table is as before, the first update included. -/
theorem transfer_card_examples :
    transfer_card basicLower readDecimal (fun _ => false)
        [{ id := 1, first_name := "A", balance := some 10, cards := some "Ли камара",
           updated_at := 0 },
         { id := 2, first_name := "B", balance := some 10, cards := some "[]",
           updated_at := 0 }] 5 (.val (.num 1)) (.val (.num 2)) (.val "ли") =
      ([{ id := 1, first_name := "A", balance := some 10, cards := some "камара",
          updated_at := 5 },
        { id := 2, first_name := "B", balance := some 10, cards := some "ли",
          updated_at := 5 }],
       { http := 200, status := .success, message := .transferred, user := none,
         craftedCard := none, transferDetails := some ("ли", "A", "B") }) ∧
    transfer_card basicLower readDecimal (fun st => decide (st = .updateTo))
        [{ id := 1, first_name := "A", balance := some 10, cards := some "Ли камара",
           updated_at := 0 },
         { id := 2, first_name := "B", balance := some 10, cards := some "[]",
           updated_at := 0 }] 5 (.val (.num 1)) (.val (.num 2)) (.val "ли") =
      ([{ id := 1, first_name := "A", balance := some 10, cards := some "Ли камара",
          updated_at := 0 },
        { id := 2, first_name := "B", balance := some 10, cards := some "[]",
          updated_at := 0 }],
       cardError 500 .transferFailed) ∧
    transfer_card basicLower readDecimal (fun _ => false)
        [{ id := 1, first_name := "A", balance := some 10, cards := some "Ли камара",
           updated_at := 0 }] 5 (.val (.num 1)) (.val (.num 1)) (.val "ли") =
      ([{ id := 1, first_name := "A", balance := some 10, cards := some "Ли камара",
          updated_at := 0 }],
       cardError 400 .selfTransfer) := by
  decide

/-- C27: user 1 holds the cards `ли камара` and the request names the sender as the number `1`
and the receiver as the string `"1"`. The claim asks that a transfer answered with success takes
one occurrence of the card from the sender. The guard `fromUserId === toUserId` tells the number
from the string and lets the request pass; both ids then name the row of user 1, which is read
twice before either update. The first update writes `камара`, the second one overwrites it with
`ли камара ли`; the transaction commits and the answer is HTTP 200: the sender has lost nothing
and holds one card more than before. -/
theorem transfer_card_to_self_duplicates :
    JsId.num 1 ≠ JsId.str "1" ∧
    JsId.toInt8 readDecimal (.num 1) = some 1 ∧ JsId.toInt8 readDecimal (.str "1") = some 1 ∧
    transfer_card basicLower readDecimal (fun _ => false)
        [{ id := 1, first_name := "A", balance := some 10, cards := some "ли камара",
           updated_at := 0 }] 5 (.val (.num 1)) (.val (.str "1")) (.val "ли") =
      ([{ id := 1, first_name := "A", balance := some 10, cards := some "ли камара ли",
          updated_at := 5 }],
       { http := 200, status := .success, message := .transferred, user := none,
         craftedCard := none, transferDetails := some ("ли", "A", "A") }) ∧
    parseCards (some "ли камара") = ["ли", "камара"] ∧
    parseCards (some "ли камара ли") = ["ли", "камара", "ли"] := by
  decide

/-! ## Craft -/

/-- C30 (the code at two failing inputs). First: the inventory holds `Барулин барулин ли`
(3 cards) and the request selects `{"Барулин": 2, "барулин": 1}` for recipe `rare`. The total is
3, each key finds 2 matching cards (the count is case-blind), so the request is accepted; the
removal takes the two matching cards for the first key and finds none for the second; with
the crafted card the inventory holds 2 cards: the size changes by -1, and 2 cards were
consumed, not 3. Second: the inventory holds 4 `ли` and 1 `камара` and the request selects
`{"ли": 4, "камара": -1}`; the total is 3, the request is accepted, 4 cards are removed and the
size changes by -3. -/
theorem craft_accepts_without_consuming_three :
    parseCards (some "Барулин барулин ли") = ["Барулин", "барулин", "ли"] ∧
    craft basicLower
        [{ id := 1, first_name := "A", balance := some 10, cards := some "Барулин барулин ли",
           updated_at := 0 }] 5000 1 (.val "rare") (.val [("Барулин", 2), ("барулин", 1)]) 0 =
      ([{ id := 1, first_name := "A", balance := some 10, cards := some "ли абросимов",
          updated_at := 5000 }],
       { http := 200, status := .success, message := .crafted,
         user := some { id := 1, first_name := "A", balance := some 10,
                        cards := some "ли абросимов", updated_at := 5000 },
         craftedCard := some "абросимов", transferDetails := none }) ∧
    parseCards (some "ли абросимов") = ["ли", "абросимов"] ∧
    parseCards (some "ли ли ли ли камара") = ["ли", "ли", "ли", "ли", "камара"] ∧
    (craft basicLower
        [{ id := 1, first_name := "A", balance := some 10, cards := some "ли ли ли ли камара",
           updated_at := 0 }] 5000 1 (.val "rare") (.val [("ли", 4), ("камара", -1)]) 0).1 =
      [{ id := 1, first_name := "A", balance := some 10, cards := some "камара абросимов",
         updated_at := 5000 }] ∧
    (craft basicLower
        [{ id := 1, first_name := "A", balance := some 10, cards := some "ли ли ли ли камара",
           updated_at := 0 }] 5000 1 (.val "rare") (.val [("ли", 4), ("камара", -1)]) 0).2.http
      = 200 := by
  decide

/-- The lookup of a recipe under a name that `craftRecipes` inherits: the value found has no
`required`, so the request gets as far as the count check and is refused there, not as an
unknown recipe. -/
theorem craft_inherited_name :
    (craft basicLower
        [{ id := 1, first_name := "A", balance := some 10, cards := some "ли ли ли",
           updated_at := 0 }] 5000 1 (.val "constructor") (.val [("ли", 3)]) 0).2
      = cardError 400 .exactCount ∧
    (craft basicLower
        [{ id := 1, first_name := "A", balance := some 10, cards := some "ли ли ли",
           updated_at := 0 }] 5000 1 (.val "legendary") (.val [("ли", 3)]) 0).2
      = cardError 400 .unknownRecipe := by
  decide

end GameServer
